import Mathlib

/-!
Verification development for the IPL static analyzer and graph synthesizer.

The Python sources are embedded shallowly:

* `analyzer.py` — type model (`_BaseType`, `_Type`), scoped symbol table and
  the `StaticAnalysisInterpreter` visitors become pure Lean functions over an
  explicit `AnState`; Python exceptions (IndexError, AttributeError, ...) are
  modelled by `Option`.
* `graphs.py` — `CFGraphInterpreter` and `SDGraphInterpreter` become state
  machines over explicit builder states producing per-function graphs.
* `main.py` — the per-file status aggregation of `main` / `_gen_outputs`.

Node names `nodeN` / `nodecomplex` of pydot are represented by the inductive
`NId` (the rendering into strings is injective, so nothing is lost).
-/

/-- `_BaseType` of analyzer.py. -/
inductive BaseType where
  | INT | BOOL | FLOAT | STRING | LIST | TUPLE | ARRAY | VOID | ANY
deriving DecidableEq, Repr

/-- `_BaseType.__eq__` (analyzer.py lines 23-30): `self is rhs`, or either
side's value equals `ANY.value`, yields `True`; otherwise the values are
compared. -/
def baseEq (a b : BaseType) : Bool :=
  if a = b ∨ a = BaseType.ANY ∨ b = BaseType.ANY then true else a = b

mutual
/-- Python values that can occur in the "type" slot of a visitor result:
a `_Type` instance (base plus `typename` attribute), `None`, an `int`, or a
tuple of such values (`tuple[_Type, ...]` and `tuple[_Type, int]` are both
Python tuples).  `PyVals` mirrors Python tuples/lists of such values. -/
inductive PyVal where
  | type (base : BaseType) (tn : PyVal)
  | vnone
  | vint (n : Int)
  | vtuple (vs : PyVals)
deriving DecidableEq, Repr
inductive PyVals where
  | nil
  | cons (v : PyVal) (vs : PyVals)
deriving DecidableEq, Repr
end

mutual
/-- Python `==` on the values above.  The `.type/.type` arm is
`_Type.__eq__` (analyzer.py lines 42-47): `rhs` of another shape gives
`False`; otherwise identity, or either base comparing equal to `ANY`
(via `baseEq`), gives `True`; otherwise bases and typenames are compared.
`None` and `int` compare by identity/value; tuples compare pointwise. -/
def pyEq : PyVal → PyVal → Bool
  | PyVal.type b1 t1, PyVal.type b2 t2 =>
      if baseEq b1 BaseType.ANY || baseEq b2 BaseType.ANY then true
      else baseEq b1 b2 && pyEq t1 t2
  | PyVal.type _ _, _ => false
  | PyVal.vnone, PyVal.vnone => true
  | PyVal.vnone, _ => false
  | PyVal.vint m, PyVal.vint n => m = n
  | PyVal.vint _, _ => false
  | PyVal.vtuple vs, PyVal.vtuple ws => pyEqs vs ws
  | PyVal.vtuple _, _ => false
def pyEqs : PyVals → PyVals → Bool
  | PyVals.nil, PyVals.nil => true
  | PyVals.cons v vs, PyVals.cons w ws => pyEq v w && pyEqs vs ws
  | _, _ => false
end

/-- `baseEq` against `ANY` is always `true`. -/
theorem baseEq_any_right (a : BaseType) : baseEq a BaseType.ANY = true := by
  simp [baseEq]

/-- Any two `_Type` instances compare equal under the code's `__eq__`:
the guard `self.base == _BaseType['ANY']` is itself evaluated with the
wildcard-aware `_BaseType.__eq__`, hence always true. -/
theorem pyEq_type_type (b1 b2 : BaseType) (t1 t2 : PyVal) :
    pyEq (PyVal.type b1 t1) (PyVal.type b2 t2) = true := by
  simp [pyEq, baseEq_any_right]

mutual
/-- Structural type equality as the specification describes it (§3.1):
`Any` is equal to every type on either side; otherwise bases must match and
parameters must be recursively equal.  Declared only to exhibit the
divergence of the code's `__eq__`; the code above is the authority. -/
def specEquals : PyVal → PyVal → Bool
  | PyVal.type BaseType.ANY _, PyVal.type _ _ => true
  | PyVal.type _ _, PyVal.type BaseType.ANY _ => true
  | PyVal.type b1 t1, PyVal.type b2 t2 => b1 = b2 && specEquals t1 t2
  | PyVal.vnone, PyVal.vnone => true
  | PyVal.vint m, PyVal.vint n => m = n
  | PyVal.vtuple vs, PyVal.vtuple ws => specEqualsList vs ws
  | _, _ => false
/-- Pointwise structural equality on parameter tuples. -/
def specEqualsList : PyVals → PyVals → Bool
  | PyVals.nil, PyVals.nil => true
  | PyVals.cons v vs, PyVals.cons w ws => specEquals v w && specEqualsList vs ws
  | _, _ => false
end

/-- The `int` type value `_Type(_BaseType.INT)`. -/
def tyInt : PyVal := PyVal.type BaseType.INT PyVal.vnone

/-- The `bool` type value. -/
def tyBool : PyVal := PyVal.type BaseType.BOOL PyVal.vnone

/-- The `string` type value. -/
def tyString : PyVal := PyVal.type BaseType.STRING PyVal.vnone

/-- The `Any` wildcard type value. -/
def tyAny : PyVal := PyVal.type BaseType.ANY PyVal.vnone

/-- C1: the claim says `equals` is structural away from `Any`: for non-Any
`a`, `b` it should hold iff bases match and parameters are recursively
equal.  The code instead makes every pair of `_Type` instances equal: in
`_Type.__eq__` the guard `self.base == _BaseType['ANY']` is evaluated with
the wildcard-aware `_BaseType.__eq__` and is therefore always true.  In
particular `equals(int, bool)` holds in the code while the specification's
structural relation rejects it. -/
theorem c1_typeEq_degenerate :
    (∀ (b1 b2 : BaseType) (t1 t2 : PyVal),
        pyEq (PyVal.type b1 t1) (PyVal.type b2 t2) = true)
      ∧ pyEq tyInt tyBool = true
      ∧ specEquals tyInt tyBool = false := by
  refine ⟨pyEq_type_type, pyEq_type_type _ _ _ _, ?_⟩
  decide

/-! ## The AST delivered by the parser (grammar in ipl.py) -/

mutual
/-- A type expression (`type` rule).  `arrayT` keeps the size token's text
together with its numeric value `int(sizeTok)`. -/
inductive TypeExpr where
  | prim (b : BaseType)
  | tupleT (t1 : TypeExpr) (t2 : TypeExpr) (rest : TypeExprs)
  | arrayT (t : TypeExpr) (sizeTok : String) (size : Int)
  | listT (t : TypeExpr)
/-- A list of type expressions. -/
inductive TypeExprs where
  | nil
  | cons (t : TypeExpr) (ts : TypeExprs)
end

deriving instance DecidableEq for TypeExpr
deriving instance DecidableEq for TypeExprs
deriving instance Repr for TypeExpr
deriving instance Repr for TypeExprs

/-- A `var_bind`: `NAME : TYPE`. -/
structure VarBind where
  name : String
  ty : TypeExpr
deriving DecidableEq, Repr

/-- The literal allowed in an `of(...)` arm: an int or string token. -/
inductive CaseLit where
  | intC (tok : String)
  | strC (tok : String)
deriving DecidableEq, Repr

mutual
/-- Expressions (`expression` rule and its alternatives). -/
inductive Expr where
  | plus (a b : Expr)
  | minus (a b : Expr)
  | mul (a b : Expr)
  | div (a b : Expr)
  | mod (a b : Expr)
  | exp (a b : Expr)
  | prepend (a b : Expr)
  | append (a b : Expr)
  | eq (a b : Expr)
  | neq (a b : Expr)
  | and (a b : Expr)
  | or (a b : Expr)
  | not (a : Expr)
  | paren (a : Expr)
  | varDeref (x : String) (idx : OExpr)
  | call (f : String) (args : Exprs)
  | readE
  | headE (a : Expr)
  | tailE (a : Expr)
  | lit (l : Lit)
/-- An optional expression (used by `var_deref`'s index and `ret`). -/
inductive OExpr where
  | none
  | some (e : Expr)
/-- A list of expressions. -/
inductive Exprs where
  | nil
  | cons (e : Expr) (es : Exprs)
/-- Literals; tokens keep their source text. -/
inductive Lit where
  | intL (tok : String)
  | floatL (tok : String)
  | strL (tok : String)
  | boolL (tok : String)
  | listL (es : Exprs)
  | arrayL (es : Exprs)
  | tupleL (es : Exprs)
end

deriving instance DecidableEq for Expr
deriving instance DecidableEq for OExpr
deriving instance DecidableEq for Exprs
deriving instance DecidableEq for Lit

mutual
/-- Instructions.  The `control_flow`/`branch_flow`/`loop_flow` wrapper
rules only dispatch to their child, so the flow forms are inlined here. -/
inductive Instr where
  | varDefn (b : VarBind) (e : Expr)
  | retI (e : OExpr)
  | writeI (es : Exprs)
  | attrib (x : String) (idx : OExpr) (e : Expr)
  | callI (f : String) (args : Exprs)
  | ifF (c : Expr) (body : Instrs) (elifs : Elifs) (els : ElseB)
  | unlessF (c : Expr) (body : Instrs)
  | caseF (scrut : Expr) (arms : Ofs) (dflt : Instrs)
  | whileF (c : Expr) (body : Instrs)
  | doWhileF (body : Instrs) (c : Expr)
  | forF (x : String) (e : Expr) (body : Instrs)
/-- A list of instructions. -/
inductive Instrs where
  | nil
  | cons (i : Instr) (is : Instrs)
/-- The `elif` chain of an `if`. -/
inductive Elifs where
  | nil
  | cons (c : Expr) (body : Instrs) (rest : Elifs)
/-- The optional `else` block. -/
inductive ElseB where
  | noneE
  | someE (body : Instrs)
/-- The `of(...)` arms of a `case`. -/
inductive Ofs where
  | nil
  | cons (l : CaseLit) (body : Instrs) (rest : Ofs)
end

deriving instance DecidableEq for Instr
deriving instance DecidableEq for Instrs
deriving instance DecidableEq for Elifs
deriving instance DecidableEq for ElseB
deriving instance DecidableEq for Ofs

/-- A function definition (`func_defn`). -/
structure FuncDefn where
  name : String
  params : List VarBind
  retTy : Option TypeExpr
  body : Instrs
deriving DecidableEq

/-- A top-level construct. -/
inductive Construct where
  | fnC (fd : FuncDefn)
  | varC (b : VarBind) (e : Expr)
deriving DecidableEq

/-! ## Shared helpers -/

/-- `', '.join(...)`. -/
def joinComma : List String → String
  | [] => ""
  | [s] => s
  | s :: rest => s ++ ", " ++ joinComma rest

/-- First value bound to a key in an insertion-ordered mapping. -/
def lookup? {α : Type} : List (String × α) → String → Option α
  | [], _ => Option.none
  | (k, v) :: rest, key => if k = key then Option.some v else lookup? rest key

/-- Python dict assignment `d[k] = v`: replace in place, else append. -/
def setAssoc {α : Type} : List (String × α) → String → α → List (String × α)
  | [], key, v => [(key, v)]
  | (k, w) :: rest, key, v =>
      if k = key then (k, v) :: rest else (k, w) :: setAssoc rest key v

/-- `.base` attribute access; `AttributeError` on non-`_Type` values. -/
def baseOf : PyVal → Option BaseType
  | PyVal.type b _ => Option.some b
  | _ => Option.none

/-- `.typename` attribute access; `AttributeError` on non-`_Type` values. -/
def typenameOf : PyVal → Option PyVal
  | PyVal.type _ t => Option.some t
  | _ => Option.none

/-- Python `v[0]`: only the tuple values used here are subscriptable. -/
def index0 : PyVal → Option PyVal
  | PyVal.vtuple (PyVals.cons a _) => Option.some a
  | _ => Option.none

/-- Pack a Lean list of values into a Python tuple value. -/
def toPyVals : List PyVal → PyVals
  | [] => PyVals.nil
  | v :: vs => PyVals.cons v (toPyVals vs)

/-- Length of a Python tuple value. -/
def PyVals.length : PyVals → Nat
  | PyVals.nil => 0
  | PyVals.cons _ vs => 1 + PyVals.length vs

/-- Length of an expression list. -/
def Exprs.length : Exprs → Nat
  | Exprs.nil => 0
  | Exprs.cons _ es => 1 + Exprs.length es

/-! ## The static analyzer: type expressions -/

/-- Source text of a primitive type token. -/
def primCode : BaseType → String
  | BaseType.INT => "int"
  | BaseType.BOOL => "bool"
  | BaseType.FLOAT => "float"
  | BaseType.STRING => "string"
  | BaseType.LIST => "list"
  | BaseType.TUPLE => "tuple"
  | BaseType.ARRAY => "array"
  | BaseType.VOID => "void"
  | BaseType.ANY => "any"

mutual
/-- The `_Type` built by the analyzer's `type`/`tuple_t`/`array_t`/`list_t`
visitors for a declared type (analyzer.py lines 289-315).  `array_t` stores
`(element_type, int(size))`. -/
def typePyVal : TypeExpr → PyVal
  | TypeExpr.prim b => PyVal.type b PyVal.vnone
  | TypeExpr.tupleT t1 t2 rest =>
      PyVal.type BaseType.TUPLE
        (PyVal.vtuple (PyVals.cons (typePyVal t1)
          (PyVals.cons (typePyVal t2) (typePyValList rest))))
  | TypeExpr.arrayT t _ n =>
      PyVal.type BaseType.ARRAY
        (PyVal.vtuple (PyVals.cons (typePyVal t) (PyVals.cons (PyVal.vint n) PyVals.nil)))
  | TypeExpr.listT t => PyVal.type BaseType.LIST (typePyVal t)
def typePyValList : TypeExprs → PyVals
  | TypeExprs.nil => PyVals.nil
  | TypeExprs.cons t ts => PyVals.cons (typePyVal t) (typePyValList ts)
end

mutual
/-- HTML-escaped source text of a type as the analyzer prints it
(`tuple&lt;...&gt;` etc.). -/
def typeCodeHtml : TypeExpr → String
  | TypeExpr.prim b => primCode b
  | TypeExpr.tupleT t1 t2 rest =>
      "tuple&lt;" ++ joinComma (typeCodeHtml t1 :: typeCodeHtml t2 :: typeCodeHtmlList rest)
        ++ "&gt;"
  | TypeExpr.arrayT t tok _ => "array&lt;" ++ typeCodeHtml t ++ ", " ++ tok ++ "&gt;"
  | TypeExpr.listT t => "list&lt;" ++ typeCodeHtml t ++ "&gt;"
def typeCodeHtmlList : TypeExprs → List String
  | TypeExprs.nil => []
  | TypeExprs.cons t ts => typeCodeHtml t :: typeCodeHtmlList ts
end

mutual
/-- Raw source text of a type as the graph builders print it
(graphs.py lines 176-197). -/
def typeCodeRaw : TypeExpr → String
  | TypeExpr.prim b => primCode b
  | TypeExpr.tupleT t1 t2 rest =>
      "tuple<" ++ joinComma (typeCodeRaw t1 :: typeCodeRaw t2 :: typeCodeRawList rest) ++ ">"
  | TypeExpr.arrayT t tok _ => "array<" ++ typeCodeRaw t ++ ", " ++ tok ++ ">"
  | TypeExpr.listT t => "list<" ++ typeCodeRaw t ++ ">"
def typeCodeRawList : TypeExprs → List String
  | TypeExprs.nil => []
  | TypeExprs.cons t ts => typeCodeRaw t :: typeCodeRawList ts
end

/-! ## The static analyzer: expressions

Expression visitors of `StaticAnalysisInterpreter` read `_vars`,
`_fns_params` and `_fns_ret_types` and only ever write through
`_set_err_string`.  They are embedded as pure functions from a read-only
`Ctx` returning the type value, the emitted code string and the ordered
list of messages passed to `_set_err_string` (applied to the state by the
instruction layer).  Python exceptions (`AttributeError` on `.base` of a
non-`_Type` value, `IndexError`, ...) are modelled by `Option`. -/

/-- The read-only part of the analyzer state used by expressions. -/
structure Ctx where
  vars : List (String × PyVal)
  fnsParams : List (String × List PyVal)
  fnsRet : List (String × PyVal)
deriving DecidableEq

/-- The checking block of `func_call` (analyzer.py lines 466-477), after
the arguments have been visited: unknown name keeps the `ANY` placeholder
and stages `Function not in scope`; otherwise the result is the declared
return type, the arity is compared, and the first parameter/argument pair
that compares unequal (under Python `==`) stages a mismatch and stops the
scan. -/
def funcCallCheck (ctx : Ctx) (f : String) (argTys : List PyVal) :
    Option (PyVal × List String) :=
  match lookup? ctx.fnsRet f with
  | Option.none => Option.some (PyVal.type BaseType.ANY PyVal.vnone, ["Function not in scope"])
  | Option.some rt =>
      match lookup? ctx.fnsParams f with
      | Option.none => Option.none
      | Option.some ps =>
          if ps.length ≠ argTys.length then
            Option.some (rt, ["Number of function parameters and given arguments must match"])
          else
            Option.some (rt, firstMismatch ps argTys)
where
  /-- `for tp, ta in zip(...): if tp != ta: stage; break`. -/
  firstMismatch : List PyVal → List PyVal → List String
  | p :: ps, a :: as_ =>
      if !(pyEq p a) then ["Mismatched types in function call argument"]
      else firstMismatch ps as_
  | _, _ => []

/-- The element loop shared by `list_literal` and `array_literal`: each
further element's own staged messages, then a homogeneity message if its
type compares unequal to the first element's. -/
def homogErrs (tn0 : PyVal) (msg : String) :
    List (PyVal × String × List String) → List String
  | [] => []
  | (tn, _, es) :: rest =>
      es ++ (if !(pyEq tn0 tn) then [msg] else []) ++ homogErrs tn0 msg rest

/-- Code strings of a list of visited children. -/
def codesOf (rs : List (PyVal × String × List String)) : List String :=
  rs.map (fun r => r.2.1)

/-- Type values of a list of visited children. -/
def typesOf (rs : List (PyVal × String × List String)) : List PyVal :=
  rs.map (fun r => r.1)

/-- Staged messages of a list of visited children, in visit order. -/
def errsOf (rs : List (PyVal × String × List String)) : List String :=
  (rs.map (fun r => r.2.2)).flatten

mutual
/-- The expression visitors of `StaticAnalysisInterpreter`
(analyzer.py lines 317-478 and 636-721), one match arm per visitor. -/
def analyzeExpr (ctx : Ctx) : Expr → Option (PyVal × String × List String)
  | Expr.plus a b => do
      let (tl, cl, el) ← analyzeExpr ctx a
      let (tr, cr, er) ← analyzeExpr ctx b
      let code := cl ++ " + " ++ cr
      if !(pyEq tl tr) then
        Option.some (tl, code, el ++ er ++ ["Type of operands for operator + must be the same"])
      else do
        let bl ← baseOf tl
        let e3 := if !(baseEq bl BaseType.FLOAT) && !(baseEq bl BaseType.INT)
            && !(baseEq bl BaseType.STRING) then
          ["Type of operands for operator + must be int, float or string"] else []
        Option.some (tl, code, el ++ er ++ e3)
  | Expr.minus a b => do
      let (tl, cl, el) ← analyzeExpr ctx a
      let (tr, cr, er) ← analyzeExpr ctx b
      let code := cl ++ " - " ++ cr
      if !(pyEq tl tr) then
        Option.some (tl, code, el ++ er ++ ["Type of operands for operator - must be the same"])
      else do
        let bl ← baseOf tl
        let e3 := if !(baseEq bl BaseType.FLOAT) && !(baseEq bl BaseType.INT) then
          ["Type of operands for operator - must be int or float"] else []
        Option.some (tl, code, el ++ er ++ e3)
  | Expr.mul a b => do
      let (tl, cl, el) ← analyzeExpr ctx a
      let (tr, cr, er) ← analyzeExpr ctx b
      let code := cl ++ " * " ++ cr
      if !(pyEq tl tr) then
        Option.some (tl, code, el ++ er ++ ["Type of operands for operator * must be the same"])
      else do
        let bl ← baseOf tl
        let e3 := if !(baseEq bl BaseType.FLOAT) && !(baseEq bl BaseType.INT) then
          ["Type of operands for operator * must be int or float"] else []
        Option.some (tl, code, el ++ er ++ e3)
  | Expr.div a b => do
      let (tl, cl, el) ← analyzeExpr ctx a
      let (tr, cr, er) ← analyzeExpr ctx b
      let code := cl ++ " / " ++ cr
      if !(pyEq tl tr) then
        Option.some (tl, code, el ++ er ++ ["Type of operands for operator / must be the same"])
      else do
        let bl ← baseOf tl
        let e3 := if !(baseEq bl BaseType.FLOAT) && !(baseEq bl BaseType.INT) then
          ["Type of operands for operator / must be int or float"] else []
        Option.some (tl, code, el ++ er ++ e3)
  | Expr.mod a b => do
      let (tl, cl, el) ← analyzeExpr ctx a
      let (tr, cr, er) ← analyzeExpr ctx b
      let code := cl ++ " % " ++ cr
      let bl ← baseOf tl
      let e3 ← if !(baseEq bl BaseType.INT) then
          Option.some ["Type of operands for operator % must be int"]
        else do
          let br ← baseOf tr
          Option.some (if !(baseEq br BaseType.INT) then
            ["Type of operands for operator % must be int"] else [])
      Option.some (PyVal.type BaseType.INT PyVal.vnone, code, el ++ er ++ e3)
  | Expr.exp a b => do
      let (tl, cl, el) ← analyzeExpr ctx a
      let (tr, cr, er) ← analyzeExpr ctx b
      let code := cl ++ " ^ " ++ cr
      if !(pyEq tl tr) then
        Option.some (tl, code, el ++ er ++ ["Type of operands for operator ^ must be the same"])
      else do
        let bl ← baseOf tl
        let e3 := if !(baseEq bl BaseType.FLOAT) && !(baseEq bl BaseType.INT) then
          ["Type of operands for operator ^ must be int or float"] else []
        Option.some (tl, code, el ++ er ++ e3)
  | Expr.prepend a b => do
      let (tl, cl, el) ← analyzeExpr ctx a
      let (tr, cr, er) ← analyzeExpr ctx b
      let code := cl ++ " ^: " ++ cr
      let br ← baseOf tr
      let e3 ← if !(baseEq br BaseType.LIST) then
          Option.some ["Type of rhs operand for operator ^: must be list"]
        else do
          let tn ← typenameOf tr
          Option.some (if !(pyEq tn tl) then
            ["Type of lhs operand for operator ^: must be the same as rhs's typename"] else [])
      Option.some (tr, code, el ++ er ++ e3)
  | Expr.append a b => do
      let (tl, cl, el) ← analyzeExpr ctx a
      let (tr, cr, er) ← analyzeExpr ctx b
      let code := cl ++ " $: " ++ cr
      let br ← baseOf tr
      let e3 ← if !(baseEq br BaseType.LIST) then
          Option.some ["Type of rhs operand for operator $: must be list"]
        else do
          let tn ← typenameOf tr
          Option.some (if !(pyEq tn tl) then
            ["Type of lhs operand for operator $: must be the same as rhs's typename"] else [])
      Option.some (tr, code, el ++ er ++ e3)
  | Expr.eq a b => do
      let (tl, cl, el) ← analyzeExpr ctx a
      let (tr, cr, er) ← analyzeExpr ctx b
      let e3 := if !(pyEq tl tr) then
        ["Type of operands for operator == must be the same"] else []
      Option.some (PyVal.type BaseType.BOOL PyVal.vnone, cl ++ " == " ++ cr, el ++ er ++ e3)
  | Expr.neq a b => do
      let (tl, cl, el) ← analyzeExpr ctx a
      let (tr, cr, er) ← analyzeExpr ctx b
      let e3 := if !(pyEq tl tr) then
        ["Type of operands for operator != must be the same"] else []
      Option.some (PyVal.type BaseType.BOOL PyVal.vnone, cl ++ " != " ++ cr, el ++ er ++ e3)
  | Expr.and a b => do
      let (tl, cl, el) ← analyzeExpr ctx a
      let (tr, cr, er) ← analyzeExpr ctx b
      let code := cl ++ " &amp;&amp; " ++ cr
      let bl ← baseOf tl
      let e3 ← if !(baseEq bl BaseType.BOOL) then
          Option.some ["Type of operands for operator &amp;&amp; must be bool"]
        else do
          let br ← baseOf tr
          Option.some (if !(baseEq br BaseType.BOOL) then
            ["Type of operands for operator &amp;&amp; must be bool"] else [])
      Option.some (PyVal.type BaseType.BOOL PyVal.vnone, code, el ++ er ++ e3)
  | Expr.or a b => do
      let (tl, cl, el) ← analyzeExpr ctx a
      let (tr, cr, er) ← analyzeExpr ctx b
      let code := cl ++ " || " ++ cr
      let bl ← baseOf tl
      let e3 ← if !(baseEq bl BaseType.BOOL) then
          Option.some ["Type of operands for operator || must be bool"]
        else do
          let br ← baseOf tr
          Option.some (if !(baseEq br BaseType.BOOL) then
            ["Type of operands for operator || must be bool"] else [])
      Option.some (PyVal.type BaseType.BOOL PyVal.vnone, code, el ++ er ++ e3)
  | Expr.not a => do
      let (t, c, e1) ← analyzeExpr ctx a
      let b ← baseOf t
      let e2 := if !(baseEq b BaseType.BOOL) then
        ["Type of operand for operator ! must be bool"] else []
      Option.some (PyVal.type BaseType.BOOL PyVal.vnone, "!" ++ c, e1 ++ e2)
  | Expr.paren a => do
      let (t, c, e1) ← analyzeExpr ctx a
      Option.some (t, "(" ++ c ++ ")", e1)
  | Expr.varDeref x OExpr.none =>
      match lookup? ctx.vars x with
      | Option.none =>
          Option.some (PyVal.type BaseType.ANY PyVal.vnone, x, ["Variable not in scope"])
      | Option.some t => Option.some (t, x, [])
  | Expr.varDeref x (OExpr.some idx) => do
      let (ti, ci, ei) ← analyzeExpr ctx idx
      let code := x ++ "[" ++ ci ++ "]"
      match lookup? ctx.vars x with
      | Option.none =>
          Option.some (PyVal.type BaseType.ANY PyVal.vnone, code,
            ei ++ ["Variable not in scope"])
      | Option.some vx => do
          let e3 ← (do
            let bv ← baseOf vx
            if !(baseEq bv BaseType.ARRAY) then
              Option.some ["Type of lhs operand for operator [] must be array"]
            else do
              let bi ← baseOf ti
              Option.some (if !(baseEq bi BaseType.INT) then
                ["Type of rhs operand for operator [] must be int"] else []))
          Option.some (vx, code, ei ++ e3)
  | Expr.call f args => do
      let rs ← analyzeExprList ctx args
      let (rt, e2) ← funcCallCheck ctx f (typesOf rs)
      Option.some (rt, f ++ "(" ++ joinComma (codesOf rs) ++ ")", errsOf rs ++ e2)
  | Expr.readE => Option.some (PyVal.type BaseType.ANY PyVal.vnone, "read()", [])
  | Expr.headE a => do
      let (t, c, e1) ← analyzeExpr ctx a
      let b ← baseOf t
      let e2 := if !(baseEq b BaseType.LIST) then
        ["head() operations can be only be used on lists"] else []
      let tn ← typenameOf t
      Option.some (tn, "head(" ++ c ++ ")", e1 ++ e2)
  | Expr.tailE a => do
      let (t, c, e1) ← analyzeExpr ctx a
      let b ← baseOf t
      let e2 := if !(baseEq b BaseType.LIST) then
        ["tail() operations can be only be used on lists"] else []
      Option.some (t, "tail(" ++ c ++ ")", e1 ++ e2)
  | Expr.lit (Lit.intL tok) => Option.some (PyVal.type BaseType.INT PyVal.vnone, tok, [])
  | Expr.lit (Lit.floatL tok) => Option.some (PyVal.type BaseType.FLOAT PyVal.vnone, tok, [])
  | Expr.lit (Lit.strL tok) => Option.some (PyVal.type BaseType.STRING PyVal.vnone, tok, [])
  | Expr.lit (Lit.boolL tok) => Option.some (PyVal.type BaseType.BOOL PyVal.vnone, tok, [])
  | Expr.lit (Lit.listL es) => do
      let rs ← analyzeExprList ctx es
      match rs with
      | [] =>
          Option.some (PyVal.type BaseType.LIST (PyVal.type BaseType.ANY PyVal.vnone), "[]", [])
      | (t0, c0, e0) :: rest =>
          Option.some (PyVal.type BaseType.LIST t0,
            "[" ++ joinComma (c0 :: codesOf rest) ++ "]",
            e0 ++ homogErrs t0 "Lists must have homogeneous types" rest)
  | Expr.lit (Lit.arrayL es) => do
      let rs ← analyzeExprList ctx es
      match rs with
      | [] => Option.none
      | (t0, c0, e0) :: rest =>
          Option.some
            (PyVal.type BaseType.ARRAY
              (PyVal.vtuple (PyVals.cons t0
                (PyVals.cons (PyVal.vint (1 + rest.length)) PyVals.nil))),
            "\x7b" ++ joinComma (c0 :: codesOf rest) ++ "\x7d",
            e0 ++ homogErrs t0 "Arrays must have homogeneous types" rest)
  | Expr.lit (Lit.tupleL es) => do
      let rs ← analyzeExprList ctx es
      Option.some (PyVal.type BaseType.TUPLE (PyVal.vtuple (toPyVals (typesOf rs))),
        "|" ++ joinComma (codesOf rs) ++ "|", errsOf rs)
/-- Sequential visit of expression children; a raised exception aborts. -/
def analyzeExprList (ctx : Ctx) : Exprs → Option (List (PyVal × String × List String))
  | Exprs.nil => Option.some []
  | Exprs.cons e es => do
      let r ← analyzeExpr ctx e
      let rs ← analyzeExprList ctx es
      Option.some (r :: rs)
end

/-! ## The static analyzer: state and instructions -/

/-- The mutable state of `StaticAnalysisInterpreter` (analyzer.py lines
55-76).  `html` keeps the emitted lines (the constant HTML preamble and
postamble are omitted). -/
structure AnState where
  vars : List (String × PyVal)
  fnsParams : List (String × List PyVal)
  fnsRet : List (String × PyVal)
  currFn : Option String
  stack : List Nat
  numNew : Nat
  err : Option String
  hasErrors : Bool
  indent : String
  html : List String
deriving DecidableEq

/-- The freshly constructed interpreter state. -/
def initState : AnState :=
  { vars := [], fnsParams := [], fnsRet := [], currFn := Option.none, stack := [],
    numNew := 0, err := Option.none, hasErrors := false, indent := "", html := [] }

/-- The read-only view used by expression visitors. -/
def ctxOf (st : AnState) : Ctx := ⟨st.vars, st.fnsParams, st.fnsRet⟩

/-- `_set_err_string` (lines 148-151): stage only if no message is pending,
and latch `_has_errors`. -/
def stageErr (s : String) (st : AnState) : AnState :=
  if st.err = Option.none then { st with err := Option.some s, hasErrors := true } else st

/-- Apply the messages attempted by an expression visit, in order. -/
def applyErrs : List String → AnState → AnState
  | [], st => st
  | s :: rest, st => applyErrs rest (stageErr s st)

/-- `_flush_err_string` (lines 153-159). -/
def flushErr (code : String) (st : AnState) : AnState :=
  match st.err with
  | Option.some msg =>
      { st with
        html := st.html ++
          ["<div class=\"error\">" ++ code ++ "<span class=\"errortext\">" ++ msg
            ++ "</span></div>"],
        err := Option.none }
  | Option.none => { st with html := st.html ++ [code], err := Option.none }

/-- A direct `self._html_buffer.write` of one line. -/
def writeHtml (line : String) (st : AnState) : AnState := { st with html := st.html ++ [line] }

/-- `_add_var` (lines 161-166): dict insertion appends at the end. -/
def addVar (x : String) (t : PyVal) (st : AnState) : AnState :=
  if (lookup? st.vars x).isNone then
    { st with vars := st.vars ++ [(x, t)], numNew := st.numNew + 1 }
  else stageErr "Variable already defined" st

/-- `_new_scope` (lines 137-140): push the counter, reset it, indent. -/
def newScope (st : AnState) : AnState :=
  { st with stack := st.stack ++ [st.numNew], numNew := 0, indent := st.indent ++ "    " }

/-- `k` successive `popitem()` calls (each removes the most recently
inserted binding); `IndexError`-like failure on an exhausted dict. -/
def popN : Nat → List (String × PyVal) → Option (List (String × PyVal))
  | 0, l => Option.some l
  | _ + 1, [] => Option.none
  | k + 1, x :: xs => popN k ((x :: xs).dropLast)

/-- `_end_scope` (lines 142-146): drop the last `numNew` bindings, restore
the counter from the stack, dedent. -/
def endScope (st : AnState) : Option AnState := do
  let vs ← popN st.numNew st.vars
  match st.stack.getLast? with
  | Option.none => Option.none
  | Option.some m =>
      Option.some { st with
        vars := vs
        numNew := m
        stack := st.stack.dropLast
        indent := st.indent.dropRight 4 }

/-- The token printed for an `of(...)` arm's literal. -/
def caseLitCode : CaseLit → String
  | CaseLit.intC tok => tok
  | CaseLit.strC tok => tok

mutual
/-- The instruction visitors of `StaticAnalysisInterpreter`
(analyzer.py lines 233-287 and 480-646), one match arm per visitor; the
`instruction` wrapper's flush for `func_call` children is the `callI`
arm. -/
def analyzeInstr (st : AnState) : Instr → Option AnState
  | Instr.varDefn b e => do
      let vt := typePyVal b.ty
      let st1 := addVar b.name vt st
      let (te, ce, errs) ← analyzeExpr (ctxOf st1) e
      let st2 := applyErrs errs st1
      let st3 := if !(pyEq te vt) then stageErr "Mismatched types" st2 else st2
      Option.some (flushErr
        (st3.indent ++ "let " ++ b.name ++ ": " ++ typeCodeHtml b.ty ++ " = " ++ ce ++ ";") st3)
  | Instr.retI (OExpr.some e) => do
      let (t, c, errs) ← analyzeExpr (ctxOf st) e
      let st1 := applyErrs errs st
      let st2 :=
        match st1.currFn with
        | Option.none => st1
        | Option.some f =>
            let rv := match lookup? st1.fnsRet f with
              | Option.some r => r
              | Option.none => PyVal.vnone
            if !(pyEq t rv) then stageErr "Mismatched types in return statement" st1 else st1
      Option.some (flushErr (st2.indent ++ "return " ++ c ++ ";") st2)
  | Instr.retI OExpr.none => do
      let st2 ←
        match st.currFn with
        | Option.none => Option.some st
        | Option.some f => do
            let rv ← lookup? st.fnsRet f
            let b ← baseOf rv
            Option.some (if !(baseEq BaseType.VOID b) then
              stageErr "Mismatched types in return statement" st else st)
      Option.some (flushErr (st2.indent ++ "return;") st2)
  | Instr.writeI es => do
      let rs ← analyzeExprList (ctxOf st) es
      let st1 := applyErrs (errsOf rs) st
      Option.some (flushErr (st1.indent ++ "write(" ++ joinComma (codesOf rs) ++ ");") st1)
  | Instr.attrib x OExpr.none e => do
      let (te, ce, errs) ← analyzeExpr (ctxOf st) e
      let st1 := applyErrs errs st
      let st2 :=
        match lookup? st1.vars x with
        | Option.none => stageErr "Variable not in scope" st1
        | Option.some vx =>
            if !(pyEq te vx) then stageErr "Mismatched types in assignment" st1 else st1
      Option.some (flushErr (st2.indent ++ x ++ " = " ++ ce ++ ";") st2)
  | Instr.attrib x (OExpr.some idx) e => do
      let (te, ce, errs) ← analyzeExpr (ctxOf st) e
      let (ti, ci, errsI) ← analyzeExpr (ctxOf st) idx
      let st1 := applyErrs (errs ++ errsI) st
      let st2 ← (match lookup? st1.vars x with
        | Option.none => Option.some (stageErr "Variable not in scope" st1)
        | Option.some vx => do
            let bv ← baseOf vx
            if !(baseEq bv BaseType.ARRAY) then
              Option.some (stageErr "Type of lhs operand for operator [] must be array" st1)
            else do
              let tn ← typenameOf vx
              let el ← index0 tn
              if !(pyEq te el) then
                Option.some (stageErr "Mismatched types in assignment" st1)
              else do
                let bi ← baseOf ti
                Option.some (if !(baseEq bi BaseType.INT) then
                  stageErr "Type of rhs operand for operator [] must be int" st1 else st1))
      Option.some (flushErr (st2.indent ++ x ++ "[" ++ ci ++ "] = " ++ ce ++ ";") st2)
  | Instr.callI f args => do
      let rs ← analyzeExprList (ctxOf st) args
      let (_, e2) ← funcCallCheck (ctxOf st) f (typesOf rs)
      let st1 := applyErrs (errsOf rs ++ e2) st
      Option.some (flushErr
        (st1.indent ++ f ++ "(" ++ joinComma (codesOf rs) ++ ")" ++ ";") st1)
  | Instr.ifF c body elifs els => do
      let (t, code, errs) ← analyzeExpr (ctxOf st) c
      let st1 := applyErrs errs st
      let b ← baseOf t
      let st2 := if !(baseEq b BaseType.BOOL) then
        stageErr "Type of condition expression must be bool" st1 else st1
      let st3 := flushErr (st2.indent ++ "if(" ++ code ++ ")\x7b") st2
      let st4 ← analyzeInstrs (newScope st3) body
      let st5 ← endScope st4
      let st6 := writeHtml (st5.indent ++ "\x7d") st5
      let st7 ← analyzeElifs st6 elifs
      analyzeElse st7 els
  | Instr.unlessF c body => do
      let (t, code, errs) ← analyzeExpr (ctxOf st) c
      let st1 := applyErrs errs st
      let b ← baseOf t
      let st2 := if !(baseEq b BaseType.BOOL) then
        stageErr "Type of condition expression must be bool" st1 else st1
      let st3 := flushErr (st2.indent ++ "unless(" ++ code ++ ")\x7b") st2
      let st4 ← analyzeInstrs (newScope st3) body
      let st5 ← endScope st4
      Option.some (writeHtml (st5.indent ++ "\x7d") st5)
  | Instr.caseF scrut arms dflt => do
      let (t, code, errs) ← analyzeExpr (ctxOf st) scrut
      let st1 := applyErrs errs st
      let b ← baseOf t
      let st2 := if !(baseEq b BaseType.INT) && !(baseEq b BaseType.STRING) then
        stageErr "Type of case expression must be int or string" st1 else st1
      let st3 := flushErr (st2.indent ++ "case(" ++ code ++ ")\x7b") st2
      let st4 ← analyzeOfs (newScope st3) arms
      let st5 := writeHtml (st4.indent ++ "default \x7b") st4
      let st6 ← analyzeInstrs (newScope st5) dflt
      let st7 ← endScope st6
      let st8 := writeHtml (st7.indent ++ "\x7d") st7
      let st9 ← endScope st8
      Option.some (writeHtml (st9.indent ++ "\x7d") st9)
  | Instr.whileF c body => do
      let (t, code, errs) ← analyzeExpr (ctxOf st) c
      let st1 := applyErrs errs st
      let b ← baseOf t
      let st2 := if !(baseEq b BaseType.BOOL) then
        stageErr "Type of condition expression must be bool" st1 else st1
      let st3 := flushErr (st2.indent ++ "while(" ++ code ++ ")\x7b") st2
      let st4 ← analyzeInstrs (newScope st3) body
      let st5 ← endScope st4
      Option.some (writeHtml (st5.indent ++ "\x7d") st5)
  | Instr.doWhileF body c => do
      let st1 := writeHtml (st.indent ++ "do \x7b") st
      let st2 ← analyzeInstrs (newScope st1) body
      let (t, code, errs) ← analyzeExpr (ctxOf st2) c
      let st3 := applyErrs errs st2
      let b ← baseOf t
      let st4 := if !(baseEq b BaseType.BOOL) then
        stageErr "Type of condition expression must be bool" st3 else st3
      let st5 ← endScope st4
      Option.some (flushErr (st5.indent ++ "\x7d while(" ++ code ++ ");") st5)
  | Instr.forF x e body => do
      let st1 := newScope st
      let (t, code, errs) ← analyzeExpr (ctxOf st1) e
      let st2 := applyErrs errs st1
      let st3 ← (do
        let b ← baseOf t
        if baseEq b BaseType.ARRAY then do
          let tn ← typenameOf t
          let el ← index0 tn
          Option.some (addVar x el st2)
        else if baseEq b BaseType.LIST then do
          let tn ← typenameOf t
          Option.some (addVar x tn st2)
        else
          Option.some (stageErr "Type of expression must iterable" st2))
      let st4 := flushErr
        (st3.indent.dropRight 4 ++ "for(" ++ x ++ " in " ++ code ++ ")\x7b") st3
      let st5 ← analyzeInstrs st4 body
      let st6 ← endScope st5
      Option.some (writeHtml (st6.indent ++ "\x7d") st6)
/-- Sequential visit of a list of instructions. -/
def analyzeInstrs (st : AnState) : Instrs → Option AnState
  | Instrs.nil => Option.some st
  | Instrs.cons i is => do
      let st1 ← analyzeInstr st i
      analyzeInstrs st1 is
/-- `elif_flow` for each arm in turn (lines 507-520). -/
def analyzeElifs (st : AnState) : Elifs → Option AnState
  | Elifs.nil => Option.some st
  | Elifs.cons c body rest => do
      let (t, code, errs) ← analyzeExpr (ctxOf st) c
      let st1 := applyErrs errs st
      let b ← baseOf t
      let st2 := if !(baseEq b BaseType.BOOL) then
        stageErr "Type of condition expression must be bool" st1 else st1
      let st3 := flushErr (st2.indent ++ "elif(" ++ code ++ ")\x7b") st2
      let st4 ← analyzeInstrs (newScope st3) body
      let st5 ← endScope st4
      let st6 := writeHtml (st5.indent ++ "\x7d") st5
      analyzeElifs st6 rest
/-- `else_flow` (lines 522-530); the opener is written directly, keeping
any pending error pending. -/
def analyzeElse (st : AnState) : ElseB → Option AnState
  | ElseB.noneE => Option.some st
  | ElseB.someE body => do
      let st1 := writeHtml (st.indent ++ "else \x7b") st
      let st2 ← analyzeInstrs (newScope st1) body
      let st3 ← endScope st2
      Option.some (writeHtml (st3.indent ++ "\x7d") st3)
/-- `of_flow` for each arm (lines 561-571); opener written directly. -/
def analyzeOfs (st : AnState) : Ofs → Option AnState
  | Ofs.nil => Option.some st
  | Ofs.cons l body rest => do
      let st1 := writeHtml (st.indent ++ "of(" ++ caseLitCode l ++ ")\x7b") st
      let st2 ← analyzeInstrs (newScope st1) body
      let st3 ← endScope st2
      let st4 := writeHtml (st3.indent ++ "\x7d") st3
      analyzeOfs st4 rest
end

/-- `func_params` (lines 221-231): bind every parameter and collect the
parameter types and printed binds. -/
def funcParamsVisit (st : AnState) : List VarBind → AnState × List PyVal × List String
  | [] => (st, [], [])
  | b :: bs =>
      let st1 := addVar b.name (typePyVal b.ty) st
      let (st2, tys, codes) := funcParamsVisit st1 bs
      (st2, typePyVal b.ty :: tys, (b.name ++ ": " ++ typeCodeHtml b.ty) :: codes)

/-- `func_defn` (lines 189-219). -/
def analyzeFuncDefn (st : AnState) (fd : FuncDefn) : Option AnState := do
  let st1 := newScope st
  let (st2, ptys, pcodes) := funcParamsVisit st1 fd.params
  let pcode := "(" ++ joinComma pcodes ++ ")"
  let st3 :=
    if (lookup? st2.fnsParams fd.name).isNone then
      { st2 with
                   fnsParams := setAssoc st2.fnsParams fd.name ptys
                   currFn := Option.some fd.name }
    else
      let s := stageErr "Function already defined" st2
      { s with currFn := Option.none }
  let (st4, tcode) :=
    match fd.retTy with
    | Option.some te =>
        let s := if st3.currFn.isSome then
          { st3 with fnsRet := setAssoc st3.fnsRet fd.name (typePyVal te) } else st3
        (s, " -&gt; " ++ typeCodeHtml te ++ " ")
    | Option.none =>
        let s := if st3.currFn.isSome then
          { st3 with
            fnsRet := setAssoc st3.fnsRet fd.name (PyVal.type BaseType.VOID PyVal.vnone) }
          else st3
        (s, "")
  let st5 := flushErr ("fn " ++ fd.name ++ pcode ++ tcode ++ "\x7b") st4
  let st6 ← analyzeInstrs st5 fd.body
  let st7 := writeHtml "\x7d" { st6 with currFn := Option.none }
  let st8 := writeHtml "" st7
  endScope st8

/-- `construct` dispatch: a top-level `var_defn` runs the same visitor as
the local one. -/
def analyzeConstruct (st : AnState) : Construct → Option AnState
  | Construct.fnC fd => analyzeFuncDefn st fd
  | Construct.varC b e => analyzeInstr st (Instr.varDefn b e)

/-- Sequential visit of the unit's constructs. -/
def analyzeConstructs (st : AnState) : List Construct → Option AnState
  | [] => Option.some st
  | c :: cs => do
      let st1 ← analyzeConstruct st c
      analyzeConstructs st1 cs

/-- Run the whole analysis from the freshly constructed interpreter. -/
def analyzeUnit (cs : List Construct) : Option AnState :=
  analyzeConstructs initState cs

/-- The top-level variables of a unit with their declared types, first
declaration wins (mirroring `_add_var`'s membership test). -/
def topLevelVars : List Construct → List (String × PyVal) → List (String × PyVal)
  | [], acc => acc
  | Construct.fnC _ :: rest, acc => topLevelVars rest acc
  | Construct.varC b _ :: rest, acc =>
      topLevelVars rest
        (if (lookup? acc b.name).isNone then acc ++ [(b.name, typePyVal b.ty)] else acc)

/-! ## C3: the error gate

During a run the only operations that touch `_err_string` / `_has_errors`
are `_set_err_string` and `_flush_err_string`; every analyzer run therefore
induces a sequence of these two operations.  `runErrOps` replays such a
sequence and `stagedIn` records whether some message was actually staged
(i.e. a `_set_err_string` call found the slot empty). -/

/-- One error-slot operation. -/
inductive ErrOp where
  | stage (s : String)
  | doFlush (code : String)
deriving DecidableEq

/-- Replay a sequence of error-slot operations. -/
def runErrOps : List ErrOp → AnState → AnState
  | [], st => st
  | ErrOp.stage s :: ops, st => runErrOps ops (stageErr s st)
  | ErrOp.doFlush c :: ops, st => runErrOps ops (flushErr c st)

/-- Whether some message is actually staged during the replay: a
`_set_err_string` call that finds the slot empty. -/
def stagedIn : List ErrOp → AnState → Bool
  | [], _ => false
  | ErrOp.stage s :: ops, st => st.err.isNone || stagedIn ops (stageErr s st)
  | ErrOp.doFlush c :: ops, st => stagedIn ops (flushErr c st)

/-- `hasErrors` after a replay: latched from the start state, or latched by
some staged message. -/
theorem runErrOps_hasErrors (ops : List ErrOp) (st : AnState) :
    (runErrOps ops st).hasErrors = (st.hasErrors || stagedIn ops st) := by
  induction ops generalizing st with
  | nil => simp [runErrOps, stagedIn]
  | cons op ops ih =>
      cases op with
      | stage s =>
          rw [runErrOps, stagedIn, ih]
          by_cases h : st.err = Option.none
          · simp [stageErr, h, Option.isNone]
          · simp only [stageErr, if_neg h]
            cases he : st.err with
            | none => exact absurd he h
            | some m => simp [he, Option.isNone]
      | doFlush c =>
          rw [runErrOps, stagedIn, ih]
          have : (flushErr c st).hasErrors = st.hasErrors := by
            unfold flushErr
            cases st.err <;> rfl
          rw [this]

/-- C3: `has_errors` is sticky across any sequence of error-slot
operations (`_set_err_string` / `_flush_err_string` are the only writers),
and after a run from the freshly constructed interpreter it is true iff at
least one message was actually staged into the pending-error slot. -/
theorem c3_error_gate :
    (∀ (ops : List ErrOp) (st : AnState), st.hasErrors = true →
        (runErrOps ops st).hasErrors = true)
      ∧ (∀ ops : List ErrOp,
          (runErrOps ops initState).hasErrors = true ↔ stagedIn ops initState = true) := by
  constructor
  · intro ops st h
    rw [runErrOps_hasErrors, h, Bool.true_or]
  · intro ops
    rw [runErrOps_hasErrors]
    simp [initState]

/-- Witness for C3 at a concrete run. -/
theorem c3_error_gate_witness :
    (runErrOps [ErrOp.doFlush "write(1);"] { initState with hasErrors := true }).hasErrors = true
      ∧ ((runErrOps [ErrOp.stage "Mismatched types"] initState).hasErrors = true
          ↔ stagedIn [ErrOp.stage "Mismatched types"] initState = true) :=
  ⟨c3_error_gate.1 [ErrOp.doFlush "write(1);"] { initState with hasErrors := true } (by rfl),
   c3_error_gate.2 [ErrOp.stage "Mismatched types"]⟩

/-! ## C2: scope discipline of the variable table -/

/-- The scope-relevant fields are unchanged. -/
def SameScope (st st' : AnState) : Prop :=
  st'.vars = st.vars ∧ st'.numNew = st.numNew ∧ st'.stack = st.stack

/-- The variable table grew by a suffix counted by `_num_of_new_vars`, the
scope stack is untouched. -/
def ScopeExt (st st' : AnState) : Prop :=
  ∃ δ, st'.vars = st.vars ++ δ ∧ st'.numNew = st.numNew + δ.length ∧ st'.stack = st.stack

theorem SameScope.refl (st : AnState) : SameScope st st := ⟨rfl, rfl, rfl⟩

theorem SameScope.trans {a b c : AnState} (h1 : SameScope a b) (h2 : SameScope b c) :
    SameScope a c :=
  ⟨h2.1.trans h1.1, h2.2.1.trans h1.2.1, h2.2.2.trans h1.2.2⟩

theorem ScopeExt.of_same {a b : AnState} (h : SameScope a b) : ScopeExt a b :=
  ⟨[], by simpa using h.1, by simpa using h.2.1, h.2.2⟩

theorem ScopeExt.chain {a b c : AnState} (h1 : ScopeExt a b) (h2 : ScopeExt b c) :
    ScopeExt a c := by
  obtain ⟨d1, hv1, hn1, hs1⟩ := h1
  obtain ⟨d2, hv2, hn2, hs2⟩ := h2
  exact ⟨d1 ++ d2, by rw [hv2, hv1, List.append_assoc],
    by rw [hn2, hn1, List.length_append, Nat.add_assoc], hs2.trans hs1⟩

theorem ScopeExt.same_left {a b c : AnState} (h1 : SameScope a b) (h2 : ScopeExt b c) :
    ScopeExt a c := (ScopeExt.of_same h1).chain h2

theorem ScopeExt.same_right {a b c : AnState} (h1 : ScopeExt a b) (h2 : SameScope b c) :
    ScopeExt a c := h1.chain (ScopeExt.of_same h2)

theorem sameScope_stageErr (s : String) (st : AnState) : SameScope st (stageErr s st) := by
  unfold stageErr; split <;> exact ⟨rfl, rfl, rfl⟩

theorem sameScope_applyErrs (es : List String) (st : AnState) :
    SameScope st (applyErrs es st) := by
  induction es generalizing st with
  | nil => exact SameScope.refl st
  | cons s rest ih =>
      exact SameScope.trans (sameScope_stageErr s st) (ih (stageErr s st))

theorem sameScope_flushErr (c : String) (st : AnState) : SameScope st (flushErr c st) := by
  unfold flushErr
  cases st.err <;> exact ⟨rfl, rfl, rfl⟩

theorem sameScope_writeHtml (l : String) (st : AnState) : SameScope st (writeHtml l st) :=
  ⟨rfl, rfl, rfl⟩

theorem sameScope_condStage (b : Bool) (s : String) (st : AnState) :
    SameScope st (if b then stageErr s st else st) := by
  cases b
  · exact SameScope.refl st
  · exact sameScope_stageErr s st

theorem scopeExt_addVar (x : String) (t : PyVal) (st : AnState) :
    ScopeExt st (addVar x t st) := by
  unfold addVar
  split
  · exact ⟨[(x, t)], rfl, rfl, rfl⟩
  · exact ScopeExt.of_same (sameScope_stageErr _ st)

/-- `popitem` applied `δ.length` times to `v ++ δ` gives back `v`. -/
theorem popN_append (v δ : List (String × PyVal)) :
    popN δ.length (v ++ δ) = Option.some v := by
  induction δ using List.reverseRecOn with
  | nil => simp [popN]
  | append_singleton δ a ih =>
      rw [List.length_append, List.length_singleton]
      have hne : v ++ (δ ++ [a]) ≠ [] := by simp
      obtain ⟨y, ys, hy⟩ := List.exists_cons_of_ne_nil hne
      rw [hy, popN, ← hy]
      have : (v ++ (δ ++ [a])).dropLast = v ++ δ := by
        rw [← List.append_assoc, List.dropLast_concat]
      rw [this, ih]

/-- `_end_scope` on a state whose table extends `v` by exactly the counted
suffix and whose stack ends with `m` pops that suffix in reverse insertion
order and restores the counter. -/
theorem endScope_restore (st : AnState) (v δ : List (String × PyVal))
    (s : List Nat) (m : Nat)
    (hv : st.vars = v ++ δ) (hn : st.numNew = δ.length) (hs : st.stack = s ++ [m]) :
    endScope st = Option.some { st with
      vars := v
      numNew := m
      stack := s
      indent := st.indent.dropRight 4 } := by
  unfold endScope
  rw [hv, hn, popN_append, hs]
  simp [Option.bind, List.getLast?_concat, List.dropLast_concat]

/-- A `_new_scope` / work / `_end_scope` bracket restores the three
scope fields whenever the work only extended the table by its count. -/
theorem block_scope {stA stB stC : AnState}
    (h1 : ScopeExt (newScope stA) stB) (h2 : endScope stB = Option.some stC) :
    SameScope stA stC := by
  obtain ⟨δ, hv, hn, hs⟩ := h1
  have hv' : stB.vars = stA.vars ++ δ := by simpa [newScope] using hv
  have hn' : stB.numNew = δ.length := by simpa [newScope] using hn
  have hs' : stB.stack = stA.stack ++ [stA.numNew] := by simpa [newScope] using hs
  rw [endScope_restore stB stA.vars δ stA.stack stA.numNew hv' hn' hs'] at h2
  cases h2
  exact ⟨rfl, rfl, rfl⟩

/-- Decomposition of an `Option` bind that succeeded. -/
theorem optBind_eq_some {α β : Type} (x : Option α) (f : α → Option β) (b : β) :
    (x >>= f = Option.some b) ↔ ∃ a, x = Option.some a ∧ f a = Option.some b := by
  cases x <;> simp

mutual
/-- Every instruction leaves the scope stack alone and only appends
`numNew`-counted bindings to the table. -/
theorem analyzeInstr_scope : ∀ (i : Instr) (st st' : AnState),
    analyzeInstr st i = Option.some st' → ScopeExt st st'
  | Instr.varDefn b e, st, st', h => by
      simp only [analyzeInstr, optBind_eq_some] at h
      obtain ⟨⟨te, ce, errs⟩, hx, h⟩ := h
      simp only [Option.some.injEq] at h
      subst h
      exact (scopeExt_addVar _ _ _).same_right
        ((sameScope_applyErrs _ _).trans
          ((sameScope_condStage _ _ _).trans (sameScope_flushErr _ _)))
  | Instr.retI (OExpr.some e), st, st', h => by
      simp only [analyzeInstr, optBind_eq_some] at h
      obtain ⟨⟨te, ce, errs⟩, hx, h⟩ := h
      simp only [Option.some.injEq] at h
      subst h
      refine ScopeExt.of_same
        ((sameScope_applyErrs errs st).trans (SameScope.trans ?_ (sameScope_flushErr _ _)))
      cases (applyErrs errs st).currFn with
      | none => exact SameScope.refl _
      | some f => exact sameScope_condStage _ _ _
  | Instr.retI OExpr.none, st, st', h => by
      simp only [analyzeInstr] at h
      cases hc : st.currFn with
      | none =>
          simp only [hc, optBind_eq_some, Option.some.injEq] at h
          obtain ⟨y, hy, h⟩ := h
          subst hy
          subst h
          exact ScopeExt.of_same (sameScope_flushErr _ _)
      | some f =>
          simp only [hc, optBind_eq_some, Option.some.injEq] at h
          obtain ⟨rv, hrv, h⟩ := h
          obtain ⟨bb, hb, h⟩ := h
          obtain ⟨y, hy, h⟩ := h
          subst hy
          subst h
          exact ScopeExt.of_same
            ((sameScope_condStage _ _ _).trans (sameScope_flushErr _ _))
  | Instr.writeI es, st, st', h => by
      simp only [analyzeInstr, optBind_eq_some] at h
      obtain ⟨rs, hx, h⟩ := h
      simp only [Option.some.injEq] at h
      subst h
      exact ScopeExt.of_same
        ((sameScope_applyErrs _ _).trans (sameScope_flushErr _ _))
  | Instr.attrib x OExpr.none e, st, st', h => by
      simp only [analyzeInstr, optBind_eq_some] at h
      obtain ⟨⟨te, ce, errs⟩, hx, h⟩ := h
      simp only [Option.some.injEq] at h
      subst h
      refine ScopeExt.of_same
        ((sameScope_applyErrs errs st).trans (SameScope.trans ?_ (sameScope_flushErr _ _)))
      cases lookup? (applyErrs errs st).vars x with
      | none => exact sameScope_stageErr _ _
      | some vx => exact sameScope_condStage _ _ _
  | Instr.attrib x (OExpr.some idx) e, st, st', h => by
      simp only [analyzeInstr, optBind_eq_some] at h
      obtain ⟨⟨te, ce, errs⟩, hx1, h⟩ := h
      obtain ⟨⟨ti, ci, errsI⟩, hx2, h⟩ := h
      obtain ⟨st2, hx3, h⟩ := h
      simp only [Option.some.injEq] at h
      subst h
      dsimp only at hx3
      refine ScopeExt.of_same
        ((sameScope_applyErrs (errs ++ errsI) st).trans
          (SameScope.trans ?_ (sameScope_flushErr _ _)))
      revert hx3
      cases lookup? (applyErrs (errs ++ errsI) st).vars x with
      | none =>
          intro hx3
          simp only [Option.some.injEq] at hx3
          subst hx3
          exact sameScope_stageErr _ _
      | some vx =>
          intro hx3
          simp only [optBind_eq_some] at hx3
          obtain ⟨bv, hbv, hx3⟩ := hx3
          by_cases harr : !(baseEq bv BaseType.ARRAY)
          · rw [if_pos harr] at hx3
            simp only [Option.some.injEq] at hx3
            subst hx3
            exact sameScope_stageErr _ _
          · rw [if_neg harr] at hx3
            simp only [optBind_eq_some] at hx3
            obtain ⟨tn, htn, hx3⟩ := hx3
            obtain ⟨el, hel, hx3⟩ := hx3
            by_cases hmm : !(pyEq te el)
            · rw [if_pos hmm] at hx3
              simp only [Option.some.injEq] at hx3
              subst hx3
              exact sameScope_stageErr _ _
            · rw [if_neg hmm] at hx3
              simp only [optBind_eq_some] at hx3
              obtain ⟨bi, hbi, hx3⟩ := hx3
              simp only [Option.some.injEq] at hx3
              subst hx3
              exact sameScope_condStage _ _ _
  | Instr.callI f args, st, st', h => by
      simp only [analyzeInstr, optBind_eq_some] at h
      obtain ⟨rs, hx1, h⟩ := h
      obtain ⟨⟨rt, e2⟩, hx2, h⟩ := h
      simp only [Option.some.injEq] at h
      subst h
      exact ScopeExt.of_same
        ((sameScope_applyErrs _ _).trans (sameScope_flushErr _ _))
  | Instr.ifF c body elifs els, st, st', h => by
      simp only [analyzeInstr, optBind_eq_some] at h
      obtain ⟨⟨t, code, errs⟩, hx1, h⟩ := h
      obtain ⟨b, hb, h⟩ := h
      obtain ⟨st4, hbody, h⟩ := h
      obtain ⟨st5, hend, h⟩ := h
      obtain ⟨st7, helifs, hels⟩ := h
      exact ScopeExt.of_same
        ((sameScope_applyErrs _ _).trans
          ((sameScope_condStage _ _ _).trans
            ((sameScope_flushErr _ _).trans
              ((block_scope (analyzeInstrs_scope body _ _ hbody) hend).trans
                ((sameScope_writeHtml _ _).trans
                  ((analyzeElifs_scope elifs _ _ helifs).trans
                    (analyzeElse_scope els _ _ hels)))))))
  | Instr.unlessF c body, st, st', h => by
      simp only [analyzeInstr, optBind_eq_some] at h
      obtain ⟨⟨t, code, errs⟩, hx1, h⟩ := h
      obtain ⟨b, hb, h⟩ := h
      obtain ⟨st4, hbody, h⟩ := h
      obtain ⟨st5, hend, h⟩ := h
      simp only [Option.some.injEq] at h
      subst h
      exact ScopeExt.of_same
        ((sameScope_applyErrs _ _).trans
          ((sameScope_condStage _ _ _).trans
            ((sameScope_flushErr _ _).trans
              ((block_scope (analyzeInstrs_scope body _ _ hbody) hend).trans
                (sameScope_writeHtml _ _)))))
  | Instr.caseF scrut arms dflt, st, st', h => by
      simp only [analyzeInstr, optBind_eq_some] at h
      obtain ⟨⟨t, code, errs⟩, hx1, h⟩ := h
      obtain ⟨b, hb, h⟩ := h
      obtain ⟨st4, harms, h⟩ := h
      obtain ⟨st6, hdflt, h⟩ := h
      obtain ⟨st7, hend1, h⟩ := h
      obtain ⟨st9, hend2, h⟩ := h
      simp only [Option.some.injEq] at h
      subst h
      exact ScopeExt.of_same
        ((sameScope_applyErrs _ _).trans
          ((sameScope_condStage _ _ _).trans
            ((sameScope_flushErr _ _).trans
              ((block_scope
                  (ScopeExt.of_same
                    ((analyzeOfs_scope arms _ _ harms).trans
                      ((sameScope_writeHtml _ _).trans
                        ((block_scope (analyzeInstrs_scope dflt _ _ hdflt) hend1).trans
                          (sameScope_writeHtml _ _)))))
                  hend2).trans
                (sameScope_writeHtml _ _)))))
  | Instr.whileF c body, st, st', h => by
      simp only [analyzeInstr, optBind_eq_some] at h
      obtain ⟨⟨t, code, errs⟩, hx1, h⟩ := h
      obtain ⟨b, hb, h⟩ := h
      obtain ⟨st4, hbody, h⟩ := h
      obtain ⟨st5, hend, h⟩ := h
      simp only [Option.some.injEq] at h
      subst h
      exact ScopeExt.of_same
        ((sameScope_applyErrs _ _).trans
          ((sameScope_condStage _ _ _).trans
            ((sameScope_flushErr _ _).trans
              ((block_scope (analyzeInstrs_scope body _ _ hbody) hend).trans
                (sameScope_writeHtml _ _)))))
  | Instr.doWhileF body c, st, st', h => by
      simp only [analyzeInstr, optBind_eq_some] at h
      obtain ⟨st2, hbody, h⟩ := h
      obtain ⟨⟨t, code, errs⟩, hx1, h⟩ := h
      obtain ⟨b, hb, h⟩ := h
      obtain ⟨st5, hend, h⟩ := h
      simp only [Option.some.injEq] at h
      subst h
      exact ScopeExt.of_same
        ((sameScope_writeHtml _ _).trans
          ((block_scope
              ((analyzeInstrs_scope body _ _ hbody).same_right
                ((sameScope_applyErrs _ _).trans (sameScope_condStage _ _ _)))
              hend).trans
            (sameScope_flushErr _ _)))
  | Instr.forF x e body, st, st', h => by
      simp only [analyzeInstr, optBind_eq_some] at h
      obtain ⟨⟨t, code, errs⟩, hx1, h⟩ := h
      obtain ⟨st3, hst3, h⟩ := h
      obtain ⟨st5, hbody, h⟩ := h
      obtain ⟨st6, hend, h⟩ := h
      simp only [Option.some.injEq] at h
      subst h
      have hx3 : ScopeExt (applyErrs errs (newScope st)) st3 := by
        simp only [optBind_eq_some] at hst3
        obtain ⟨b, hb, hst3⟩ := hst3
        by_cases harr : baseEq b BaseType.ARRAY
        · rw [if_pos harr] at hst3
          simp only [optBind_eq_some] at hst3
          obtain ⟨tn, htn, hst3⟩ := hst3
          obtain ⟨el, hel, hst3⟩ := hst3
          simp only [Option.some.injEq] at hst3
          subst hst3
          exact scopeExt_addVar _ _ _
        · rw [if_neg harr] at hst3
          by_cases hlst : baseEq b BaseType.LIST
          · rw [if_pos hlst] at hst3
            simp only [optBind_eq_some] at hst3
            obtain ⟨tn, htn, hst3⟩ := hst3
            simp only [Option.some.injEq] at hst3
            subst hst3
            exact scopeExt_addVar _ _ _
          · rw [if_neg hlst] at hst3
            simp only [Option.some.injEq] at hst3
            subst hst3
            exact ScopeExt.of_same (sameScope_stageErr _ _)
      exact ScopeExt.of_same
        ((block_scope
            ((((ScopeExt.of_same (sameScope_applyErrs errs (newScope st))).chain
                hx3).same_right (sameScope_flushErr _ _)).chain
              (analyzeInstrs_scope body _ _ hbody))
            hend).trans
          (sameScope_writeHtml _ _))
/-- A block of instructions only extends the table by its counted suffix. -/
theorem analyzeInstrs_scope : ∀ (is : Instrs) (st st' : AnState),
    analyzeInstrs st is = Option.some st' → ScopeExt st st'
  | Instrs.nil, st, st', h => by
      simp only [analyzeInstrs, Option.some.injEq] at h
      subst h
      exact ScopeExt.of_same (SameScope.refl st)
  | Instrs.cons i is, st, st', h => by
      simp only [analyzeInstrs, optBind_eq_some] at h
      obtain ⟨st1, h1, h2⟩ := h
      exact (analyzeInstr_scope i st st1 h1).chain (analyzeInstrs_scope is st1 st' h2)
/-- `elif` arms restore the scope fields exactly. -/
theorem analyzeElifs_scope : ∀ (es : Elifs) (st st' : AnState),
    analyzeElifs st es = Option.some st' → SameScope st st'
  | Elifs.nil, st, st', h => by
      simp only [analyzeElifs, Option.some.injEq] at h
      subst h
      exact SameScope.refl st
  | Elifs.cons c body rest, st, st', h => by
      simp only [analyzeElifs, optBind_eq_some] at h
      obtain ⟨⟨t, code, errs⟩, hx1, h⟩ := h
      obtain ⟨b, hb, h⟩ := h
      obtain ⟨st4, hbody, h⟩ := h
      obtain ⟨st5, hend, h⟩ := h
      exact (sameScope_applyErrs _ _).trans
        ((sameScope_condStage _ _ _).trans
          ((sameScope_flushErr _ _).trans
            ((block_scope (analyzeInstrs_scope body _ _ hbody) hend).trans
              ((sameScope_writeHtml _ _).trans (analyzeElifs_scope rest _ _ h)))))
/-- The `else` block restores the scope fields exactly. -/
theorem analyzeElse_scope : ∀ (e : ElseB) (st st' : AnState),
    analyzeElse st e = Option.some st' → SameScope st st'
  | ElseB.noneE, st, st', h => by
      simp only [analyzeElse, Option.some.injEq] at h
      subst h
      exact SameScope.refl st
  | ElseB.someE body, st, st', h => by
      simp only [analyzeElse, optBind_eq_some] at h
      obtain ⟨st2, hbody, h⟩ := h
      obtain ⟨st3, hend, h⟩ := h
      simp only [Option.some.injEq] at h
      subst h
      exact (sameScope_writeHtml _ _).trans
        ((block_scope (analyzeInstrs_scope body _ _ hbody) hend).trans
          (sameScope_writeHtml _ _))
/-- `of` arms restore the scope fields exactly. -/
theorem analyzeOfs_scope : ∀ (os : Ofs) (st st' : AnState),
    analyzeOfs st os = Option.some st' → SameScope st st'
  | Ofs.nil, st, st', h => by
      simp only [analyzeOfs, Option.some.injEq] at h
      subst h
      exact SameScope.refl st
  | Ofs.cons l body rest, st, st', h => by
      simp only [analyzeOfs, optBind_eq_some] at h
      obtain ⟨st2, hbody, h⟩ := h
      obtain ⟨st3, hend, h⟩ := h
      exact (sameScope_writeHtml _ _).trans
        ((block_scope (analyzeInstrs_scope body _ _ hbody) hend).trans
          ((sameScope_writeHtml _ _).trans (analyzeOfs_scope rest _ _ h)))
end

/-- Parameter binding only appends counted bindings. -/
theorem funcParamsVisit_scope : ∀ (bs : List VarBind) (st : AnState),
    ScopeExt st (funcParamsVisit st bs).1
  | [], st => ScopeExt.of_same (SameScope.refl st)
  | b :: bs, st => by
      have h1 := scopeExt_addVar b.name (typePyVal b.ty) st
      have h2 := funcParamsVisit_scope bs (addVar b.name (typePyVal b.ty) st)
      simp only [funcParamsVisit]
      rcases hfp : funcParamsVisit (addVar b.name (typePyVal b.ty) st) bs with ⟨st2, tys, codes⟩
      rw [hfp] at h2
      exact h1.chain h2

/-- A function definition restores the scope fields exactly. -/
theorem analyzeFuncDefn_scope (st : AnState) (fd : FuncDefn) (st' : AnState)
    (h : analyzeFuncDefn st fd = Option.some st') : SameScope st st' := by
  unfold analyzeFuncDefn at h
  dsimp only at h
  rcases hfp : funcParamsVisit (newScope st) fd.params with ⟨st2, ptys, pcodes⟩
  rw [hfp] at h
  dsimp only at h
  have hps : ScopeExt (newScope st) st2 := by
    have := funcParamsVisit_scope fd.params (newScope st)
    rw [hfp] at this
    exact this
  have hreg : SameScope st2
      (if (lookup? st2.fnsParams fd.name).isNone then
        { st2 with
                     fnsParams := setAssoc st2.fnsParams fd.name ptys
                     currFn := Option.some fd.name }
      else
        let s := stageErr "Function already defined" st2
        { s with currFn := Option.none }) := by
    split
    · exact ⟨rfl, rfl, rfl⟩
    · exact (sameScope_stageErr _ _).trans ⟨rfl, rfl, rfl⟩
  revert h
  generalize hst3 :
    (if (lookup? st2.fnsParams fd.name).isNone then
      { st2 with
                   fnsParams := setAssoc st2.fnsParams fd.name ptys
                   currFn := Option.some fd.name }
    else
      let s := stageErr "Function already defined" st2
      { s with currFn := Option.none }) = st3
  rw [hst3] at hreg
  intro h
  cases hrt : fd.retTy with
  | some te =>
      rw [hrt] at h
      dsimp only at h
      simp only [optBind_eq_some] at h
      obtain ⟨st6, hbody, hend⟩ := h
      have hfr : SameScope st3
          (if st3.currFn.isSome then
            { st3 with fnsRet := setAssoc st3.fnsRet fd.name (typePyVal te) } else st3) := by
        split
        · exact ⟨rfl, rfl, rfl⟩
        · exact SameScope.refl _
      exact block_scope
        (((hps.same_right (hreg.trans (hfr.trans (sameScope_flushErr _ _)))).chain
            (analyzeInstrs_scope fd.body _ _ hbody)).same_right
          (SameScope.trans (⟨rfl, rfl, rfl⟩ : SameScope st6 { st6 with currFn := Option.none })
            ((sameScope_writeHtml _ _).trans (sameScope_writeHtml _ _))))
        hend
  | none =>
      rw [hrt] at h
      dsimp only at h
      simp only [optBind_eq_some] at h
      obtain ⟨st6, hbody, hend⟩ := h
      have hfr : SameScope st3
          (if st3.currFn.isSome then
            { st3 with
              fnsRet := setAssoc st3.fnsRet fd.name (PyVal.type BaseType.VOID PyVal.vnone) }
            else st3) := by
        split
        · exact ⟨rfl, rfl, rfl⟩
        · exact SameScope.refl _
      exact block_scope
        (((hps.same_right (hreg.trans (hfr.trans (sameScope_flushErr _ _)))).chain
            (analyzeInstrs_scope fd.body _ _ hbody)).same_right
          (SameScope.trans (⟨rfl, rfl, rfl⟩ : SameScope st6 { st6 with currFn := Option.none })
            ((sameScope_writeHtml _ _).trans (sameScope_writeHtml _ _))))
        hend

/-- Field projections of the error-slot operations. -/
theorem flushErr_vars (c : String) (st : AnState) : (flushErr c st).vars = st.vars :=
  (sameScope_flushErr c st).1

theorem flushErr_numNew (c : String) (st : AnState) : (flushErr c st).numNew = st.numNew :=
  (sameScope_flushErr c st).2.1

theorem flushErr_stack (c : String) (st : AnState) : (flushErr c st).stack = st.stack :=
  (sameScope_flushErr c st).2.2

theorem applyErrs_vars (es : List String) (st : AnState) : (applyErrs es st).vars = st.vars :=
  (sameScope_applyErrs es st).1

theorem applyErrs_numNew (es : List String) (st : AnState) :
    (applyErrs es st).numNew = st.numNew := (sameScope_applyErrs es st).2.1

theorem applyErrs_stack (es : List String) (st : AnState) :
    (applyErrs es st).stack = st.stack := (sameScope_applyErrs es st).2.2

theorem condStage_vars (b : Bool) (s : String) (st : AnState) :
    (if b then stageErr s st else st).vars = st.vars := (sameScope_condStage b s st).1

theorem condStage_numNew (b : Bool) (s : String) (st : AnState) :
    (if b then stageErr s st else st).numNew = st.numNew := (sameScope_condStage b s st).2.1

theorem condStage_stack (b : Bool) (s : String) (st : AnState) :
    (if b then stageErr s st else st).stack = st.stack := (sameScope_condStage b s st).2.2

/-- The table after `_add_var`. -/
theorem addVar_vars (x : String) (t : PyVal) (st : AnState) :
    (addVar x t st).vars =
      (if (lookup? st.vars x).isNone then st.vars ++ [(x, t)] else st.vars)
      ∧ (addVar x t st).numNew =
        (if (lookup? st.vars x).isNone then st.numNew + 1 else st.numNew)
      ∧ (addVar x t st).stack = st.stack := by
  unfold addVar
  split
  · simp_all
  · have := sameScope_stageErr "Variable already defined" st
    simp_all [this.1, this.2.1, this.2.2]

/-- A top-level construct's effect on the three scope fields: a `fnC`
restores them; a `varC` performs exactly the `_add_var` update. -/
theorem analyzeConstruct_vars (c : Construct) (st st' : AnState)
    (h : analyzeConstruct st c = Option.some st') :
    st'.vars = (match c with
      | Construct.varC b _ =>
          if (lookup? st.vars b.name).isNone then st.vars ++ [(b.name, typePyVal b.ty)]
          else st.vars
      | Construct.fnC _ => st.vars)
    ∧ st'.numNew = (match c with
      | Construct.varC b _ =>
          if (lookup? st.vars b.name).isNone then st.numNew + 1 else st.numNew
      | Construct.fnC _ => st.numNew)
    ∧ st'.stack = st.stack := by
  cases c with
  | fnC fd =>
      have := analyzeFuncDefn_scope st fd st' h
      exact ⟨this.1, this.2.1, this.2.2⟩
  | varC b e =>
      simp only [analyzeConstruct, analyzeInstr, optBind_eq_some] at h
      obtain ⟨⟨te, ce, errs⟩, hx, h⟩ := h
      simp only [Option.some.injEq] at h
      subst h
      have hav := addVar_vars b.name (typePyVal b.ty) st
      simp only [flushErr_vars, flushErr_numNew, flushErr_stack, condStage_vars,
        condStage_numNew, condStage_stack, applyErrs_vars, applyErrs_numNew, applyErrs_stack]
      exact ⟨hav.1, hav.2.1, hav.2.2⟩

/-- Folding the constructs from any start state tracks `topLevelVars`. -/
theorem analyzeConstructs_top : ∀ (cs : List Construct) (st st' : AnState),
    analyzeConstructs st cs = Option.some st' →
    st'.vars = topLevelVars cs st.vars ∧ st'.stack = st.stack
      ∧ st'.numNew + st.vars.length = st.numNew + (topLevelVars cs st.vars).length
  | [], st, st', h => by
      simp only [analyzeConstructs, Option.some.injEq] at h
      subst h
      exact ⟨rfl, rfl, rfl⟩
  | c :: cs, st, st', h => by
      simp only [analyzeConstructs, optBind_eq_some] at h
      obtain ⟨st1, h1, h2⟩ := h
      have hc := analyzeConstruct_vars c st st1 h1
      have ih := analyzeConstructs_top cs st1 st' h2
      obtain ⟨ihv, ihs, ihn⟩ := ih
      cases c with
      | fnC fd =>
          simp only at hc
          obtain ⟨hcv, hcn, hcs⟩ := hc
          rw [topLevelVars]
          rw [hcv] at ihv ihn
          rw [hcn] at ihn
          exact ⟨ihv, ihs.trans hcs, ihn⟩
      | varC b e =>
          simp only at hc
          obtain ⟨hcv, hcn, hcs⟩ := hc
          rw [topLevelVars]
          by_cases hnew : (lookup? st.vars b.name).isNone
          · rw [if_pos hnew] at hcv hcn ⊢
            rw [hcv] at ihv ihn
            rw [hcn] at ihn
            refine ⟨ihv, ihs.trans hcs, ?_⟩
            simp only [List.length_append, List.length_singleton] at ihn ⊢
            omega
          · rw [if_neg hnew] at hcv hcn ⊢
            rw [hcv] at ihv ihn
            rw [hcn] at ihn
            exact ⟨ihv, ihs.trans hcs, ihn⟩

/-- C2: the analyzer's scope discipline.  (1) Whenever a whole unit is
analyzed to completion, the variable table holds exactly the unit's
top-level variables (with their declared types), the scope stack is back
to its outermost (empty) state and the binding counter counts exactly
those variables.  (2) `_end_scope` on a table that extends `v` by the
`numNew`-counted suffix `δ` and a stack ending in `m` pops exactly `δ`
(most recent first) and restores the counter to `m` — every visitor
brackets its body with `_new_scope`/`_end_scope` in this way. -/
theorem c2_scope_discipline :
    (∀ (cs : List Construct) (st' : AnState), analyzeUnit cs = Option.some st' →
        st'.vars = topLevelVars cs [] ∧ st'.stack = []
          ∧ st'.numNew = (topLevelVars cs []).length)
      ∧ (∀ (st : AnState) (v δ : List (String × PyVal)) (s : List Nat) (m : Nat),
          st.vars = v ++ δ → st.numNew = δ.length → st.stack = s ++ [m] →
          endScope st = Option.some { st with
            vars := v
            numNew := m
            stack := s
            indent := st.indent.dropRight 4 }) := by
  constructor
  · intro cs st' h
    have := analyzeConstructs_top cs initState st' h
    refine ⟨this.1, this.2.1, ?_⟩
    have h3 := this.2.2
    simp only [initState] at h3 ⊢
    simpa using h3
  · intro st v δ s m hv hn hs
    exact endScope_restore st v δ s m hv hn hs

/-- Witness for C2: a unit with a top-level variable and a function whose
body opens nested scopes, plus a concrete `_end_scope` call. -/
theorem c2_scope_discipline_witness :
    ((analyzeUnit
        [Construct.varC ⟨"x", TypeExpr.prim BaseType.INT⟩ (Expr.lit (Lit.intL "1")),
         Construct.fnC ⟨"f", [⟨"p", TypeExpr.prim BaseType.BOOL⟩], Option.none,
           Instrs.cons
             (Instr.whileF (Expr.lit (Lit.boolL "true"))
               (Instrs.cons
                 (Instr.varDefn ⟨"z", TypeExpr.prim BaseType.INT⟩ (Expr.lit (Lit.intL "2")))
                 Instrs.nil))
             Instrs.nil⟩]).map
      (fun st => (st.vars, st.stack, st.numNew))
      = Option.some ([("x", tyInt)], [], 1))
    ∧ endScope { initState with
        vars := [("a", tyInt), ("b", tyBool)]
        numNew := 1
        stack := [0] } = Option.some { initState with
        vars := [("a", tyInt)]
        numNew := 0
        stack := [] } := by
  constructor
  · have h1 : analyzeUnit
        [Construct.varC ⟨"x", TypeExpr.prim BaseType.INT⟩ (Expr.lit (Lit.intL "1")),
         Construct.fnC ⟨"f", [⟨"p", TypeExpr.prim BaseType.BOOL⟩], Option.none,
           Instrs.cons
             (Instr.whileF (Expr.lit (Lit.boolL "true"))
               (Instrs.cons
                 (Instr.varDefn ⟨"z", TypeExpr.prim BaseType.INT⟩ (Expr.lit (Lit.intL "2")))
                 Instrs.nil))
             Instrs.nil⟩] = Option.some
        ((analyzeUnit
          [Construct.varC ⟨"x", TypeExpr.prim BaseType.INT⟩ (Expr.lit (Lit.intL "1")),
           Construct.fnC ⟨"f", [⟨"p", TypeExpr.prim BaseType.BOOL⟩], Option.none,
             Instrs.cons
               (Instr.whileF (Expr.lit (Lit.boolL "true"))
                 (Instrs.cons
                   (Instr.varDefn ⟨"z", TypeExpr.prim BaseType.INT⟩ (Expr.lit (Lit.intL "2")))
                   Instrs.nil))
               Instrs.nil⟩]).get (by decide)) := by decide
    have h2 := c2_scope_discipline.1 _ _ h1
    rw [h1]
    simp only [Option.map_some']
    rw [h2.1, h2.2.1, h2.2.2]
    decide
  · exact c2_scope_discipline.2 _ [("a", tyInt)] [("b", tyBool)] [] 0
      (by decide) (by decide) (by decide)

/-! ## C4: function-call checking -/

/-- Whether a runtime value is an actual `_Type` instance. -/
def isTypeObj : PyVal → Bool
  | PyVal.type _ _ => true
  | _ => false

/-- `_Type`-valued parameters and arguments never produce a mismatch,
because the code's `==` identifies all `_Type` instances. -/
theorem firstMismatch_nil_of_types : ∀ (ps as_ : List PyVal),
    (∀ p ∈ ps, isTypeObj p = true) → (∀ a ∈ as_, isTypeObj a = true) →
    funcCallCheck.firstMismatch ps as_ = [] := by
  intro ps
  induction ps with
  | nil => intro as_ hp ha; rfl
  | cons p ps ih =>
      intro as_ hp ha
      cases as_ with
      | nil => rfl
      | cons a as_ =>
          have hp1 : isTypeObj p = true := hp p (List.mem_cons_self p ps)
          have ha1 : isTypeObj a = true := ha a (List.mem_cons_self a as_)
          rw [funcCallCheck.firstMismatch]
          cases p with
          | type bp tp =>
              cases a with
              | type ba ta =>
                  rw [pyEq_type_type]
                  simp only [Bool.not_true, Bool.false_eq_true, if_false]
                  exact ih as_
                    (fun q hq => hp q (List.mem_cons_of_mem _ hq))
                    (fun q hq => ha q (List.mem_cons_of_mem _ hq))
              | vnone => simp [isTypeObj] at ha1
              | vint n => simp [isTypeObj] at ha1
              | vtuple vs => simp [isTypeObj] at ha1
          | vnone => simp [isTypeObj] at hp1
          | vint n => simp [isTypeObj] at hp1
          | vtuple vs => simp [isTypeObj] at hp1

/-- C4 counterexample: with `f` registered as `(int) -> bool`, the call
`f("a")` stages no error even though the argument's type differs
structurally from the parameter's, and the call `f()` stages the arity
error but its result type is the declared `bool`, not the `Any` fallback
the claim requires on any error. -/
theorem c4_funcCall_counterexample :
    funcCallCheck ⟨[], [("f", [tyInt])], [("f", tyBool)]⟩ "f" [tyString]
        = Option.some (tyBool, [])
      ∧ specEquals tyString tyInt = false
      ∧ funcCallCheck ⟨[], [("f", [tyInt])], [("f", tyBool)]⟩ "f" []
        = Option.some (tyBool,
            ["Number of function parameters and given arguments must match"])
      ∧ tyBool ≠ tyAny := by
  refine ⟨by decide, by decide, by decide, by decide⟩

/-- C4 (amended): an unknown callee stages `Function not in scope` and
falls back to `Any`; a known callee's result is its declared return type
even when an error is staged; an arity mismatch stages its error; with
matching arity and `_Type`-valued parameters and arguments no argument
mismatch is ever staged, because the comparison uses the code's wildcard
equality (the mismatch branch fires only on degenerate non-`_Type`
values, stopping at the first such pair). -/
theorem c4_funcCall :
    ∀ (ctx : Ctx) (f : String) (argTys : List PyVal),
      (lookup? ctx.fnsRet f = Option.none →
        funcCallCheck ctx f argTys
          = Option.some (PyVal.type BaseType.ANY PyVal.vnone, ["Function not in scope"]))
      ∧ (∀ rt ps, lookup? ctx.fnsRet f = Option.some rt →
          lookup? ctx.fnsParams f = Option.some ps →
          (ps.length ≠ argTys.length →
            funcCallCheck ctx f argTys = Option.some (rt,
              ["Number of function parameters and given arguments must match"]))
          ∧ (ps.length = argTys.length →
            (∀ p ∈ ps, isTypeObj p = true) → (∀ a ∈ argTys, isTypeObj a = true) →
            funcCallCheck ctx f argTys = Option.some (rt, []))) := by
  intro ctx f argTys
  constructor
  · intro hnone
    unfold funcCallCheck
    rw [hnone]
  · intro rt ps hrt hps
    constructor
    · intro hne
      unfold funcCallCheck
      rw [hrt, hps]
      dsimp only
      rw [if_pos hne]
    · intro heq hp ha
      unfold funcCallCheck
      rw [hrt, hps]
      dsimp only
      rw [if_neg (by omega), firstMismatch_nil_of_types ps argTys hp ha]

/-- Witness for C4's amended statement at concrete inputs. -/
theorem c4_funcCall_witness :
    funcCallCheck ⟨[], [], []⟩ "g" [] =
        Option.some (PyVal.type BaseType.ANY PyVal.vnone, ["Function not in scope"])
      ∧ funcCallCheck ⟨[], [("f", [tyInt])], [("f", tyBool)]⟩ "f" [tyString, tyString]
        = Option.some (tyBool,
            ["Number of function parameters and given arguments must match"])
      ∧ funcCallCheck ⟨[], [("f", [tyInt])], [("f", tyBool)]⟩ "f" [tyString]
        = Option.some (tyBool, []) :=
  ⟨(c4_funcCall ⟨[], [], []⟩ "g" []).1 (by decide),
   ((c4_funcCall ⟨[], [("f", [tyInt])], [("f", tyBool)]⟩ "f" [tyString, tyString]).2
      tyBool [tyInt] (by decide) (by decide)).1 (by decide),
   ((c4_funcCall ⟨[], [("f", [tyInt])], [("f", tyBool)]⟩ "f" [tyString]).2
      tyBool [tyInt] (by decide) (by decide)).2 (by decide) (by decide) (by decide)⟩

/-! ## C10: the array-literal visitor -/

/-- C10: `array_literal` reads `tree.children[0]` unconditionally, so the
empty array literal `{}` (which the grammar rule `array_literal` accepts)
raises; the empty list literal `[]` instead yields `List(Any)`; a
non-empty array literal whose elements analyze successfully yields
`Array(typeof(e1), k)` with `k` the element count. -/
theorem c10_array_literal :
    (∀ ctx : Ctx, analyzeExpr ctx (Expr.lit (Lit.arrayL Exprs.nil)) = Option.none)
      ∧ (∀ ctx : Ctx, analyzeExpr ctx (Expr.lit (Lit.listL Exprs.nil))
          = Option.some
              (PyVal.type BaseType.LIST (PyVal.type BaseType.ANY PyVal.vnone), "[]", []))
      ∧ (∀ (ctx : Ctx) (es : Exprs) (r0 : PyVal × String × List String)
            (rs : List (PyVal × String × List String)),
          analyzeExprList ctx es = Option.some (r0 :: rs) →
          analyzeExpr ctx (Expr.lit (Lit.arrayL es))
            = Option.some
                (PyVal.type BaseType.ARRAY
                  (PyVal.vtuple (PyVals.cons r0.1
                    (PyVals.cons (PyVal.vint (1 + rs.length)) PyVals.nil))),
                "\x7b" ++ joinComma (r0.2.1 :: codesOf rs) ++ "\x7d",
                r0.2.2 ++ homogErrs r0.1 "Arrays must have homogeneous types" rs)) := by
  refine ⟨fun ctx => rfl, fun ctx => rfl, ?_⟩
  intro ctx es r0 rs h
  rcases r0 with ⟨t0, c0, e0⟩
  rw [analyzeExpr, h]
  rfl

/-- Witness for C10's non-empty case at a concrete literal. -/
theorem c10_array_literal_witness :
    analyzeExpr ⟨[], [], []⟩
        (Expr.lit (Lit.arrayL (Exprs.cons (Expr.lit (Lit.intL "1"))
          (Exprs.cons (Expr.lit (Lit.intL "2")) Exprs.nil))))
      = Option.some
          (PyVal.type BaseType.ARRAY
            (PyVal.vtuple (PyVals.cons (PyVal.type BaseType.INT PyVal.vnone)
              (PyVals.cons (PyVal.vint 2) PyVals.nil))),
          "\x7b" ++ joinComma ("1" :: codesOf [(PyVal.type BaseType.INT PyVal.vnone, "2", [])])
            ++ "\x7d",
          [] ++ homogErrs (PyVal.type BaseType.INT PyVal.vnone)
            "Arrays must have homogeneous types"
            [(PyVal.type BaseType.INT PyVal.vnone, "2", [])]) :=
  c10_array_literal.2.2 ⟨[], [], []⟩
    (Exprs.cons (Expr.lit (Lit.intL "1")) (Exprs.cons (Expr.lit (Lit.intL "2")) Exprs.nil))
    (PyVal.type BaseType.INT PyVal.vnone, "1", [])
    [(PyVal.type BaseType.INT PyVal.vnone, "2", [])] (by decide)

/-! ## The CFG builder (graphs.py, `CFGraphInterpreter`)

pydot node names `node{k}` and `nodecomplex` are represented by `NId`
(their string rendering is injective).  Expression visitors of the graph
builders are pure code-string builders. -/

/-- A pydot node name. -/
inductive NId where
  | num (k : Nat)
  | complex
deriving DecidableEq, Repr

/-- A pydot node with the attributes the builders set. -/
structure CNode where
  nid : NId
  label : String
  shape : String
  fill : Option String
deriving DecidableEq, Repr

/-- A pydot edge with the attributes the builders set. -/
structure CEdge where
  src : NId
  tgt : NId
  color : Option String
  style : Option String
  elabel : Option String
  fillcolor : Option String
deriving DecidableEq, Repr

/-- A per-function graph. -/
structure Graph where
  nodes : List CNode
  edges : List CEdge
deriving DecidableEq, Repr

mutual
/-- Code strings built by the CFG expression visitors
(graphs.py lines 199-285 and 482-554).  The `func_call` expression
visitor is `pass`, i.e. returns `None`, which Python interpolates as the
text `None`. -/
def cfgExprCode : Expr → String
  | Expr.plus a b => cfgExprCode a ++ " + " ++ cfgExprCode b
  | Expr.minus a b => cfgExprCode a ++ " - " ++ cfgExprCode b
  | Expr.mul a b => cfgExprCode a ++ " * " ++ cfgExprCode b
  | Expr.div a b => cfgExprCode a ++ " / " ++ cfgExprCode b
  | Expr.mod a b => cfgExprCode a ++ " % " ++ cfgExprCode b
  | Expr.exp a b => cfgExprCode a ++ " ^ " ++ cfgExprCode b
  | Expr.prepend a b => cfgExprCode a ++ " ^: " ++ cfgExprCode b
  | Expr.append a b => cfgExprCode a ++ " $: " ++ cfgExprCode b
  | Expr.eq a b => cfgExprCode a ++ " == " ++ cfgExprCode b
  | Expr.neq a b => cfgExprCode a ++ " != " ++ cfgExprCode b
  | Expr.and a b => cfgExprCode a ++ " && " ++ cfgExprCode b
  | Expr.or a b => cfgExprCode a ++ " || " ++ cfgExprCode b
  | Expr.not a => "!" ++ cfgExprCode a
  | Expr.paren a => "(" ++ cfgExprCode a ++ ")"
  | Expr.varDeref x OExpr.none => x
  | Expr.varDeref x (OExpr.some idx) => x ++ "[" ++ cfgExprCode idx ++ "]"
  | Expr.call _ _ => "None"
  | Expr.readE => "read()"
  | Expr.headE a => "head(" ++ cfgExprCode a ++ ")"
  | Expr.tailE a => "tail(" ++ cfgExprCode a ++ ")"
  | Expr.lit (Lit.intL tok) => tok
  | Expr.lit (Lit.floatL tok) => tok
  | Expr.lit (Lit.strL tok) => tok
  | Expr.lit (Lit.boolL tok) => tok
  | Expr.lit (Lit.listL Exprs.nil) => "[]"
  | Expr.lit (Lit.listL (Exprs.cons e es)) =>
      "[" ++ joinComma (cfgExprCode e :: cfgExprCodeList es) ++ "]"
  | Expr.lit (Lit.arrayL Exprs.nil) => "\x7b\x7d"
  | Expr.lit (Lit.arrayL (Exprs.cons e es)) =>
      "\x7b" ++ joinComma (cfgExprCode e :: cfgExprCodeList es) ++ "\x7d"
  | Expr.lit (Lit.tupleL es) => "|" ++ joinComma (cfgExprCodeList es) ++ "|"
/-- Codes of an expression list. -/
def cfgExprCodeList : Exprs → List String
  | Exprs.nil => []
  | Exprs.cons e es => cfgExprCode e :: cfgExprCodeList es
end

/-- The mutable state of `CFGraphInterpreter` (graphs.py lines 8-23);
`curNodes`/`curEdges` are the current function's graph (inserted into
`_fn_to_graph` by `func_defn`, duplicate names overwrite). -/
structure CfgSt where
  nodeId : Nat
  parentId : Option Nat
  edgeColor : Option String
  isDeadEdge : Bool
  curNodes : List CNode
  curEdges : List CEdge
  graphs : List (String × Graph)
deriving DecidableEq

/-- `_add_node` (lines 29-45). -/
def cfgAddNode (st : CfgSt) (nid : NId) (label shape : String) (fc : Option String) : CfgSt :=
  { st with curNodes := st.curNodes ++ [⟨nid, label, shape, fc⟩] }

/-- `_add_edge` (lines 47-70): nothing without a parent; a dead edge gets
`style=dashed`, `label="dead code!"`, `color=gray`, `fillcolor=gray`
(overriding any pending color) and the flag is consumed. -/
def cfgAddEdge (st : CfgSt) (child : Nat) : CfgSt :=
  match st.parentId with
  | Option.none => st
  | Option.some p =>
      let e : CEdge :=
        if st.isDeadEdge then
          ⟨NId.num p, NId.num child, Option.some "gray", Option.some "dashed",
            Option.some "dead code!", Option.some "gray"⟩
        else
          ⟨NId.num p, NId.num child, st.edgeColor, Option.none, Option.none, Option.none⟩
      { st with curEdges := st.curEdges ++ [e], isDeadEdge := false }

/-- Python dict assignment for the per-function graph map. -/
def upsertGraph : List (String × Graph) → String → Graph → List (String × Graph)
  | [], k, g => [(k, g)]
  | (k', g') :: rest, k, g =>
      if k' = k then (k', g) :: rest else (k', g') :: upsertGraph rest k g

/-- Whether an `elif` chain is empty. -/
def elifsIsNil : Elifs → Bool
  | Elifs.nil => true
  | Elifs.cons _ _ _ => false

/-- Whether the `else` block is absent. -/
def elseIsNone : ElseB → Bool
  | ElseB.noneE => true
  | ElseB.someE _ => false

mutual
/-- The CFG instruction visitors (graphs.py lines 125-174 and 287-495);
`instruction` skips standalone `func_call`s (line 142-144). -/
def cfgInstr (st : CfgSt) : Instr → CfgSt
  | Instr.varDefn b e =>
      let thisId := st.nodeId + 1
      let st1 := cfgAddNode { st with nodeId := thisId } (NId.num thisId)
        (b.name ++ ": " ++ typeCodeRaw b.ty ++ " = " ++ cfgExprCode e) "oval" Option.none
      let st2 := cfgAddEdge st1 thisId
      { st2 with edgeColor := Option.none, parentId := Option.some thisId }
  | Instr.retI oe =>
      let label := match oe with
        | OExpr.some e => "return " ++ cfgExprCode e
        | OExpr.none => "return"
      let thisId := st.nodeId + 1
      let st1 := cfgAddNode { st with nodeId := thisId } (NId.num thisId)
        label "rectangle" (Option.some "#e085dd")
      let st2 := cfgAddEdge st1 thisId
      { st2 with edgeColor := Option.none, isDeadEdge := true, parentId := Option.some thisId }
  | Instr.writeI es =>
      let thisId := st.nodeId + 1
      let st1 := cfgAddNode { st with nodeId := thisId } (NId.num thisId)
        ("write(" ++ joinComma (cfgExprCodeList es) ++ ")") "rectangle" Option.none
      let st2 := cfgAddEdge st1 thisId
      { st2 with edgeColor := Option.none, parentId := Option.some thisId }
  | Instr.attrib x idx e =>
      let label := match idx with
        | OExpr.none => x ++ " = " ++ cfgExprCode e
        | OExpr.some i => x ++ "[" ++ cfgExprCode i ++ "] = " ++ cfgExprCode e ++ ";"
      let thisId := st.nodeId + 1
      let st1 := cfgAddNode { st with nodeId := thisId } (NId.num thisId)
        label "rectangle" Option.none
      let st2 := cfgAddEdge st1 thisId
      { st2 with edgeColor := Option.none, parentId := Option.some thisId }
  | Instr.callI _ _ => st
  | Instr.ifF c body elifs els =>
      let thisId := st.nodeId + 1
      let st1 := cfgAddNode { st with nodeId := thisId } (NId.num thisId)
        ("if(" ++ cfgExprCode c ++ ")") "diamond" Option.none
      let st2 := cfgAddEdge st1 thisId
      let st3 := cfgInstrs
        { st2 with parentId := Option.some thisId, edgeColor := Option.some "green" } body
      let dummyId := st3.nodeId + 1
      let st4 := cfgAddNode { st3 with nodeId := dummyId } (NId.num dummyId)
        "&lt;end if&gt;" "diamond" (Option.some "gray")
      let st5 := cfgAddEdge st4 dummyId
      let st6 :=
        if elifsIsNil elifs && elseIsNone els then
          cfgAddEdge
            { st5 with edgeColor := Option.some "red", parentId := Option.some thisId }
            dummyId
        else
          let pr := cfgElifs st5 thisId dummyId elifs
          cfgIfElse pr.1 pr.2 dummyId els
      { st6 with edgeColor := Option.none, parentId := Option.some dummyId }
  | Instr.unlessF c body =>
      let thisId := st.nodeId + 1
      let st1 := cfgAddNode { st with nodeId := thisId } (NId.num thisId)
        ("unless(" ++ cfgExprCode c ++ ")") "diamond" Option.none
      let st2 := cfgAddEdge st1 thisId
      let st3 := cfgInstrs
        { st2 with parentId := Option.some thisId, edgeColor := Option.some "red" } body
      let dummyId := st3.nodeId + 1
      let st4 := cfgAddNode { st3 with nodeId := dummyId } (NId.num dummyId)
        "&lt;end unless&gt;" "diamond" (Option.some "gray")
      let st5 := cfgAddEdge st4 dummyId
      let st6 := cfgAddEdge
        { st5 with edgeColor := Option.some "green", parentId := Option.some thisId } dummyId
      { st6 with edgeColor := Option.none, parentId := Option.some dummyId }
  | Instr.caseF scrut arms dflt =>
      let thisId := st.nodeId + 1
      let st1 := cfgAddNode { st with nodeId := thisId } (NId.num thisId)
        ("case(" ++ cfgExprCode scrut ++ ")") "diamond" Option.none
      let st2 := cfgAddEdge st1 thisId
      let st3 := { st2 with parentId := Option.some thisId, edgeColor := Option.none }
      let dummyId := st3.nodeId + 1
      let st4 := cfgAddNode { st3 with nodeId := dummyId } (NId.num dummyId)
        "&lt;end case&gt;" "diamond" (Option.some "gray")
      let st5 := cfgCaseArms st4 thisId arms dummyId
      let st6 :=
        let s := { st5 with parentId := Option.some thisId }
        let s1 :=
          let dId := s.nodeId + 1
          let sa := cfgAddNode { s with nodeId := dId } (NId.num dId)
            "default" "diamond" Option.none
          let sb := cfgAddEdge sa dId
          cfgInstrs { sb with parentId := Option.some dId } dflt
        cfgAddEdge s1 dummyId
      { st6 with parentId := Option.some dummyId }
  | Instr.whileF c body =>
      let thisId := st.nodeId + 1
      let st1 := cfgAddNode { st with nodeId := thisId } (NId.num thisId)
        ("while(" ++ cfgExprCode c ++ ")") "diamond" Option.none
      let st2 := cfgAddEdge st1 thisId
      let st3 := cfgInstrs
        { st2 with parentId := Option.some thisId, edgeColor := Option.some "green" } body
      let st4 := cfgAddEdge st3 thisId
      let dummyId := st4.nodeId + 1
      let st5 := cfgAddNode { st4 with nodeId := dummyId } (NId.num dummyId)
        "&lt;end while&gt;" "diamond" (Option.some "gray")
      let st6 := cfgAddEdge
        { st5 with parentId := Option.some thisId, edgeColor := Option.some "red" } dummyId
      { st6 with edgeColor := Option.none, parentId := Option.some dummyId }
  | Instr.doWhileF body c =>
      let dummyId := st.nodeId + 1
      let st1 := cfgAddNode { st with nodeId := dummyId } (NId.num dummyId)
        "&lt;begin do-while&gt;" "diamond" (Option.some "gray")
      let st2 := cfgAddEdge st1 dummyId
      let st3 := cfgInstrs { st2 with parentId := Option.some dummyId } body
      let thisId := st3.nodeId + 1
      let st4 := cfgAddNode { st3 with nodeId := thisId } (NId.num thisId)
        ("while(" ++ cfgExprCode c ++ ")") "diamond" Option.none
      let st5 := cfgAddEdge st4 thisId
      let st6 := cfgAddEdge
        { st5 with parentId := Option.some thisId, edgeColor := Option.some "green" } dummyId
      { st6 with edgeColor := Option.some "red" }
  | Instr.forF x e body =>
      let thisId := st.nodeId + 1
      let st1 := cfgAddNode { st with nodeId := thisId } (NId.num thisId)
        ("for(" ++ x ++ " in " ++ cfgExprCode e ++ ")") "diamond" Option.none
      let st2 := cfgAddEdge st1 thisId
      let st3 := cfgInstrs
        { st2 with parentId := Option.some thisId, edgeColor := Option.some "green" } body
      let st4 := cfgAddEdge st3 thisId
      let dummyId := st4.nodeId + 1
      let st5 := cfgAddNode { st4 with nodeId := dummyId } (NId.num dummyId)
        "&lt;end for&gt;" "diamond" (Option.some "gray")
      let st6 := cfgAddEdge
        { st5 with parentId := Option.some thisId, edgeColor := Option.some "red" } dummyId
      { st6 with edgeColor := Option.none, parentId := Option.some dummyId }
/-- A block of instructions in program order. -/
def cfgInstrs (st : CfgSt) : Instrs → CfgSt
  | Instrs.nil => st
  | Instrs.cons i is => cfgInstrs (cfgInstr st i) is
/-- The `elif` arms of `if_flow`'s trailing loop (lines 313-319): each
arm is entered from the previous decision's red edge and merges into
`end if`; returns the last decision node's id. -/
def cfgElifs (st : CfgSt) (fromId : Nat) (dummyId : Nat) : Elifs → CfgSt × Nat
  | Elifs.nil => (st, fromId)
  | Elifs.cons c body rest =>
      let st1 := { st with edgeColor := Option.some "red", parentId := Option.some fromId }
      let thisId := st1.nodeId + 1
      let st2 := cfgAddNode { st1 with nodeId := thisId } (NId.num thisId)
        ("elif(" ++ cfgExprCode c ++ ")") "diamond" Option.none
      let st3 := cfgAddEdge st2 thisId
      let st4 := cfgInstrs
        { st3 with parentId := Option.some thisId, edgeColor := Option.some "green" } body
      let st5 := cfgAddEdge st4 dummyId
      cfgElifs st5 thisId dummyId rest
/-- The `else` arm of `if_flow`'s trailing loop, entered from the last
decision's red edge and merged into `end if`. -/
def cfgIfElse (st : CfgSt) (fromId : Nat) (dummyId : Nat) : ElseB → CfgSt
  | ElseB.noneE => st
  | ElseB.someE body =>
      let st1 := { st with edgeColor := Option.some "red", parentId := Option.some fromId }
      let st2 := cfgElseBody st1 body
      cfgAddEdge st2 dummyId
/-- `else_flow` (lines 342-345): visit each child, then clear the color. -/
def cfgElseBody (st : CfgSt) : Instrs → CfgSt
  | Instrs.nil => st
  | Instrs.cons i is => cfgElseBody { cfgInstr st i with edgeColor := Option.none } is
/-- The `of` arms of `case_flow` (lines 386-389 and 393-401). -/
def cfgCaseArms (st : CfgSt) (caseId : Nat) (arms : Ofs) (dummyId : Nat) : CfgSt :=
  match arms with
  | Ofs.nil => st
  | Ofs.cons l body rest =>
      let st1 := { st with parentId := Option.some caseId }
      let thisId := st1.nodeId + 1
      let st2 := cfgAddNode { st1 with nodeId := thisId } (NId.num thisId)
        ("of(" ++ caseLitCode l ++ ")") "diamond" Option.none
      let st3 := cfgAddEdge st2 thisId
      let st4 := cfgInstrs { st3 with parentId := Option.some thisId } body
      let st5 := cfgAddEdge st4 dummyId
      cfgCaseArms st5 caseId rest dummyId
end

/-- `func_defn` (lines 86-114): fresh graph, green signature node, body,
`end fn` node and edge, then the complexity annotation computed as
`len(edges) - len(nodes) + 2` on the graph as it stands. -/
def cfgFuncDefn (st : CfgSt) (fd : FuncDefn) : CfgSt :=
  let st0 := { st with curNodes := [], curEdges := [] }
  let pcode := "(" ++ joinComma (fd.params.map
    (fun b => b.name ++ ": " ++ typeCodeRaw b.ty)) ++ ")"
  let tcode := match fd.retTy with
    | Option.some te => " -> " ++ typeCodeRaw te
    | Option.none => ""
  let thisId := st0.nodeId + 1
  let st1 := cfgAddNode
    { st0 with nodeId := thisId, parentId := Option.some thisId }
    (NId.num thisId) (fd.name ++ pcode ++ tcode) "oval" (Option.some "#c8f771")
  let st2 := cfgInstrs st1 fd.body
  let dummyId := st2.nodeId + 1
  let st3 := cfgAddNode { st2 with nodeId := dummyId } (NId.num dummyId)
    "&lt;end fn&gt;" "diamond" (Option.some "gray")
  let st4 := cfgAddEdge st3 dummyId
  let mccabe : Int := (st4.curEdges.length : Int) - (st4.curNodes.length : Int) + 2
  let st5 := cfgAddNode st4 NId.complex
    ("McCabe's complexity: " ++ toString mccabe) "plaintext" Option.none
  { st5 with graphs := upsertGraph st5.graphs fd.name ⟨st5.curNodes, st5.curEdges⟩ }

/-- `construct`: a top-level `var_defn` is skipped by the
`_is_fn_scope` guard (lines 126-127). -/
def cfgConstruct (st : CfgSt) : Construct → CfgSt
  | Construct.fnC fd => cfgFuncDefn st fd
  | Construct.varC _ _ => st

/-- Fold the unit's constructs. -/
def cfgConstructs (st : CfgSt) : List Construct → CfgSt
  | [] => st
  | c :: cs => cfgConstructs (cfgConstruct st c) cs

/-- Run the CFG builder over a unit from the fresh interpreter state. -/
def cfgUnit (cs : List Construct) : CfgSt :=
  cfgConstructs ⟨0, Option.none, Option.none, false, [], [], []⟩ cs

/-! ## C5 and C6: properties of the produced CFGs -/

/-- Return nodes are exactly the pink-filled ones (`#e085dd` is used only
by `ret`, line 150/152). -/
def isRetN (n : CNode) : Bool := n.fill = Option.some "#e085dd"

/-- The dead-edge decoration of `_add_edge` (lines 63-67). -/
def deadStyled (e : CEdge) : Bool :=
  e.style = Option.some "dashed" && e.color = Option.some "gray"
    && e.elabel = Option.some "dead code!"

/-- Number of edges leaving the node named `i`. -/
def outCount (es : List CEdge) (i : NId) : Nat :=
  (es.filter (fun e => e.src = i)).length

/-- The edge's source is a return node of the node list. -/
def retSrc (ns : List CNode) (e : CEdge) : Prop :=
  ∃ n ∈ ns, isRetN n = true ∧ e.src = n.nid

/-- Dead styling characterizes edges leaving return nodes. -/
def IA (st : CfgSt) : Prop :=
  ∀ e ∈ st.curEdges, (deadStyled e = true ↔ retSrc st.curNodes e)

/-- Every return node has exactly one outgoing edge. -/
def IBcount (st : CfgSt) : Prop :=
  ∀ m ∈ st.curNodes, isRetN m = true → outCount st.curEdges m.nid = 1

/-- Numeric node ids are bounded by the counter. -/
def IC (st : CfgSt) : Prop :=
  ∀ n ∈ st.curNodes, ∀ k, n.nid = NId.num k → k ≤ st.nodeId

/-- Node ids are pairwise distinct. -/
def IDist (st : CfgSt) : Prop :=
  st.curNodes.Pairwise (fun a b => a.nid ≠ b.nid)

/-- The flag-dependent part: a raised `_is_dead_edge` means the parent is
a pending return with no outgoing edge yet (all other returns have one);
a lowered flag means every return already has its one outgoing edge and
the parent is not a return. -/
def IB (st : CfgSt) : Prop :=
  (st.isDeadEdge = true →
    ∃ r ∈ st.curNodes, isRetN r = true
      ∧ (∃ k, r.nid = NId.num k ∧ st.parentId = Option.some k)
      ∧ outCount st.curEdges r.nid = 0
      ∧ ∀ m ∈ st.curNodes, isRetN m = true → m.nid ≠ r.nid →
          outCount st.curEdges m.nid = 1)
  ∧ (st.isDeadEdge = false →
      IBcount st ∧ ∀ m ∈ st.curNodes, isRetN m = true → ∀ k, m.nid = NId.num k →
        st.parentId ≠ Option.some k)

/-- Numeric edge sources are bounded by the counter. -/
def IE (st : CfgSt) : Prop :=
  ∀ e ∈ st.curEdges, ∀ k, e.src = NId.num k → k ≤ st.nodeId

/-- The parent id is bounded by the counter. -/
def IP (st : CfgSt) : Prop :=
  ∀ p, st.parentId = Option.some p → p ≤ st.nodeId

/-- The in-function invariant of the CFG builder. -/
def CInv (st : CfgSt) : Prop :=
  IA st ∧ IB st ∧ IC st ∧ IDist st ∧ IE st ∧ IP st ∧ st.parentId ≠ Option.none

/-- The state right after `_add_edge` consumed the flag (the parent may
still point at a return until the visitor reassigns it). -/
def CMid (st : CfgSt) : Prop :=
  IA st ∧ IBcount st ∧ IC st ∧ IDist st ∧ IE st ∧ IP st ∧ st.isDeadEdge = false

/-- `q` names a non-return node already in the list, within bounds; such
ids are the ones the visitors may reassign `_parent_node_id` to. -/
def GoodId (st : CfgSt) (q : Nat) : Prop :=
  q ≤ st.nodeId ∧ ∃ d ∈ st.curNodes, d.nid = NId.num q ∧ isRetN d = false

theorem outCount_append (es : List CEdge) (e : CEdge) (i : NId) :
    outCount (es ++ [e]) i = outCount es i + (if e.src = i then 1 else 0) := by
  simp only [outCount, List.filter_append, List.length_append, List.filter_cons,
    List.filter_nil]
  split <;> rename_i hd
  · simp only [List.length_singleton, if_pos (of_decide_eq_true hd)]
  · rw [if_neg (fun hh => hd (decide_eq_true hh))]
    simp

theorem retSrc_append_notRet (ns : List CNode) (n : CNode) (hn : isRetN n = false)
    (e : CEdge) : retSrc (ns ++ [n]) e ↔ retSrc ns e := by
  unfold retSrc
  constructor
  · rintro ⟨m, hm, hr, hs⟩
    rcases List.mem_append.1 hm with hm | hm
    · exact ⟨m, hm, hr, hs⟩
    · rcases List.mem_singleton.1 hm with rfl
      rw [hn] at hr
      cases hr
  · rintro ⟨m, hm, hr, hs⟩
    exact ⟨m, List.mem_append_left _ hm, hr, hs⟩

/-- In a list with pairwise-distinct ids, members sharing an id are equal. -/
theorem nid_inj_of_pairwise : ∀ {l : List CNode},
    l.Pairwise (fun a b => a.nid ≠ b.nid) →
    ∀ {a b : CNode}, a ∈ l → b ∈ l → a.nid = b.nid → a = b
  | [], _, _, _, ha, _, _ => absurd ha (List.not_mem_nil _)
  | x :: xs, h, a, b, ha, hb, hab => by
      obtain ⟨hx, hxs⟩ := List.pairwise_cons.1 h
      rcases List.mem_cons.1 ha with h1 | h1 <;> rcases List.mem_cons.1 hb with h2 | h2
      · rw [h1, h2]
      · exact absurd (h1 ▸ hab) (hx b h2)
      · exact absurd (h2 ▸ hab.symm) (hx a h1)
      · exact nid_inj_of_pairwise hxs h1 h2 hab

/-- Structural effect of one visitor step: monotone counter, untouched
graph map, nodes only appended with fresh non-plaintext entries. -/
def StepB (st st' : CfgSt) : Prop :=
  st.nodeId ≤ st'.nodeId ∧ st'.graphs = st.graphs
    ∧ ∃ δ, st'.curNodes = st.curNodes ++ δ
        ∧ ∀ n ∈ δ, n.shape ≠ "plaintext"
          ∧ ∀ k, n.nid = NId.num k → st.nodeId < k ∧ k ≤ st'.nodeId

theorem stepB_of_eq {st st' : CfgSt} (hn : st'.curNodes = st.curNodes)
    (hi : st'.nodeId = st.nodeId) (hg : st'.graphs = st.graphs) : StepB st st' :=
  ⟨Nat.le_of_eq hi.symm, hg, [], by simpa using hn, by simp⟩

theorem StepB.comp {a b c : CfgSt} (h1 : StepB a b) (h2 : StepB b c) : StepB a c := by
  obtain ⟨hi1, hg1, δ1, hn1, hb1⟩ := h1
  obtain ⟨hi2, hg2, δ2, hn2, hb2⟩ := h2
  refine ⟨hi1.trans hi2, hg2.trans hg1, δ1 ++ δ2, ?_, ?_⟩
  · rw [hn2, hn1, List.append_assoc]
  · intro n hn
    rcases List.mem_append.1 hn with hm | hm
    · obtain ⟨hs, hk⟩ := hb1 n hm
      exact ⟨hs, fun k hk2 => ⟨(hk k hk2).1, (hk k hk2).2.trans hi2⟩⟩
    · obtain ⟨hs, hk⟩ := hb2 n hm
      exact ⟨hs, fun k hk2 => ⟨Nat.lt_of_le_of_lt hi1 (hk k hk2).1, (hk k hk2).2⟩⟩

theorem stepB_addNode (st : CfgSt) (lbl shp : String) (fc : Option String)
    (hshp : shp ≠ "plaintext") :
    StepB st (cfgAddNode { st with nodeId := st.nodeId + 1 }
      (NId.num (st.nodeId + 1)) lbl shp fc) := by
  refine ⟨Nat.le_succ _, rfl, [⟨NId.num (st.nodeId + 1), lbl, shp, fc⟩], rfl, ?_⟩
  intro n hn
  rcases List.mem_singleton.1 hn with rfl
  refine ⟨hshp, ?_⟩
  intro k hk
  cases hk
  exact ⟨Nat.lt_succ_self _, Nat.le_refl _⟩

theorem stepB_addEdge (st : CfgSt) (c : Nat) : StepB st (cfgAddEdge st c) := by
  refine stepB_of_eq ?_ ?_ ?_ <;> (unfold cfgAddEdge; cases st.parentId <;> rfl)

theorem goodId_mono {st st' : CfgSt} {q : Nat} (hs : StepB st st') (hg : GoodId st q) :
    GoodId st' q := by
  obtain ⟨hq, d, hd, hdn, hdr⟩ := hg
  obtain ⟨hi, _, δ, hn, _⟩ := hs
  exact ⟨hq.trans hi, d, hn ▸ List.mem_append_left _ hd, hdn, hdr⟩

theorem addEdge_nodeId (st : CfgSt) (c : Nat) : (cfgAddEdge st c).nodeId = st.nodeId := by
  obtain ⟨n0, par, col, fl, ns, es, gs⟩ := st
  unfold cfgAddEdge; cases par <;> rfl

theorem addEdge_parentId (st : CfgSt) (c : Nat) :
    (cfgAddEdge st c).parentId = st.parentId := by
  obtain ⟨n0, par, col, fl, ns, es, gs⟩ := st
  unfold cfgAddEdge; cases par <;> rfl

theorem addEdge_curNodes (st : CfgSt) (c : Nat) :
    (cfgAddEdge st c).curNodes = st.curNodes := by
  obtain ⟨n0, par, col, fl, ns, es, gs⟩ := st
  unfold cfgAddEdge; cases par <;> rfl

theorem addEdge_graphs (st : CfgSt) (c : Nat) : (cfgAddEdge st c).graphs = st.graphs := by
  obtain ⟨n0, par, col, fl, ns, es, gs⟩ := st
  unfold cfgAddEdge; cases par <;> rfl

theorem addEdge_some_dead (st : CfgSt) (c p : Nat) (hp : st.parentId = Option.some p)
    (hd : st.isDeadEdge = true) :
    cfgAddEdge st c = { st with
      curEdges := st.curEdges ++ [⟨NId.num p, NId.num c, Option.some "gray",
        Option.some "dashed", Option.some "dead code!", Option.some "gray"⟩],
      isDeadEdge := false } := by
  unfold cfgAddEdge
  rw [hp]
  simp only [hd, if_true]

theorem addEdge_some_live (st : CfgSt) (c p : Nat) (hp : st.parentId = Option.some p)
    (hd : st.isDeadEdge = false) :
    cfgAddEdge st c = { st with
      curEdges := st.curEdges ++ [⟨NId.num p, NId.num c, st.edgeColor,
        Option.none, Option.none, Option.none⟩],
      isDeadEdge := false } := by
  unfold cfgAddEdge
  rw [hp]
  simp only [hd, if_false, Bool.false_eq_true]

theorem outCount_eq_zero : ∀ (es : List CEdge) (i : NId),
    (∀ e ∈ es, ¬ e.src = i) → outCount es i = 0
  | [], _, _ => rfl
  | e :: es, i, h => by
      have h1 : ¬ e.src = i := h e (List.mem_cons_self e es)
      have h2 := outCount_eq_zero es i (fun x hx => h x (List.mem_cons_of_mem _ hx))
      simp only [outCount, List.filter_cons] at h2 ⊢
      rw [if_neg (fun hh => h1 (of_decide_eq_true hh))]
      exact h2

/-- Adding a fresh non-return node (the `_add_node` of every visitor other
than `ret`) preserves the invariant. -/
theorem cinv_bumpAdd (st : CfgSt) (lbl shp : String) (fc : Option String)
    (hfc : fc ≠ Option.some "#e085dd") (h : CInv st) :
    CInv (cfgAddNode { st with nodeId := st.nodeId + 1 }
      (NId.num (st.nodeId + 1)) lbl shp fc) := by
  obtain ⟨hA, ⟨hB1, hB2⟩, hC, hD, hE, hP, hpn⟩ := h
  have hretn : isRetN ⟨NId.num (st.nodeId + 1), lbl, shp, fc⟩ = false := by
    simp [isRetN, hfc]
  refine ⟨?_, ⟨?_, ?_⟩, ?_, ?_, ?_, ?_, hpn⟩
  · intro e he
    show deadStyled e = true ↔
      retSrc (st.curNodes ++ [⟨NId.num (st.nodeId + 1), lbl, shp, fc⟩]) e
    rw [retSrc_append_notRet _ _ hretn]
    exact hA e he
  · intro hfl
    obtain ⟨r, hr, hrr, hrk, hrc, hro⟩ := hB1 hfl
    refine ⟨r, List.mem_append_left _ hr, hrr, hrk, hrc, ?_⟩
    intro m hm hmr hmne
    rcases List.mem_append.1 hm with hm | hm
    · exact hro m hm hmr hmne
    · rcases List.mem_singleton.1 hm with rfl
      rw [hretn] at hmr
      cases hmr
  · intro hfl
    obtain ⟨hcnt, hcl⟩ := hB2 hfl
    constructor
    · intro m hm hmr
      rcases List.mem_append.1 hm with hm | hm
      · exact hcnt m hm hmr
      · rcases List.mem_singleton.1 hm with rfl
        rw [hretn] at hmr
        cases hmr
    · intro m hm hmr k hk
      rcases List.mem_append.1 hm with hm | hm
      · exact hcl m hm hmr k hk
      · rcases List.mem_singleton.1 hm with rfl
        rw [hretn] at hmr
        cases hmr
  · intro n hn k hk
    rcases List.mem_append.1 hn with hn | hn
    · exact Nat.le_succ_of_le (hC n hn k hk)
    · rcases List.mem_singleton.1 hn with rfl
      cases hk
      exact Nat.le_refl _
  · show List.Pairwise (fun a b => a.nid ≠ b.nid)
      (st.curNodes ++ [⟨NId.num (st.nodeId + 1), lbl, shp, fc⟩])
    refine List.pairwise_append.2 ⟨hD, by simp, ?_⟩
    intro a ha b hb
    rcases List.mem_singleton.1 hb with rfl
    intro hcontra
    have hk := hC a ha (st.nodeId + 1) hcontra
    omega
  · intro e he k hk
    exact Nat.le_succ_of_le (hE e he k hk)
  · intro p hp
    exact Nat.le_succ_of_le (hP p hp)

/-- `_add_edge` under the invariant: the new edge is dead-styled exactly
when the flag was raised (and then leaves the pending return); afterwards
every return has its single outgoing edge and the flag is down. -/
theorem cinv_addEdge (st : CfgSt) (c : Nat) (h : CInv st) : CMid (cfgAddEdge st c) := by
  obtain ⟨hA, ⟨hB1, hB2⟩, hC, hD, hE, hP, hpn⟩ := h
  cases hp : st.parentId with
  | none => exact absurd hp hpn
  | some p =>
  have hpb : p ≤ st.nodeId := hP p hp
  cases hfl : st.isDeadEdge with
  | true =>
      rw [addEdge_some_dead st c p hp hfl]
      obtain ⟨r, hr, hrr, ⟨k, hrk, hpk⟩, hrc, hro⟩ := hB1 hfl
      have hpk2 : p = k := Option.some.inj (hp ▸ hpk)
      subst hpk2
      refine ⟨?_, ?_, hC, hD, ?_, ?_, rfl⟩
      · intro e' he'
        show deadStyled e' = true ↔ retSrc st.curNodes e'
        have he2 : e' ∈ st.curEdges ++ [⟨NId.num p, NId.num c, Option.some "gray",
          Option.some "dashed", Option.some "dead code!", Option.some "gray"⟩] := he'
        rcases List.mem_append.1 he2 with hm | hm
        · exact hA e' hm
        · rcases List.mem_singleton.1 hm with rfl
          constructor
          · exact fun _ => ⟨r, hr, hrr, by rw [hrk]⟩
          · exact fun _ => rfl
      · intro m hm hmr
        show outCount (st.curEdges ++ [⟨NId.num p, NId.num c, Option.some "gray",
          Option.some "dashed", Option.some "dead code!", Option.some "gray"⟩]) m.nid = 1
        rw [outCount_append]
        by_cases hmr2 : m.nid = r.nid
        · rw [hmr2, hrc, if_pos (by rw [hrk])]
        · rw [hro m hm hmr hmr2, if_neg]
          intro hcontra
          exact hmr2 (by rw [← hcontra, hrk])
      · intro e' he' k' hk'
        have he2 : e' ∈ st.curEdges ++ [⟨NId.num p, NId.num c, Option.some "gray",
          Option.some "dashed", Option.some "dead code!", Option.some "gray"⟩] := he'
        rcases List.mem_append.1 he2 with hm | hm
        · exact hE e' hm k' hk'
        · rcases List.mem_singleton.1 hm with rfl
          injection hk' with hkk
          exact hkk ▸ hpb
      · intro q hq
        exact hP q hq
  | false =>
      rw [addEdge_some_live st c p hp hfl]
      obtain ⟨hcnt, hcl⟩ := hB2 hfl
      refine ⟨?_, ?_, hC, hD, ?_, ?_, rfl⟩
      · intro e' he'
        show deadStyled e' = true ↔ retSrc st.curNodes e'
        have he2 : e' ∈ st.curEdges ++ [⟨NId.num p, NId.num c, st.edgeColor,
          Option.none, Option.none, Option.none⟩] := he'
        rcases List.mem_append.1 he2 with hm | hm
        · exact hA e' hm
        · rcases List.mem_singleton.1 hm with rfl
          constructor
          · intro hcontra
            exact absurd hcontra (by simp [deadStyled])
          · rintro ⟨n, hn, hnr, hns⟩
            exact absurd hp (hcl n hn hnr p hns.symm)
      · intro m hm hmr
        show outCount (st.curEdges ++ [⟨NId.num p, NId.num c, st.edgeColor,
          Option.none, Option.none, Option.none⟩]) m.nid = 1
        rw [outCount_append, hcnt m hm hmr, if_neg]
        intro hcontra
        exact hcl m hm hmr p hcontra.symm hp
      · intro e' he' k' hk'
        have he2 : e' ∈ st.curEdges ++ [⟨NId.num p, NId.num c, st.edgeColor,
          Option.none, Option.none, Option.none⟩] := he'
        rcases List.mem_append.1 he2 with hm | hm
        · exact hE e' hm k' hk'
        · rcases List.mem_singleton.1 hm with rfl
          injection hk' with hkk
          exact hkk ▸ hpb
      · intro q hq
        exact hP q hq

/-- A state whose parent names an existing non-return node satisfies the
full invariant when the flag is down. -/
theorem cinv_parent (st : CfgSt) (q : Nat) (hp : st.parentId = Option.some q)
    (h : CMid st) (hg : GoodId st q) : CInv st := by
  obtain ⟨hA, hcnt, hC, hD, hE, hP, hfl⟩ := h
  obtain ⟨hq, d, hd, hdn, hdr⟩ := hg
  refine ⟨hA, ⟨?_, ?_⟩, hC, hD, hE, hP, ?_⟩
  · intro hcontra
    rw [hfl] at hcontra
    cases hcontra
  · intro _
    refine ⟨hcnt, ?_⟩
    intro m hm hmr k hk hpk
    have hkq : q = k := Option.some.inj (hp ▸ hpk)
    subst hkq
    have hmd : m = d := nid_inj_of_pairwise hD hm hd (by rw [hk, hdn])
    rw [hmd, hdr] at hmr
    cases hmr
  · rw [hp]
    intro hcontra
    cases hcontra

/-- The `ret` visitor (node, edge from the old parent, flag raised, parent
moved onto the new pink node) re-establishes the invariant with the new
return as the pending one. -/
theorem cinv_ret (st : CfgSt) (lbl : String) (h : CInv st) :
    CInv { cfgAddEdge (cfgAddNode { st with nodeId := st.nodeId + 1 }
        (NId.num (st.nodeId + 1)) lbl "rectangle" (Option.some "#e085dd"))
        (st.nodeId + 1)
      with edgeColor := Option.none, isDeadEdge := true,
           parentId := Option.some (st.nodeId + 1) } := by
  obtain ⟨hA, ⟨hB1, hB2⟩, hC, hD, hE, hP, hpn⟩ := h
  cases hp : st.parentId with
  | none => exact absurd hp hpn
  | some p =>
  have hpb : p ≤ st.nodeId := hP p hp
  cases hfl : st.isDeadEdge with
  | true =>
      obtain ⟨r0, hr0, hr0r, ⟨k, hrk, hpk⟩, hrc, hro⟩ := hB1 hfl
      have hpk2 : p = k := Option.some.inj (hp ▸ hpk)
      subst hpk2
      show CInv (⟨st.nodeId + 1, Option.some (st.nodeId + 1), Option.none, true,
        st.curNodes ++ [⟨NId.num (st.nodeId + 1), lbl, "rectangle", Option.some "#e085dd"⟩],
        st.curEdges ++ [⟨NId.num p, NId.num (st.nodeId + 1), Option.some "gray",
          Option.some "dashed", Option.some "dead code!", Option.some "gray"⟩],
        st.graphs⟩ : CfgSt)
      refine ⟨?_, ⟨?_, ?_⟩, ?_, ?_, ?_, ?_, ?_⟩
      · intro e' he'
        show deadStyled e' = true ↔ retSrc (st.curNodes ++
          [⟨NId.num (st.nodeId + 1), lbl, "rectangle", Option.some "#e085dd"⟩]) e'
        rcases List.mem_append.1 he' with hm | hm
        · have base := hA e' hm
          constructor
          · intro hds
            obtain ⟨n, hn, hnr, hsrc⟩ := base.1 hds
            exact ⟨n, List.mem_append_left _ hn, hnr, hsrc⟩
          · rintro ⟨n, hn, hnr, hsrc⟩
            rcases List.mem_append.1 hn with hn | hn
            · exact base.2 ⟨n, hn, hnr, hsrc⟩
            · rcases List.mem_singleton.1 hn with rfl
              have hb := hE e' hm (st.nodeId + 1) hsrc
              omega
        · rcases List.mem_singleton.1 hm with rfl
          constructor
          · exact fun _ => ⟨r0, List.mem_append_left _ hr0, hr0r, by rw [hrk]⟩
          · exact fun _ => rfl
      · intro _
        refine ⟨⟨NId.num (st.nodeId + 1), lbl, "rectangle", Option.some "#e085dd"⟩,
          List.mem_append_right _ (List.mem_singleton_self _), rfl,
          ⟨st.nodeId + 1, rfl, rfl⟩, ?_, ?_⟩
        · show outCount (st.curEdges ++ [⟨NId.num p, NId.num (st.nodeId + 1),
            Option.some "gray", Option.some "dashed", Option.some "dead code!",
            Option.some "gray"⟩]) (NId.num (st.nodeId + 1)) = 0
          rw [outCount_append,
            outCount_eq_zero st.curEdges _ (fun e he hcontra => by
              have := hE e he (st.nodeId + 1) hcontra; omega),
            if_neg (fun hcontra => by injection hcontra with hkk; omega)]
        · intro m hm hmr hmne
          rcases List.mem_append.1 hm with hm3 | hm3
          · show outCount (st.curEdges ++ [⟨NId.num p, NId.num (st.nodeId + 1),
              Option.some "gray", Option.some "dashed", Option.some "dead code!",
              Option.some "gray"⟩]) m.nid = 1
            rw [outCount_append]
            by_cases hmr0 : m.nid = r0.nid
            · rw [hmr0, hrc, if_pos (by rw [hrk])]
            · rw [hro m hm3 hmr hmr0,
                if_neg (fun hcontra => hmr0 (by rw [← hcontra, hrk]))]
          · rcases List.mem_singleton.1 hm3 with rfl
            exact absurd rfl hmne
      · intro hcontra
        cases hcontra
      · intro n hn k' hk'
        rcases List.mem_append.1 hn with hn3 | hn3
        · exact Nat.le_succ_of_le (hC n hn3 k' hk')
        · rcases List.mem_singleton.1 hn3 with rfl
          cases hk'
          exact Nat.le_refl _
      · show List.Pairwise (fun a b => a.nid ≠ b.nid) (st.curNodes ++
          [⟨NId.num (st.nodeId + 1), lbl, "rectangle", Option.some "#e085dd"⟩])
        refine List.pairwise_append.2 ⟨hD, by simp, ?_⟩
        intro a ha b hb
        rcases List.mem_singleton.1 hb with rfl
        intro hcontra
        have hk := hC a ha (st.nodeId + 1) hcontra
        omega
      · intro e' he' k' hk'
        rcases List.mem_append.1 he' with hm | hm
        · exact Nat.le_succ_of_le (hE e' hm k' hk')
        · rcases List.mem_singleton.1 hm with rfl
          injection hk' with hkk
          show k' ≤ st.nodeId + 1
          omega
      · intro q hq
        have := Option.some.inj hq
        show q ≤ st.nodeId + 1
        omega
      · intro hcontra
        cases hcontra
  | false =>
      obtain ⟨hcnt, hcl⟩ := hB2 hfl
      show CInv (⟨st.nodeId + 1, Option.some (st.nodeId + 1), Option.none, true,
        st.curNodes ++ [⟨NId.num (st.nodeId + 1), lbl, "rectangle", Option.some "#e085dd"⟩],
        st.curEdges ++ [⟨NId.num p, NId.num (st.nodeId + 1), st.edgeColor,
          Option.none, Option.none, Option.none⟩],
        st.graphs⟩ : CfgSt)
      refine ⟨?_, ⟨?_, ?_⟩, ?_, ?_, ?_, ?_, ?_⟩
      · intro e' he'
        show deadStyled e' = true ↔ retSrc (st.curNodes ++
          [⟨NId.num (st.nodeId + 1), lbl, "rectangle", Option.some "#e085dd"⟩]) e'
        rcases List.mem_append.1 he' with hm | hm
        · have base := hA e' hm
          constructor
          · intro hds
            obtain ⟨n, hn, hnr, hsrc⟩ := base.1 hds
            exact ⟨n, List.mem_append_left _ hn, hnr, hsrc⟩
          · rintro ⟨n, hn, hnr, hsrc⟩
            rcases List.mem_append.1 hn with hn | hn
            · exact base.2 ⟨n, hn, hnr, hsrc⟩
            · rcases List.mem_singleton.1 hn with rfl
              have hb := hE e' hm (st.nodeId + 1) hsrc
              omega
        · rcases List.mem_singleton.1 hm with rfl
          constructor
          · intro hcontra
            exact absurd hcontra (by simp [deadStyled])
          · rintro ⟨n, hn, hnr, hsrc⟩
            rcases List.mem_append.1 hn with hn | hn
            · exact absurd hp (hcl n hn hnr p hsrc.symm)
            · rcases List.mem_singleton.1 hn with rfl
              injection hsrc with hkk
              exact absurd hkk (by omega)
      · intro _
        refine ⟨⟨NId.num (st.nodeId + 1), lbl, "rectangle", Option.some "#e085dd"⟩,
          List.mem_append_right _ (List.mem_singleton_self _), rfl,
          ⟨st.nodeId + 1, rfl, rfl⟩, ?_, ?_⟩
        · show outCount (st.curEdges ++ [⟨NId.num p, NId.num (st.nodeId + 1),
            st.edgeColor, Option.none, Option.none, Option.none⟩])
            (NId.num (st.nodeId + 1)) = 0
          rw [outCount_append,
            outCount_eq_zero st.curEdges _ (fun e he hcontra => by
              have := hE e he (st.nodeId + 1) hcontra; omega),
            if_neg (fun hcontra => by injection hcontra with hkk; omega)]
        · intro m hm hmr hmne
          rcases List.mem_append.1 hm with hm3 | hm3
          · show outCount (st.curEdges ++ [⟨NId.num p, NId.num (st.nodeId + 1),
              st.edgeColor, Option.none, Option.none, Option.none⟩]) m.nid = 1
            rw [outCount_append, hcnt m hm3 hmr,
              if_neg (fun hcontra => hcl m hm3 hmr p hcontra.symm hp)]
          · rcases List.mem_singleton.1 hm3 with rfl
            exact absurd rfl hmne
      · intro hcontra
        cases hcontra
      · intro n hn k' hk'
        rcases List.mem_append.1 hn with hn3 | hn3
        · exact Nat.le_succ_of_le (hC n hn3 k' hk')
        · rcases List.mem_singleton.1 hn3 with rfl
          cases hk'
          exact Nat.le_refl _
      · show List.Pairwise (fun a b => a.nid ≠ b.nid) (st.curNodes ++
          [⟨NId.num (st.nodeId + 1), lbl, "rectangle", Option.some "#e085dd"⟩])
        refine List.pairwise_append.2 ⟨hD, by simp, ?_⟩
        intro a ha b hb
        rcases List.mem_singleton.1 hb with rfl
        intro hcontra
        have hk := hC a ha (st.nodeId + 1) hcontra
        omega
      · intro e' he' k' hk'
        rcases List.mem_append.1 he' with hm | hm
        · exact Nat.le_succ_of_le (hE e' hm k' hk')
        · rcases List.mem_singleton.1 hm with rfl
          injection hk' with hkk
          show k' ≤ st.nodeId + 1
          omega
      · intro q hq
        have := Option.some.inj hq
        show q ≤ st.nodeId + 1
        omega
      · intro hcontra
        cases hcontra

theorem cmid_of_cinv (st : CfgSt) (h : CInv st) (hfl : st.isDeadEdge = false) : CMid st :=
  ⟨h.1, (h.2.1.2 hfl).1, h.2.2.1, h.2.2.2.1, h.2.2.2.2.1, h.2.2.2.2.2.1, hfl⟩

theorem cinv_reparent (st : CfgSt) (q : Nat) (col : Option String)
    (h : CMid st) (hg : GoodId st q) :
    CInv { st with edgeColor := col, parentId := Option.some q } := by
  obtain ⟨hA, hcnt, hC, hD, hE, hP, hfl⟩ := h
  obtain ⟨hq, d, hd, hdn, hdr⟩ := hg
  exact cinv_parent _ q rfl
    ⟨hA, hcnt, hC, hD, hE, fun p hp => by cases hp; exact hq, hfl⟩
    ⟨hq, d, hd, hdn, hdr⟩

theorem cinv_reparent1 (st : CfgSt) (q : Nat) (h : CMid st) (hg : GoodId st q) :
    CInv { st with parentId := Option.some q } := by
  obtain ⟨hA, hcnt, hC, hD, hE, hP, hfl⟩ := h
  obtain ⟨hq, d, hd, hdn, hdr⟩ := hg
  exact cinv_parent _ q rfl
    ⟨hA, hcnt, hC, hD, hE, fun p hp => by cases hp; exact hq, hfl⟩
    ⟨hq, d, hd, hdn, hdr⟩

theorem cinv_recolor (st : CfgSt) (col : Option String) (h : CInv st) :
    CInv { st with edgeColor := col } := by
  obtain ⟨hA, hB, hC, hD, hE, hP, hpn⟩ := h
  exact ⟨hA, hB, hC, hD, hE, hP, hpn⟩

theorem stepB_refl (st : CfgSt) : StepB st st := stepB_of_eq rfl rfl rfl

/-- Fresh-node insertion also preserves the mid-state invariant. -/
theorem cmid_bumpAdd (st : CfgSt) (lbl shp : String) (fc : Option String)
    (hfc : fc ≠ Option.some "#e085dd") (h : CMid st) :
    CMid (cfgAddNode { st with nodeId := st.nodeId + 1 }
      (NId.num (st.nodeId + 1)) lbl shp fc) := by
  obtain ⟨hA, hcnt, hC, hD, hE, hP, hfl⟩ := h
  have hretn : isRetN ⟨NId.num (st.nodeId + 1), lbl, shp, fc⟩ = false := by
    simp [isRetN, hfc]
  refine ⟨?_, ?_, ?_, ?_, ?_, ?_, hfl⟩
  · intro e he
    show deadStyled e = true ↔
      retSrc (st.curNodes ++ [⟨NId.num (st.nodeId + 1), lbl, shp, fc⟩]) e
    rw [retSrc_append_notRet _ _ hretn]
    exact hA e he
  · intro m hm hmr
    rcases List.mem_append.1 hm with hm | hm
    · exact hcnt m hm hmr
    · rcases List.mem_singleton.1 hm with rfl
      rw [hretn] at hmr
      cases hmr
  · intro n hn k hk
    rcases List.mem_append.1 hn with hn | hn
    · exact Nat.le_succ_of_le (hC n hn k hk)
    · rcases List.mem_singleton.1 hn with rfl
      cases hk
      exact Nat.le_refl _
  · show List.Pairwise (fun a b => a.nid ≠ b.nid)
      (st.curNodes ++ [⟨NId.num (st.nodeId + 1), lbl, shp, fc⟩])
    refine List.pairwise_append.2 ⟨hD, by simp, ?_⟩
    intro a ha b hb
    rcases List.mem_singleton.1 hb with rfl
    intro hcontra
    have hk := hC a ha (st.nodeId + 1) hcontra
    omega
  · intro e he k hk
    exact Nat.le_succ_of_le (hE e he k hk)
  · intro p hp
    exact Nat.le_succ_of_le (hP p hp)

theorem goodId_bumpAdd (st : CfgSt) (lbl shp : String) (fc : Option String)
    (hfc : fc ≠ Option.some "#e085dd") :
    GoodId (cfgAddNode { st with nodeId := st.nodeId + 1 }
      (NId.num (st.nodeId + 1)) lbl shp fc) (st.nodeId + 1) :=
  ⟨Nat.le_refl _, ⟨NId.num (st.nodeId + 1), lbl, shp, fc⟩,
    List.mem_append_right _ (List.mem_singleton_self _), rfl, by simp [isRetN, hfc]⟩

/-- The node-then-edge prefix shared by most visitors. -/
theorem step_nodeEdge (st : CfgSt) (c : Nat) (lbl shp : String) (fc : Option String)
    (hs : shp ≠ "plaintext") (hfc : fc ≠ Option.some "#e085dd") :
    StepB st (cfgAddEdge (cfgAddNode { st with nodeId := st.nodeId + 1 }
      (NId.num (st.nodeId + 1)) lbl shp fc) c)
    ∧ (CInv st → CMid (cfgAddEdge (cfgAddNode { st with nodeId := st.nodeId + 1 }
      (NId.num (st.nodeId + 1)) lbl shp fc) c)) := by
  constructor
  · exact (stepB_addNode st lbl shp fc hs).comp (stepB_addEdge _ c)
  · intro h
    exact cinv_addEdge _ c (cinv_bumpAdd st lbl shp fc hfc h)

theorem goodId_nodeEdge (st : CfgSt) (c : Nat) (lbl shp : String) (fc : Option String)
    (hfc : fc ≠ Option.some "#e085dd") :
    GoodId (cfgAddEdge (cfgAddNode { st with nodeId := st.nodeId + 1 }
      (NId.num (st.nodeId + 1)) lbl shp fc) c) (st.nodeId + 1) :=
  goodId_mono (stepB_addEdge _ c) (goodId_bumpAdd st lbl shp fc hfc)

/-- The whole statement pattern: fresh node, edge from the parent, parent
moved onto the new node. -/
theorem step_stmtFull (st : CfgSt) (lbl shp : String) (col : Option String)
    (hs : shp ≠ "plaintext") :
    StepB st ({ cfgAddEdge (cfgAddNode { st with nodeId := st.nodeId + 1 }
        (NId.num (st.nodeId + 1)) lbl shp Option.none) (st.nodeId + 1)
      with edgeColor := col, parentId := Option.some (st.nodeId + 1) })
    ∧ (CInv st → CInv ({ cfgAddEdge (cfgAddNode { st with nodeId := st.nodeId + 1 }
        (NId.num (st.nodeId + 1)) lbl shp Option.none) (st.nodeId + 1)
      with edgeColor := col, parentId := Option.some (st.nodeId + 1) })) := by
  have hne := step_nodeEdge st (st.nodeId + 1) lbl shp Option.none hs (by simp)
  constructor
  · exact hne.1.comp (stepB_of_eq rfl rfl rfl)
  · intro h
    exact cinv_reparent _ (st.nodeId + 1) col (hne.2 h)
      (goodId_nodeEdge st (st.nodeId + 1) lbl shp Option.none (by simp))

mutual
/-- Every CFG instruction visitor only appends fresh non-plaintext nodes,
never touches the per-function graph map, and preserves the invariant. -/
theorem cfgInstr_step : ∀ (i : Instr) (st : CfgSt),
    StepB st (cfgInstr st i) ∧ (CInv st → CInv (cfgInstr st i))
  | Instr.varDefn b e, st => by
      exact step_stmtFull st (b.name ++ ": " ++ typeCodeRaw b.ty ++ " = " ++ cfgExprCode e)
        "oval" Option.none (by decide)
  | Instr.retI oe, st => by
      refine ⟨?_, ?_⟩
      · exact ((stepB_addNode st (match oe with
            | OExpr.some e => "return " ++ cfgExprCode e
            | OExpr.none => "return") "rectangle" (Option.some "#e085dd") (by decide)).comp
          (stepB_addEdge _ (st.nodeId + 1))).comp (stepB_of_eq rfl rfl rfl)
      · intro h
        exact cinv_ret st (match oe with
          | OExpr.some e => "return " ++ cfgExprCode e
          | OExpr.none => "return") h
  | Instr.writeI es, st => by
      exact step_stmtFull st ("write(" ++ joinComma (cfgExprCodeList es) ++ ")")
        "rectangle" Option.none (by decide)
  | Instr.attrib x idx e, st => by
      exact step_stmtFull st (match idx with
        | OExpr.none => x ++ " = " ++ cfgExprCode e
        | OExpr.some i => x ++ "[" ++ cfgExprCode i ++ "] = " ++ cfgExprCode e ++ ";")
        "rectangle" Option.none (by decide)
  | Instr.callI f args, st => ⟨stepB_refl st, fun h => h⟩
  | Instr.ifF c body Elifs.nil ElseB.noneE, st => by
      let st1 := cfgAddNode { st with nodeId := st.nodeId + 1 } (NId.num (st.nodeId + 1))
        ("if(" ++ cfgExprCode c ++ ")") "diamond" Option.none
      let st2 : CfgSt := cfgAddEdge st1 (st.nodeId + 1)
      let inn : CfgSt := { st2 with
          parentId := Option.some (st.nodeId + 1)
          edgeColor := Option.some "green" }
      let st3 := cfgInstrs inn body
      let st4 := cfgAddNode { st3 with nodeId := st3.nodeId + 1 } (NId.num (st3.nodeId + 1))
        "&lt;end if&gt;" "diamond" (Option.some "gray")
      let st5 : CfgSt := cfgAddEdge st4 (st3.nodeId + 1)
      let rp5 : CfgSt := { st5 with
          edgeColor := Option.some "red"
          parentId := Option.some (st.nodeId + 1) }
      let st6 : CfgSt := cfgAddEdge rp5 (st3.nodeId + 1)
      have hne := step_nodeEdge st (st.nodeId + 1) ("if(" ++ cfgExprCode c ++ ")") "diamond" Option.none
        (by decide) (by decide)
      have hbody := cfgInstrs_step body inn
      have sbi : StepB st2 inn := stepB_of_eq rfl rfl rfl
      have sb4 : StepB st3 st4 := stepB_addNode st3 "&lt;end if&gt;" "diamond" (Option.some "gray")
        (by decide)
      have sb5 : StepB st4 st5 := stepB_addEdge st4 (st3.nodeId + 1)
      have sbr : StepB st5 rp5 := stepB_of_eq rfl rfl rfl
      have sb6 : StepB rp5 st6 := stepB_addEdge rp5 (st3.nodeId + 1)
      have sbF : StepB st6 ({ st6 with
          edgeColor := Option.none
          parentId := Option.some (st3.nodeId + 1) }) := stepB_of_eq rfl rfl rfl
      refine ⟨((((hne.1.comp sbi).comp hbody.1).comp sb4).comp
        (((sb5.comp sbr).comp sb6).comp sbF)), ?_⟩
      intro h
      have m2 : CMid st2 := hne.2 h
      have g2 : GoodId st2 (st.nodeId + 1) := goodId_nodeEdge st (st.nodeId + 1) _ "diamond"
        Option.none (by decide)
      have hinn : CInv inn := cinv_reparent st2 (st.nodeId + 1) (Option.some "green") m2 g2
      have h3 : CInv st3 := hbody.2 hinn
      have h4 : CInv st4 := cinv_bumpAdd st3 "&lt;end if&gt;" "diamond" (Option.some "gray") (by decide) h3
      have m5 : CMid st5 := cinv_addEdge st4 (st3.nodeId + 1) h4
      have g5this : GoodId st5 (st.nodeId + 1) :=
        goodId_mono sb5 (goodId_mono sb4 (goodId_mono hbody.1 (goodId_mono sbi g2)))
      have hrp : CInv rp5 := cinv_reparent st5 (st.nodeId + 1) (Option.some "red") m5 g5this
      have m6 : CMid st6 := cinv_addEdge rp5 (st3.nodeId + 1) hrp
      have g6dum : GoodId st6 (st3.nodeId + 1) := goodId_mono sb6 (goodId_mono sbr
        (goodId_mono sb5 (goodId_bumpAdd st3 "&lt;end if&gt;" "diamond" (Option.some "gray")
          (by decide))))
      exact cinv_reparent st6 (st3.nodeId + 1) Option.none m6 g6dum
  | Instr.ifF c body Elifs.nil (ElseB.someE eb), st => by
      let st1 := cfgAddNode { st with nodeId := st.nodeId + 1 } (NId.num (st.nodeId + 1))
        ("if(" ++ cfgExprCode c ++ ")") "diamond" Option.none
      let st2 : CfgSt := cfgAddEdge st1 (st.nodeId + 1)
      let inn : CfgSt := { st2 with
          parentId := Option.some (st.nodeId + 1)
          edgeColor := Option.some "green" }
      let st3 := cfgInstrs inn body
      let st4 := cfgAddNode { st3 with nodeId := st3.nodeId + 1 } (NId.num (st3.nodeId + 1))
        "&lt;end if&gt;" "diamond" (Option.some "gray")
      let st5 : CfgSt := cfgAddEdge st4 (st3.nodeId + 1)
      let pr : CfgSt × Nat := cfgElifs st5 (st.nodeId + 1) (st3.nodeId + 1) Elifs.nil
      let st6 : CfgSt := cfgIfElse pr.1 pr.2 (st3.nodeId + 1) (ElseB.someE eb)
      have hne := step_nodeEdge st (st.nodeId + 1) ("if(" ++ cfgExprCode c ++ ")") "diamond"
        Option.none (by decide) (by decide)
      have hbody := cfgInstrs_step body inn
      have helifs := cfgElifs_step Elifs.nil st5 (st.nodeId + 1) (st3.nodeId + 1)
      have hifelse := cfgIfElse_step (ElseB.someE eb) pr.1 pr.2 (st3.nodeId + 1)
      have sbi : StepB st2 inn := stepB_of_eq rfl rfl rfl
      have sb4 : StepB st3 st4 := stepB_addNode st3 "&lt;end if&gt;" "diamond"
        (Option.some "gray") (by decide)
      have sb5 : StepB st4 st5 := stepB_addEdge st4 (st3.nodeId + 1)
      have sbF : StepB st6 ({ st6 with
          edgeColor := Option.none
          parentId := Option.some (st3.nodeId + 1) }) := stepB_of_eq rfl rfl rfl
      refine ⟨((((((hne.1.comp sbi).comp hbody.1).comp sb4).comp sb5).comp
        helifs.1).comp hifelse.1).comp sbF, ?_⟩
      intro h
      have m2 : CMid st2 := hne.2 h
      have g2 : GoodId st2 (st.nodeId + 1) := goodId_nodeEdge st (st.nodeId + 1) _ "diamond"
        Option.none (by decide)
      have hinn : CInv inn := cinv_reparent st2 (st.nodeId + 1) (Option.some "green") m2 g2
      have h3 : CInv st3 := hbody.2 hinn
      have h4 : CInv st4 := cinv_bumpAdd st3 "&lt;end if&gt;" "diamond" (Option.some "gray")
        (by decide) h3
      have m5 : CMid st5 := cinv_addEdge st4 (st3.nodeId + 1) h4
      have g5this : GoodId st5 (st.nodeId + 1) :=
        goodId_mono sb5 (goodId_mono sb4 (goodId_mono hbody.1 (goodId_mono sbi g2)))
      have g5dum : GoodId st5 (st3.nodeId + 1) := goodId_mono sb5
        (goodId_bumpAdd st3 "&lt;end if&gt;" "diamond" (Option.some "gray") (by decide))
      have hres := helifs.2 m5 g5this
      have m6 : CMid st6 := hifelse.2 hres.1 hres.2
      have g6dum : GoodId st6 (st3.nodeId + 1) := goodId_mono hifelse.1
        (goodId_mono helifs.1 g5dum)
      exact cinv_reparent st6 (st3.nodeId + 1) Option.none m6 g6dum
  | Instr.ifF c body (Elifs.cons ec bb rest) els, st => by
      let st1 := cfgAddNode { st with nodeId := st.nodeId + 1 } (NId.num (st.nodeId + 1))
        ("if(" ++ cfgExprCode c ++ ")") "diamond" Option.none
      let st2 : CfgSt := cfgAddEdge st1 (st.nodeId + 1)
      let inn : CfgSt := { st2 with
          parentId := Option.some (st.nodeId + 1)
          edgeColor := Option.some "green" }
      let st3 := cfgInstrs inn body
      let st4 := cfgAddNode { st3 with nodeId := st3.nodeId + 1 } (NId.num (st3.nodeId + 1))
        "&lt;end if&gt;" "diamond" (Option.some "gray")
      let st5 : CfgSt := cfgAddEdge st4 (st3.nodeId + 1)
      let pr : CfgSt × Nat := cfgElifs st5 (st.nodeId + 1) (st3.nodeId + 1) (Elifs.cons ec bb rest)
      let st6 : CfgSt := cfgIfElse pr.1 pr.2 (st3.nodeId + 1) els
      have hne := step_nodeEdge st (st.nodeId + 1) ("if(" ++ cfgExprCode c ++ ")") "diamond"
        Option.none (by decide) (by decide)
      have hbody := cfgInstrs_step body inn
      have helifs := cfgElifs_step (Elifs.cons ec bb rest) st5 (st.nodeId + 1) (st3.nodeId + 1)
      have hifelse := cfgIfElse_step els pr.1 pr.2 (st3.nodeId + 1)
      have sbi : StepB st2 inn := stepB_of_eq rfl rfl rfl
      have sb4 : StepB st3 st4 := stepB_addNode st3 "&lt;end if&gt;" "diamond"
        (Option.some "gray") (by decide)
      have sb5 : StepB st4 st5 := stepB_addEdge st4 (st3.nodeId + 1)
      have sbF : StepB st6 ({ st6 with
          edgeColor := Option.none
          parentId := Option.some (st3.nodeId + 1) }) := stepB_of_eq rfl rfl rfl
      refine ⟨((((((hne.1.comp sbi).comp hbody.1).comp sb4).comp sb5).comp
        helifs.1).comp hifelse.1).comp sbF, ?_⟩
      intro h
      have m2 : CMid st2 := hne.2 h
      have g2 : GoodId st2 (st.nodeId + 1) := goodId_nodeEdge st (st.nodeId + 1) _ "diamond"
        Option.none (by decide)
      have hinn : CInv inn := cinv_reparent st2 (st.nodeId + 1) (Option.some "green") m2 g2
      have h3 : CInv st3 := hbody.2 hinn
      have h4 : CInv st4 := cinv_bumpAdd st3 "&lt;end if&gt;" "diamond" (Option.some "gray")
        (by decide) h3
      have m5 : CMid st5 := cinv_addEdge st4 (st3.nodeId + 1) h4
      have g5this : GoodId st5 (st.nodeId + 1) :=
        goodId_mono sb5 (goodId_mono sb4 (goodId_mono hbody.1 (goodId_mono sbi g2)))
      have g5dum : GoodId st5 (st3.nodeId + 1) := goodId_mono sb5
        (goodId_bumpAdd st3 "&lt;end if&gt;" "diamond" (Option.some "gray") (by decide))
      have hres := helifs.2 m5 g5this
      have m6 : CMid st6 := hifelse.2 hres.1 hres.2
      have g6dum : GoodId st6 (st3.nodeId + 1) := goodId_mono hifelse.1
        (goodId_mono helifs.1 g5dum)
      exact cinv_reparent st6 (st3.nodeId + 1) Option.none m6 g6dum
  | Instr.unlessF c body, st => by
      let st1 := cfgAddNode { st with nodeId := st.nodeId + 1 } (NId.num (st.nodeId + 1))
        ("unless(" ++ cfgExprCode c ++ ")") "diamond" Option.none
      let st2 : CfgSt := cfgAddEdge st1 (st.nodeId + 1)
      let inn : CfgSt := { st2 with
          parentId := Option.some (st.nodeId + 1)
          edgeColor := Option.some "red" }
      let st3 := cfgInstrs inn body
      let st4 := cfgAddNode { st3 with nodeId := st3.nodeId + 1 } (NId.num (st3.nodeId + 1))
        "&lt;end unless&gt;" "diamond" (Option.some "gray")
      let st5 : CfgSt := cfgAddEdge st4 (st3.nodeId + 1)
      let rp5 : CfgSt := { st5 with
          edgeColor := Option.some "green"
          parentId := Option.some (st.nodeId + 1) }
      let st6 : CfgSt := cfgAddEdge rp5 (st3.nodeId + 1)
      have hne := step_nodeEdge st (st.nodeId + 1) ("unless(" ++ cfgExprCode c ++ ")") "diamond" Option.none
        (by decide) (by decide)
      have hbody := cfgInstrs_step body inn
      have sbi : StepB st2 inn := stepB_of_eq rfl rfl rfl
      have sb4 : StepB st3 st4 := stepB_addNode st3 "&lt;end unless&gt;" "diamond" (Option.some "gray")
        (by decide)
      have sb5 : StepB st4 st5 := stepB_addEdge st4 (st3.nodeId + 1)
      have sbr : StepB st5 rp5 := stepB_of_eq rfl rfl rfl
      have sb6 : StepB rp5 st6 := stepB_addEdge rp5 (st3.nodeId + 1)
      have sbF : StepB st6 ({ st6 with
          edgeColor := Option.none
          parentId := Option.some (st3.nodeId + 1) }) := stepB_of_eq rfl rfl rfl
      refine ⟨((((hne.1.comp sbi).comp hbody.1).comp sb4).comp
        (((sb5.comp sbr).comp sb6).comp sbF)), ?_⟩
      intro h
      have m2 : CMid st2 := hne.2 h
      have g2 : GoodId st2 (st.nodeId + 1) := goodId_nodeEdge st (st.nodeId + 1) _ "diamond"
        Option.none (by decide)
      have hinn : CInv inn := cinv_reparent st2 (st.nodeId + 1) (Option.some "red") m2 g2
      have h3 : CInv st3 := hbody.2 hinn
      have h4 : CInv st4 := cinv_bumpAdd st3 "&lt;end unless&gt;" "diamond" (Option.some "gray") (by decide) h3
      have m5 : CMid st5 := cinv_addEdge st4 (st3.nodeId + 1) h4
      have g5this : GoodId st5 (st.nodeId + 1) :=
        goodId_mono sb5 (goodId_mono sb4 (goodId_mono hbody.1 (goodId_mono sbi g2)))
      have hrp : CInv rp5 := cinv_reparent st5 (st.nodeId + 1) (Option.some "green") m5 g5this
      have m6 : CMid st6 := cinv_addEdge rp5 (st3.nodeId + 1) hrp
      have g6dum : GoodId st6 (st3.nodeId + 1) := goodId_mono sb6 (goodId_mono sbr
        (goodId_mono sb5 (goodId_bumpAdd st3 "&lt;end unless&gt;" "diamond" (Option.some "gray")
          (by decide))))
      exact cinv_reparent st6 (st3.nodeId + 1) Option.none m6 g6dum
  | Instr.caseF scrut arms dflt, st => by
      let st1 := cfgAddNode { st with nodeId := st.nodeId + 1 } (NId.num (st.nodeId + 1))
        ("case(" ++ cfgExprCode scrut ++ ")") "diamond" Option.none
      let st2 : CfgSt := cfgAddEdge st1 (st.nodeId + 1)
      let st3 : CfgSt := { st2 with
          parentId := Option.some (st.nodeId + 1)
          edgeColor := Option.none }
      let st4 := cfgAddNode { st3 with nodeId := st3.nodeId + 1 } (NId.num (st3.nodeId + 1))
        "&lt;end case&gt;" "diamond" (Option.some "gray")
      let st5 : CfgSt := cfgCaseArms st4 (st.nodeId + 1) arms (st3.nodeId + 1)
      let s : CfgSt := { st5 with parentId := Option.some (st.nodeId + 1) }
      let sa := cfgAddNode { s with nodeId := s.nodeId + 1 } (NId.num (s.nodeId + 1))
        "default" "diamond" Option.none
      let sb : CfgSt := cfgAddEdge sa (s.nodeId + 1)
      let sc : CfgSt := { sb with parentId := Option.some (s.nodeId + 1) }
      let s1 := cfgInstrs sc dflt
      let st6 : CfgSt := cfgAddEdge s1 (st3.nodeId + 1)
      have hne := step_nodeEdge st (st.nodeId + 1) ("case(" ++ cfgExprCode scrut ++ ")")
        "diamond" Option.none (by decide) (by decide)
      have harms := cfgCaseArms_step arms st4 (st.nodeId + 1) (st3.nodeId + 1)
      have hne2 := step_nodeEdge s (s.nodeId + 1) "default" "diamond" Option.none
        (by decide) (by decide)
      have hdflt := cfgInstrs_step dflt sc
      have sb3 : StepB st2 st3 := stepB_of_eq rfl rfl rfl
      have sb4 : StepB st3 st4 := stepB_addNode st3 "&lt;end case&gt;" "diamond"
        (Option.some "gray") (by decide)
      have sbs : StepB st5 s := stepB_of_eq rfl rfl rfl
      have sbsc : StepB sb sc := stepB_of_eq rfl rfl rfl
      have sb6 : StepB s1 st6 := stepB_addEdge s1 (st3.nodeId + 1)
      have sbF : StepB st6 ({ st6 with parentId := Option.some (st3.nodeId + 1) }) :=
        stepB_of_eq rfl rfl rfl
      refine ⟨(((((hne.1.comp sb3).comp sb4).comp harms.1).comp
        (((sbs.comp hne2.1).comp sbsc).comp hdflt.1)).comp (sb6.comp sbF)), ?_⟩
      intro h
      have m2 : CMid st2 := hne.2 h
      have g2 : GoodId st2 (st.nodeId + 1) := goodId_nodeEdge st (st.nodeId + 1) _ "diamond"
        Option.none (by decide)
      have h3 : CInv st3 := cinv_reparent st2 (st.nodeId + 1) Option.none m2 g2
      have h4 : CInv st4 := cinv_bumpAdd st3 "&lt;end case&gt;" "diamond" (Option.some "gray")
        (by decide) h3
      have hfl4 : st4.isDeadEdge = false := m2.2.2.2.2.2.2
      have m4 : CMid st4 := cmid_of_cinv st4 h4 hfl4
      have g4this : GoodId st4 (st.nodeId + 1) := goodId_mono sb4 (goodId_mono sb3 g2)
      have m5 : CMid st5 := harms.2 m4 g4this
      have hs : CInv s := cinv_reparent1 st5 (st.nodeId + 1) m5
        (goodId_mono harms.1 g4this)
      have msb : CMid sb := hne2.2 hs
      have hsc : CInv sc := cinv_reparent1 sb (s.nodeId + 1) msb
        (goodId_nodeEdge s (s.nodeId + 1) _ "diamond" Option.none (by decide))
      have h1 : CInv s1 := hdflt.2 hsc
      have m6 : CMid st6 := cinv_addEdge s1 (st3.nodeId + 1) h1
      have g6dum : GoodId st6 (st3.nodeId + 1) := goodId_mono sb6 (goodId_mono hdflt.1
        (goodId_mono sbsc (goodId_mono hne2.1 (goodId_mono sbs (goodId_mono harms.1
          (goodId_bumpAdd st3 "&lt;end case&gt;" "diamond" (Option.some "gray")
            (by decide)))))))
      exact cinv_reparent1 st6 (st3.nodeId + 1) m6 g6dum
  | Instr.whileF c body, st => by
      let st1 := cfgAddNode { st with nodeId := st.nodeId + 1 } (NId.num (st.nodeId + 1))
        ("while(" ++ cfgExprCode c ++ ")") "diamond" Option.none
      let st2 : CfgSt := cfgAddEdge st1 (st.nodeId + 1)
      let inn : CfgSt := { st2 with
          parentId := Option.some (st.nodeId + 1)
          edgeColor := Option.some "green" }
      let st3 := cfgInstrs inn body
      let st4 : CfgSt := cfgAddEdge st3 (st.nodeId + 1)
      let st5 := cfgAddNode { st4 with nodeId := st4.nodeId + 1 } (NId.num (st4.nodeId + 1))
        "&lt;end while&gt;" "diamond" (Option.some "gray")
      let rp5 : CfgSt := { st5 with
          parentId := Option.some (st.nodeId + 1)
          edgeColor := Option.some "red" }
      let st6 : CfgSt := cfgAddEdge rp5 (st4.nodeId + 1)
      have hne := step_nodeEdge st (st.nodeId + 1) ("while(" ++ cfgExprCode c ++ ")") "diamond" Option.none
        (by decide) (by decide)
      have hbody := cfgInstrs_step body inn
      have sbi : StepB st2 inn := stepB_of_eq rfl rfl rfl
      have sb4 : StepB st3 st4 := stepB_addEdge st3 (st.nodeId + 1)
      have sb5 : StepB st4 st5 := stepB_addNode st4 "&lt;end while&gt;" "diamond" (Option.some "gray")
        (by decide)
      have sbr : StepB st5 rp5 := stepB_of_eq rfl rfl rfl
      have sb6 : StepB rp5 st6 := stepB_addEdge rp5 (st4.nodeId + 1)
      have sbF : StepB st6 ({ st6 with
          edgeColor := Option.none
          parentId := Option.some (st4.nodeId + 1) }) := stepB_of_eq rfl rfl rfl
      refine ⟨((((hne.1.comp sbi).comp hbody.1).comp sb4).comp
        (((sb5.comp sbr).comp sb6).comp sbF)), ?_⟩
      intro h
      have m2 : CMid st2 := hne.2 h
      have g2 : GoodId st2 (st.nodeId + 1) := goodId_nodeEdge st (st.nodeId + 1) _ "diamond"
        Option.none (by decide)
      have hinn : CInv inn := cinv_reparent st2 (st.nodeId + 1) (Option.some "green") m2 g2
      have h3 : CInv st3 := hbody.2 hinn
      have m4 : CMid st4 := cinv_addEdge st3 (st.nodeId + 1) h3
      have m5 : CMid st5 := cmid_bumpAdd st4 "&lt;end while&gt;" "diamond" (Option.some "gray")
        (by decide) m4
      have g5this : GoodId st5 (st.nodeId + 1) :=
        goodId_mono sb5 (goodId_mono sb4 (goodId_mono hbody.1 (goodId_mono sbi g2)))
      have hrp : CInv rp5 := cinv_reparent st5 (st.nodeId + 1) (Option.some "red") m5 g5this
      have m6 : CMid st6 := cinv_addEdge rp5 (st4.nodeId + 1) hrp
      have g6dum : GoodId st6 (st4.nodeId + 1) := goodId_mono sb6 (goodId_mono sbr
        (goodId_bumpAdd st4 "&lt;end while&gt;" "diamond" (Option.some "gray") (by decide)))
      exact cinv_reparent st6 (st4.nodeId + 1) Option.none m6 g6dum
  | Instr.doWhileF body c, st => by
      let st1 := cfgAddNode { st with nodeId := st.nodeId + 1 } (NId.num (st.nodeId + 1))
        "&lt;begin do-while&gt;" "diamond" (Option.some "gray")
      let st2 : CfgSt := cfgAddEdge st1 (st.nodeId + 1)
      let inn : CfgSt := { st2 with parentId := Option.some (st.nodeId + 1) }
      let st3 := cfgInstrs inn body
      let st4 := cfgAddNode { st3 with nodeId := st3.nodeId + 1 } (NId.num (st3.nodeId + 1))
        ("while(" ++ cfgExprCode c ++ ")") "diamond" Option.none
      let st5 : CfgSt := cfgAddEdge st4 (st3.nodeId + 1)
      let rp5 : CfgSt := { st5 with
          parentId := Option.some (st3.nodeId + 1)
          edgeColor := Option.some "green" }
      let st6 : CfgSt := cfgAddEdge rp5 (st.nodeId + 1)
      have hne := step_nodeEdge st (st.nodeId + 1) "&lt;begin do-while&gt;" "diamond"
        (Option.some "gray") (by decide) (by decide)
      have hbody := cfgInstrs_step body inn
      have sbi : StepB st2 inn := stepB_of_eq rfl rfl rfl
      have sb4 : StepB st3 st4 := stepB_addNode st3 ("while(" ++ cfgExprCode c ++ ")")
        "diamond" Option.none (by decide)
      have sb5 : StepB st4 st5 := stepB_addEdge st4 (st3.nodeId + 1)
      have sbr : StepB st5 rp5 := stepB_of_eq rfl rfl rfl
      have sb6 : StepB rp5 st6 := stepB_addEdge rp5 (st.nodeId + 1)
      have sbF : StepB st6 ({ st6 with edgeColor := Option.some "red" }) :=
        stepB_of_eq rfl rfl rfl
      refine ⟨(((hne.1.comp sbi).comp hbody.1).comp
        ((((sb4.comp sb5).comp sbr).comp sb6).comp sbF)), ?_⟩
      intro h
      have m2 : CMid st2 := hne.2 h
      have g2 : GoodId st2 (st.nodeId + 1) := goodId_nodeEdge st (st.nodeId + 1) _ "diamond"
        (Option.some "gray") (by decide)
      have hinn : CInv inn := cinv_reparent1 st2 (st.nodeId + 1) m2 g2
      have h3 : CInv st3 := hbody.2 hinn
      have h4 : CInv st4 := cinv_bumpAdd st3 ("while(" ++ cfgExprCode c ++ ")") "diamond"
        Option.none (by decide) h3
      have m5 : CMid st5 := cinv_addEdge st4 (st3.nodeId + 1) h4
      have gthis5 : GoodId st5 (st3.nodeId + 1) := goodId_mono sb5
        (goodId_bumpAdd st3 ("while(" ++ cfgExprCode c ++ ")") "diamond" Option.none
          (by decide))
      have hrp : CInv rp5 := cinv_reparent st5 (st3.nodeId + 1) (Option.some "green") m5 gthis5
      have m6 : CMid st6 := cinv_addEdge rp5 (st.nodeId + 1) hrp
      have hp6 : st6.parentId = Option.some (st3.nodeId + 1) :=
        addEdge_parentId rp5 (st.nodeId + 1)
      have gthis6 : GoodId st6 (st3.nodeId + 1) := goodId_mono sb6 (goodId_mono sbr gthis5)
      have hpF : ({ st6 with edgeColor := Option.some "red" } : CfgSt).parentId =
        Option.some (st3.nodeId + 1) := hp6
      have cmF : CMid ({ st6 with edgeColor := Option.some "red" }) := by
        obtain ⟨a1, b1, c1, d1, e1, f1, g1⟩ := m6
        exact ⟨a1, b1, c1, d1, e1, f1, g1⟩
      have gF : GoodId ({ st6 with edgeColor := Option.some "red" }) (st3.nodeId + 1) :=
        goodId_mono sbF gthis6
      exact cinv_parent ({ st6 with edgeColor := Option.some "red" }) (st3.nodeId + 1)
        hpF cmF gF
  | Instr.forF x e body, st => by
      let st1 := cfgAddNode { st with nodeId := st.nodeId + 1 } (NId.num (st.nodeId + 1))
        ("for(" ++ x ++ " in " ++ cfgExprCode e ++ ")") "diamond" Option.none
      let st2 : CfgSt := cfgAddEdge st1 (st.nodeId + 1)
      let inn : CfgSt := { st2 with
          parentId := Option.some (st.nodeId + 1)
          edgeColor := Option.some "green" }
      let st3 := cfgInstrs inn body
      let st4 : CfgSt := cfgAddEdge st3 (st.nodeId + 1)
      let st5 := cfgAddNode { st4 with nodeId := st4.nodeId + 1 } (NId.num (st4.nodeId + 1))
        "&lt;end for&gt;" "diamond" (Option.some "gray")
      let rp5 : CfgSt := { st5 with
          parentId := Option.some (st.nodeId + 1)
          edgeColor := Option.some "red" }
      let st6 : CfgSt := cfgAddEdge rp5 (st4.nodeId + 1)
      have hne := step_nodeEdge st (st.nodeId + 1) ("for(" ++ x ++ " in " ++ cfgExprCode e ++ ")") "diamond" Option.none
        (by decide) (by decide)
      have hbody := cfgInstrs_step body inn
      have sbi : StepB st2 inn := stepB_of_eq rfl rfl rfl
      have sb4 : StepB st3 st4 := stepB_addEdge st3 (st.nodeId + 1)
      have sb5 : StepB st4 st5 := stepB_addNode st4 "&lt;end for&gt;" "diamond" (Option.some "gray")
        (by decide)
      have sbr : StepB st5 rp5 := stepB_of_eq rfl rfl rfl
      have sb6 : StepB rp5 st6 := stepB_addEdge rp5 (st4.nodeId + 1)
      have sbF : StepB st6 ({ st6 with
          edgeColor := Option.none
          parentId := Option.some (st4.nodeId + 1) }) := stepB_of_eq rfl rfl rfl
      refine ⟨((((hne.1.comp sbi).comp hbody.1).comp sb4).comp
        (((sb5.comp sbr).comp sb6).comp sbF)), ?_⟩
      intro h
      have m2 : CMid st2 := hne.2 h
      have g2 : GoodId st2 (st.nodeId + 1) := goodId_nodeEdge st (st.nodeId + 1) _ "diamond"
        Option.none (by decide)
      have hinn : CInv inn := cinv_reparent st2 (st.nodeId + 1) (Option.some "green") m2 g2
      have h3 : CInv st3 := hbody.2 hinn
      have m4 : CMid st4 := cinv_addEdge st3 (st.nodeId + 1) h3
      have m5 : CMid st5 := cmid_bumpAdd st4 "&lt;end for&gt;" "diamond" (Option.some "gray")
        (by decide) m4
      have g5this : GoodId st5 (st.nodeId + 1) :=
        goodId_mono sb5 (goodId_mono sb4 (goodId_mono hbody.1 (goodId_mono sbi g2)))
      have hrp : CInv rp5 := cinv_reparent st5 (st.nodeId + 1) (Option.some "red") m5 g5this
      have m6 : CMid st6 := cinv_addEdge rp5 (st4.nodeId + 1) hrp
      have g6dum : GoodId st6 (st4.nodeId + 1) := goodId_mono sb6 (goodId_mono sbr
        (goodId_bumpAdd st4 "&lt;end for&gt;" "diamond" (Option.some "gray") (by decide)))
      exact cinv_reparent st6 (st4.nodeId + 1) Option.none m6 g6dum
/-- Blocks fold the per-instruction step facts. -/
theorem cfgInstrs_step : ∀ (l : Instrs) (st : CfgSt),
    StepB st (cfgInstrs st l) ∧ (CInv st → CInv (cfgInstrs st l))
  | Instrs.nil, st => ⟨stepB_refl st, fun h => h⟩
  | Instrs.cons i is, st => by
      have h1 := cfgInstr_step i st
      have h2 := cfgInstrs_step is (cfgInstr st i)
      exact ⟨h1.1.comp h2.1, fun h => h2.2 (h1.2 h)⟩
/-- The `elif` arms keep the mid-state invariant and return a decision
node usable as a parent. -/
theorem cfgElifs_step : ∀ (l : Elifs) (st : CfgSt) (f d : Nat),
    StepB st (cfgElifs st f d l).1
    ∧ (CMid st → GoodId st f →
        CMid (cfgElifs st f d l).1 ∧ GoodId (cfgElifs st f d l).1 (cfgElifs st f d l).2)
  | Elifs.nil, st, f, d => ⟨stepB_refl st, fun hm hg => ⟨hm, hg⟩⟩
  | Elifs.cons ec eb rest, st, f, d => by
      let st1 : CfgSt := { st with
          edgeColor := Option.some "red"
          parentId := Option.some f }
      let st2 := cfgAddNode { st1 with nodeId := st1.nodeId + 1 } (NId.num (st1.nodeId + 1))
        ("elif(" ++ cfgExprCode ec ++ ")") "diamond" Option.none
      let st3 : CfgSt := cfgAddEdge st2 (st1.nodeId + 1)
      let inn : CfgSt := { st3 with
          parentId := Option.some (st1.nodeId + 1)
          edgeColor := Option.some "green" }
      let st4 := cfgInstrs inn eb
      let st5 : CfgSt := cfgAddEdge st4 d
      have hne := step_nodeEdge st1 (st1.nodeId + 1) ("elif(" ++ cfgExprCode ec ++ ")")
        "diamond" Option.none (by decide) (by decide)
      have hbody := cfgInstrs_step eb inn
      have hrec := cfgElifs_step rest st5 (st1.nodeId + 1) d
      have sb1 : StepB st st1 := stepB_of_eq rfl rfl rfl
      have sbi : StepB st3 inn := stepB_of_eq rfl rfl rfl
      have sb5 : StepB st4 st5 := stepB_addEdge st4 d
      refine ⟨((((sb1.comp hne.1).comp sbi).comp hbody.1).comp sb5).comp hrec.1, ?_⟩
      intro hm hg
      have h1 : CInv st1 := cinv_reparent st f (Option.some "red") hm hg
      have m3 : CMid st3 := hne.2 h1
      have g3 : GoodId st3 (st1.nodeId + 1) := goodId_nodeEdge st1 (st1.nodeId + 1) _
        "diamond" Option.none (by decide)
      have hinn : CInv inn := cinv_reparent st3 (st1.nodeId + 1) (Option.some "green") m3 g3
      have h4 : CInv st4 := hbody.2 hinn
      have m5 : CMid st5 := cinv_addEdge st4 d h4
      have g5 : GoodId st5 (st1.nodeId + 1) :=
        goodId_mono sb5 (goodId_mono hbody.1 (goodId_mono sbi g3))
      exact hrec.2 m5 g5
/-- The `else` arm likewise. -/
theorem cfgIfElse_step : ∀ (e : ElseB) (st : CfgSt) (f d : Nat),
    StepB st (cfgIfElse st f d e)
    ∧ (CMid st → GoodId st f → CMid (cfgIfElse st f d e))
  | ElseB.noneE, st, f, d => ⟨stepB_refl st, fun hm _ => hm⟩
  | ElseB.someE body, st, f, d => by
      let st1 : CfgSt := { st with
          edgeColor := Option.some "red"
          parentId := Option.some f }
      let st2 := cfgElseBody st1 body
      have hbody := cfgElseBody_step body st1
      have sb1 : StepB st st1 := stepB_of_eq rfl rfl rfl
      refine ⟨(sb1.comp hbody.1).comp (stepB_addEdge st2 d), ?_⟩
      intro hm hg
      exact cinv_addEdge st2 d (hbody.2 (cinv_reparent st f (Option.some "red") hm hg))
/-- `else_flow` resets the color between the children. -/
theorem cfgElseBody_step : ∀ (l : Instrs) (st : CfgSt),
    StepB st (cfgElseBody st l) ∧ (CInv st → CInv (cfgElseBody st l))
  | Instrs.nil, st => ⟨stepB_refl st, fun h => h⟩
  | Instrs.cons i is, st => by
      have h1 := cfgInstr_step i st
      have h2 := cfgElseBody_step is ({ cfgInstr st i with edgeColor := Option.none })
      have hmid : StepB (cfgInstr st i) ({ cfgInstr st i with edgeColor := Option.none }) :=
        stepB_of_eq rfl rfl rfl
      refine ⟨(h1.1.comp hmid).comp h2.1, ?_⟩
      intro h
      exact h2.2 (cinv_recolor _ Option.none (h1.2 h))
/-- The `of` arms keep the mid-state invariant. -/
theorem cfgCaseArms_step : ∀ (arms : Ofs) (st : CfgSt) (cid d : Nat),
    StepB st (cfgCaseArms st cid arms d)
    ∧ (CMid st → GoodId st cid → CMid (cfgCaseArms st cid arms d))
  | Ofs.nil, st, cid, d => ⟨stepB_refl st, fun hm _ => hm⟩
  | Ofs.cons l bd rest, st, cid, d => by
      let st1 : CfgSt := { st with parentId := Option.some cid }
      let st2 := cfgAddNode { st1 with nodeId := st1.nodeId + 1 } (NId.num (st1.nodeId + 1))
        ("of(" ++ caseLitCode l ++ ")") "diamond" Option.none
      let st3 : CfgSt := cfgAddEdge st2 (st1.nodeId + 1)
      let inn : CfgSt := { st3 with parentId := Option.some (st1.nodeId + 1) }
      let st4 := cfgInstrs inn bd
      let st5 : CfgSt := cfgAddEdge st4 d
      have hne := step_nodeEdge st1 (st1.nodeId + 1) ("of(" ++ caseLitCode l ++ ")")
        "diamond" Option.none (by decide) (by decide)
      have hbody := cfgInstrs_step bd inn
      have hrec := cfgCaseArms_step rest st5 cid d
      have sb1 : StepB st st1 := stepB_of_eq rfl rfl rfl
      have sbi : StepB st3 inn := stepB_of_eq rfl rfl rfl
      have sb5 : StepB st4 st5 := stepB_addEdge st4 d
      refine ⟨((((sb1.comp hne.1).comp sbi).comp hbody.1).comp sb5).comp hrec.1, ?_⟩
      intro hm hg
      have h1 : CInv st1 := cinv_reparent1 st cid hm hg
      have m3 : CMid st3 := hne.2 h1
      have g3 : GoodId st3 (st1.nodeId + 1) := goodId_nodeEdge st1 (st1.nodeId + 1) _
        "diamond" Option.none (by decide)
      have hinn : CInv inn := cinv_reparent1 st3 (st1.nodeId + 1) m3 g3
      have h4 : CInv st4 := hbody.2 hinn
      have m5 : CMid st5 := cinv_addEdge st4 d h4
      have g5 : GoodId st5 cid := goodId_mono sb5 (goodId_mono hbody.1
        (goodId_mono sbi (goodId_mono hne.1 (goodId_mono sb1 hg))))
      exact hrec.2 m5 g5
end

/-- The complexity annotation node `func_defn` appends (lines 107-113). -/
def annotNode (k : Int) : CNode :=
  ⟨NId.complex, "McCabe's complexity: " ++ toString k, "plaintext", Option.none⟩

/-- The annotation (plaintext) nodes of a node list. -/
def plainFilter (ns : List CNode) : List CNode :=
  ns.filter (fun n => decide (n.shape = "plaintext"))

/-- The non-annotation nodes of a node list. -/
def realNodes (ns : List CNode) : List CNode :=
  ns.filter (fun n => ! decide (n.shape = "plaintext"))

theorem filter_all_not : ∀ (ns : List CNode), (∀ n ∈ ns, n.shape ≠ "plaintext") →
    plainFilter ns = [] ∧ realNodes ns = ns
  | [], _ => ⟨rfl, rfl⟩
  | n :: ns, h => by
      have h1 : n.shape ≠ "plaintext" := h n (List.mem_cons_self n ns)
      have ih := filter_all_not ns (fun x hx => h x (List.mem_cons_of_mem _ hx))
      constructor
      · simp only [plainFilter, List.filter_cons] at ih ⊢
        rw [if_neg (fun hh => h1 (of_decide_eq_true hh))]
        exact ih.1
      · simp only [realNodes, List.filter_cons] at ih ⊢
        rw [if_pos (by rw [decide_eq_false h1]; rfl), ih.2]

theorem plainFilter_append (a b : List CNode) :
    plainFilter (a ++ b) = plainFilter a ++ plainFilter b := by
  simp [plainFilter, List.filter_append]

theorem realNodes_append (a b : List CNode) :
    realNodes (a ++ b) = realNodes a ++ realNodes b := by
  simp [realNodes, List.filter_append]

/-- The two C6 graph properties: dead styling marks exactly the edges
leaving return nodes, and each return has exactly one outgoing edge. -/
def DeadOk (g : Graph) : Prop :=
  (∀ e ∈ g.edges, deadStyled e = true ↔ retSrc g.nodes e)
  ∧ ∀ n ∈ g.nodes, isRetN n = true → outCount g.edges n.nid = 1

/-- The C5 graph property: a single annotation node holding
`E - N + 2` computed over the non-annotation nodes. -/
def GoodGraph (g : Graph) : Prop :=
  ∃ K : Int, plainFilter g.nodes = [annotNode K]
    ∧ K = (g.edges.length : Int) - ((realNodes g.nodes).length : Int) + 2

/-- A whole `func_defn` run: the flag stays down and the inserted graph
satisfies both graph properties. -/
theorem cfgFuncDefn_good (st : CfgSt) (fd : FuncDefn) (hfl : st.isDeadEdge = false) :
    (cfgFuncDefn st fd).isDeadEdge = false
    ∧ ∃ g : Graph, (cfgFuncDefn st fd).graphs = upsertGraph st.graphs fd.name g
        ∧ DeadOk g ∧ GoodGraph g := by
  let st0 : CfgSt := { st with
    curNodes := []
    curEdges := [] }
  let pcode : String := "(" ++ joinComma (fd.params.map
    (fun b => b.name ++ ": " ++ typeCodeRaw b.ty)) ++ ")"
  let tcode : String := match fd.retTy with
    | Option.some te => " -> " ++ typeCodeRaw te
    | Option.none => ""
  let sigN : CNode := ⟨NId.num (st0.nodeId + 1), fd.name ++ pcode ++ tcode,
    "oval", Option.some "#c8f771"⟩
  let st1 : CfgSt := cfgAddNode { st0 with
    nodeId := st0.nodeId + 1
    parentId := Option.some (st0.nodeId + 1) } (NId.num (st0.nodeId + 1))
    (fd.name ++ pcode ++ tcode) "oval" (Option.some "#c8f771")
  let st2 := cfgInstrs st1 fd.body
  let endN : CNode := ⟨NId.num (st2.nodeId + 1), "&lt;end fn&gt;", "diamond",
    Option.some "gray"⟩
  let st3 := cfgAddNode { st2 with nodeId := st2.nodeId + 1 } (NId.num (st2.nodeId + 1))
    "&lt;end fn&gt;" "diamond" (Option.some "gray")
  let st4 : CfgSt := cfgAddEdge st3 (st2.nodeId + 1)
  let K : Int := (st4.curEdges.length : Int) - (st4.curNodes.length : Int) + 2
  have h1 : CInv st1 := by
    refine ⟨?_, ⟨?_, ?_⟩, ?_, ?_, ?_, ?_, ?_⟩
    · intro e he
      exact absurd he (List.not_mem_nil e)
    · intro hcontra
      have hc2 : st.isDeadEdge = true := hcontra
      rw [hfl] at hc2
      cases hc2
    · intro _
      constructor
      · intro m hm hmr
        have hm2 : m ∈ [sigN] := hm
        rcases List.mem_singleton.1 hm2 with rfl
        have hr : isRetN sigN = false := rfl
        rw [hr] at hmr
        cases hmr
      · intro m hm hmr k hk
        have hm2 : m ∈ [sigN] := hm
        rcases List.mem_singleton.1 hm2 with rfl
        have hr : isRetN sigN = false := rfl
        rw [hr] at hmr
        cases hmr
    · intro n hn k hk
      have hn2 : n ∈ [sigN] := hn
      rcases List.mem_singleton.1 hn2 with rfl
      cases hk
      exact Nat.le_refl _
    · show List.Pairwise (fun a b => a.nid ≠ b.nid) ([] ++ [sigN])
      simp
    · intro e he k hk
      exact absurd he (List.not_mem_nil e)
    · intro p hp
      have hp2 : Option.some (st0.nodeId + 1) = Option.some p := hp
      cases hp2
      exact Nat.le_refl _
    · intro hcontra
      cases hcontra
  have hb := cfgInstrs_step fd.body st1
  have h2 : CInv st2 := hb.2 h1
  have h3 : CInv st3 := cinv_bumpAdd st2 "&lt;end fn&gt;" "diamond" (Option.some "gray")
    (by decide) h2
  have m4 : CMid st4 := cinv_addEdge st3 (st2.nodeId + 1) h3
  obtain ⟨hmono, hgraphs2, δ, hδ, hδprop⟩ := hb.1
  have hcn4 : st4.curNodes = (([] ++ [sigN]) ++ δ) ++ [endN] := by
    rw [addEdge_curNodes]
    show st2.curNodes ++ [endN] = (([] ++ [sigN]) ++ δ) ++ [endN]
    rw [hδ]
    rfl
  have hall : ∀ n ∈ st4.curNodes, n.shape ≠ "plaintext" := by
    intro n hn
    rw [hcn4] at hn
    rcases List.mem_append.1 hn with hn | hn
    · rcases List.mem_append.1 hn with hn | hn
      · have hn3 : n ∈ [sigN] := hn
        rcases List.mem_singleton.1 hn3 with rfl
        show ("oval" : String) ≠ "plaintext"
        decide
      · exact (hδprop n hn).1
    · rcases List.mem_singleton.1 hn with rfl
      show ("diamond" : String) ≠ "plaintext"
      decide
  refine ⟨m4.2.2.2.2.2.2, ⟨st4.curNodes ++ [annotNode K], st4.curEdges⟩, ?_, ⟨?_, ?_⟩, ?_⟩
  · show upsertGraph st4.graphs fd.name _ = upsertGraph st.graphs fd.name _
    have hg4 : st4.graphs = st.graphs := by
      rw [addEdge_graphs]
      show st2.graphs = st.graphs
      rw [hgraphs2]
      rfl
    rw [hg4]
    rfl
  · intro e he
    have base := m4.1 e he
    show deadStyled e = true ↔ retSrc (st4.curNodes ++ [annotNode K]) e
    rw [retSrc_append_notRet st4.curNodes (annotNode K) rfl]
    exact base
  · intro n hn hr
    rcases List.mem_append.1 hn with hn | hn
    · exact m4.2.1 n hn hr
    · rcases List.mem_singleton.1 hn with rfl
      cases hr
  · refine ⟨K, ?_, ?_⟩
    · show plainFilter (st4.curNodes ++ [annotNode K]) = [annotNode K]
      rw [plainFilter_append, (filter_all_not st4.curNodes hall).1]
      rfl
    · show K = (st4.curEdges.length : Int)
        - ((realNodes (st4.curNodes ++ [annotNode K])).length : Int) + 2
      rw [realNodes_append, (filter_all_not st4.curNodes hall).2,
        show realNodes [annotNode K] = [] from rfl, List.append_nil]

/-- Every graph in the map satisfies both graph properties. -/
def GInv (gs : List (String × Graph)) : Prop :=
  ∀ p ∈ gs, DeadOk p.2 ∧ GoodGraph p.2

theorem upsertGraph_mem : ∀ (gs : List (String × Graph)) (k : String) (g : Graph),
    ∀ p ∈ upsertGraph gs k g, p.2 = g ∨ p ∈ gs
  | [], k, g, p, hp => by
      rcases List.mem_singleton.1 hp with rfl
      exact Or.inl rfl
  | (k', g') :: rest, k, g, p, hp => by
      unfold upsertGraph at hp
      by_cases hk : k' = k
      · rw [if_pos hk] at hp
        rcases List.mem_cons.1 hp with rfl | hp
        · exact Or.inl rfl
        · exact Or.inr (List.mem_cons_of_mem _ hp)
      · rw [if_neg hk] at hp
        rcases List.mem_cons.1 hp with rfl | hp
        · exact Or.inr (List.mem_cons_self _ _)
        · rcases upsertGraph_mem rest k g p hp with h | h
          · exact Or.inl h
          · exact Or.inr (List.mem_cons_of_mem _ h)

theorem cfgConstructs_ginv : ∀ (cs : List Construct) (st : CfgSt),
    st.isDeadEdge = false → GInv st.graphs →
    (cfgConstructs st cs).isDeadEdge = false ∧ GInv (cfgConstructs st cs).graphs
  | [], st, hfl, hg => ⟨hfl, hg⟩
  | Construct.varC x e :: cs, st, hfl, hg => cfgConstructs_ginv cs st hfl hg
  | Construct.fnC fd :: cs, st, hfl, hg => by
      obtain ⟨hfl2, g, hgr, hdo, hgg⟩ := cfgFuncDefn_good st fd hfl
      refine cfgConstructs_ginv cs (cfgFuncDefn st fd) hfl2 ?_
      intro p hp
      rw [hgr] at hp
      rcases upsertGraph_mem st.graphs fd.name g p hp with h | h
      · rw [h]
        exact ⟨hdo, hgg⟩
      · exact hg p h

/-- Every graph the CFG builder produces for a unit is well-formed. -/
theorem cfgUnit_good (cs : List Construct) : GInv (cfgUnit cs).graphs :=
  (cfgConstructs_ginv cs ⟨0, Option.none, Option.none, false, [], [], []⟩ rfl
    (fun p hp => absurd hp (List.not_mem_nil p))).2

/-- C5: in every produced CFG, the complexity recorded in the (single)
plaintext annotation node equals `E - N + 2`, with `N` excluding
annotation nodes. -/
theorem c5_complexity (cs : List Construct) (name : String) (g : Graph)
    (hg : (name, g) ∈ (cfgUnit cs).graphs) :
    ∃ K : Int, plainFilter g.nodes = [annotNode K]
      ∧ K = (g.edges.length : Int) - ((realNodes g.nodes).length : Int) + 2 :=
  (cfgUnit_good cs (name, g) hg).2

def c5wCs : List Construct := [Construct.fnC ⟨"f", [], Option.none, Instrs.nil⟩]

def c5wG : Graph := ⟨[⟨NId.num 1, "f()", "oval", Option.some "#c8f771"⟩,
  ⟨NId.num 2, "&lt;end fn&gt;", "diamond", Option.some "gray"⟩, annotNode 1],
  [⟨NId.num 1, NId.num 2, Option.none, Option.none, Option.none, Option.none⟩]⟩

theorem c5_complexity_witness :
    ("f", c5wG) ∈ (cfgUnit c5wCs).graphs
    ∧ ∃ K : Int, plainFilter c5wG.nodes = [annotNode K]
      ∧ K = (c5wG.edges.length : Int) - ((realNodes c5wG.nodes).length : Int) + 2 :=
  ⟨by decide, c5_complexity c5wCs "f" c5wG (by decide)⟩

/-- C6: in every produced CFG, dead styling (`dashed`/`gray`/`"dead code!"`)
marks exactly the edges leaving return nodes, each return node has exactly
one outgoing edge, and every `ret` visit appends a pink rectangle node. -/
theorem c6_dead_edges (cs : List Construct) (name : String) (g : Graph)
    (hg : (name, g) ∈ (cfgUnit cs).graphs) :
    ((∀ e ∈ g.edges, deadStyled e = true ↔ retSrc g.nodes e)
      ∧ ∀ n ∈ g.nodes, isRetN n = true → outCount g.edges n.nid = 1)
    ∧ ∀ (st : CfgSt) (oe : OExpr), ∃ lbl : String,
        (cfgInstr st (Instr.retI oe)).curNodes
          = st.curNodes ++ [⟨NId.num (st.nodeId + 1), lbl, "rectangle",
              Option.some "#e085dd"⟩] := by
  refine ⟨(cfgUnit_good cs (name, g) hg).1, ?_⟩
  intro stx oe
  refine ⟨(match oe with
    | OExpr.some e => "return " ++ cfgExprCode e
    | OExpr.none => "return"), ?_⟩
  show (cfgAddEdge (cfgAddNode { stx with nodeId := stx.nodeId + 1 }
      (NId.num (stx.nodeId + 1)) (match oe with
        | OExpr.some e => "return " ++ cfgExprCode e
        | OExpr.none => "return") "rectangle" (Option.some "#e085dd"))
      (stx.nodeId + 1)).curNodes
    = stx.curNodes ++ [⟨NId.num (stx.nodeId + 1), (match oe with
        | OExpr.some e => "return " ++ cfgExprCode e
        | OExpr.none => "return"), "rectangle", Option.some "#e085dd"⟩]
  rw [addEdge_curNodes]
  rfl

def c6wCs : List Construct := [Construct.fnC ⟨"g", [],
  Option.none, Instrs.cons (Instr.retI OExpr.none)
    (Instrs.cons (Instr.attrib "x" OExpr.none (Expr.lit (Lit.intL "1"))) Instrs.nil)⟩]

def c6wG : Graph := ⟨[
  ⟨NId.num 1, "g()", "oval", Option.some "#c8f771"⟩,
  ⟨NId.num 2, "return", "rectangle", Option.some "#e085dd"⟩,
  ⟨NId.num 3, "x = 1", "rectangle", Option.none⟩,
  ⟨NId.num 4, "&lt;end fn&gt;", "diamond", Option.some "gray"⟩,
  annotNode 1],
  [⟨NId.num 1, NId.num 2, Option.none, Option.none, Option.none, Option.none⟩,
   ⟨NId.num 2, NId.num 3, Option.some "gray", Option.some "dashed",
     Option.some "dead code!", Option.some "gray"⟩,
   ⟨NId.num 3, NId.num 4, Option.none, Option.none, Option.none, Option.none⟩]⟩

theorem c6_dead_edges_witness :
    ("g", c6wG) ∈ (cfgUnit c6wCs).graphs
    ∧ ((∀ e ∈ c6wG.edges, deadStyled e = true ↔ retSrc c6wG.nodes e)
        ∧ ∀ n ∈ c6wG.nodes, isRetN n = true → outCount c6wG.edges n.nid = 1)
    ∧ ∀ (st : CfgSt) (oe : OExpr), ∃ lbl : String,
        (cfgInstr st (Instr.retI oe)).curNodes
          = st.curNodes ++ [⟨NId.num (st.nodeId + 1), lbl, "rectangle",
              Option.some "#e085dd"⟩] :=
  ⟨by decide, c6_dead_edges c6wCs "g" c6wG (by decide)⟩

/-! ## C7 and C8: the SDG builder -/

mutual
/-- Code strings of `SDGraphInterpreter`'s expression visitors (graphs.py
lines 747-1014); unlike the CFG's, `func_call` (line 826) returns the real
call code. -/
def sdgExprCode : Expr → String
  | Expr.plus a b => sdgExprCode a ++ " + " ++ sdgExprCode b
  | Expr.minus a b => sdgExprCode a ++ " - " ++ sdgExprCode b
  | Expr.mul a b => sdgExprCode a ++ " * " ++ sdgExprCode b
  | Expr.div a b => sdgExprCode a ++ " / " ++ sdgExprCode b
  | Expr.mod a b => sdgExprCode a ++ " % " ++ sdgExprCode b
  | Expr.exp a b => sdgExprCode a ++ " ^ " ++ sdgExprCode b
  | Expr.prepend a b => sdgExprCode a ++ " ^: " ++ sdgExprCode b
  | Expr.append a b => sdgExprCode a ++ " $: " ++ sdgExprCode b
  | Expr.eq a b => sdgExprCode a ++ " == " ++ sdgExprCode b
  | Expr.neq a b => sdgExprCode a ++ " != " ++ sdgExprCode b
  | Expr.and a b => sdgExprCode a ++ " && " ++ sdgExprCode b
  | Expr.or a b => sdgExprCode a ++ " || " ++ sdgExprCode b
  | Expr.not a => "!" ++ sdgExprCode a
  | Expr.paren a => "(" ++ sdgExprCode a ++ ")"
  | Expr.varDeref x OExpr.none => x
  | Expr.varDeref x (OExpr.some idx) => x ++ "[" ++ sdgExprCode idx ++ "]"
  | Expr.call f args => f ++ "(" ++ joinComma (sdgExprCodeList args) ++ ")"
  | Expr.readE => "read()"
  | Expr.headE a => "head(" ++ sdgExprCode a ++ ")"
  | Expr.tailE a => "tail(" ++ sdgExprCode a ++ ")"
  | Expr.lit (Lit.intL tok) => tok
  | Expr.lit (Lit.floatL tok) => tok
  | Expr.lit (Lit.strL tok) => tok
  | Expr.lit (Lit.boolL tok) => tok
  | Expr.lit (Lit.listL Exprs.nil) => "[]"
  | Expr.lit (Lit.listL (Exprs.cons e es)) =>
      "[" ++ joinComma (sdgExprCode e :: sdgExprCodeList es) ++ "]"
  | Expr.lit (Lit.arrayL Exprs.nil) => "\x7b\x7d"
  | Expr.lit (Lit.arrayL (Exprs.cons e es)) =>
      "\x7b" ++ joinComma (sdgExprCode e :: sdgExprCodeList es) ++ "\x7d"
  | Expr.lit (Lit.tupleL es) => "|" ++ joinComma (sdgExprCodeList es) ++ "|"
/-- Codes of an expression list. -/
def sdgExprCodeList : Exprs → List String
  | Exprs.nil => []
  | Exprs.cons e es => sdgExprCode e :: sdgExprCodeList es
end

/-- A per-function SDG: the main graph's nodes, the nodes routed into the
`cluster_box` ("Dead code") subgraph, and the edges (always added to the
main graph). -/
structure SGraph where
  nodes : List CNode
  deadNodes : List CNode
  edges : List CEdge
deriving DecidableEq, Repr

/-- The mutable state of `SDGraphInterpreter` (graphs.py lines 559-575). -/
structure SdgSt where
  nodeId : Nat
  parentId : Option Nat
  isDeadCode : Bool
  liveNodes : List CNode
  deadNodes : List CNode
  edges : List CEdge
  graphs : List (String × SGraph)
deriving DecidableEq

/-- `_add_node` (lines 580-600): the node goes into the dead-code cluster
when `_is_dead_code` is set, into the main graph otherwise. -/
def sdgAddNode (st : SdgSt) (nid : NId) (label shape : String) (fc : Option String) : SdgSt :=
  if st.isDeadCode then
    { st with deadNodes := st.deadNodes ++ [⟨nid, label, shape, fc⟩] }
  else
    { st with liveNodes := st.liveNodes ++ [⟨nid, label, shape, fc⟩] }

/-- `_add_edge` (lines 602-611): undecorated, always into the main graph. -/
def sdgAddEdge (st : SdgSt) (child : Nat) : SdgSt :=
  match st.parentId with
  | Option.none => st
  | Option.some p =>
      { st with edges := st.edges ++ [⟨NId.num p, NId.num child,
          Option.none, Option.none, Option.none, Option.none⟩] }

/-- Python dict assignment for the SDG per-function map. -/
def upsertSGraph : List (String × SGraph) → String → SGraph → List (String × SGraph)
  | [], k, g => [(k, g)]
  | (k', g') :: rest, k, g =>
      if k' = k then (k', g) :: rest else (k', g') :: upsertSGraph rest k g

mutual
/-- The SDG instruction visitors. Statement visitors never move the
parent; `unless_flow` (line 892), `case_flow` (line 895) and
`do_while_flow` (line 920) are `pass`; a standalone `func_call` gets an
oval node from the truthy code returned into `instruction` (lines 692-
696); branches and loops restore the parent and the dead flag. -/
def sdgInstr (st : SdgSt) : Instr → SdgSt
  | Instr.varDefn b e =>
      let thisId := st.nodeId + 1
      let st1 := sdgAddNode { st with nodeId := thisId } (NId.num thisId)
        (b.name ++ ": " ++ typeCodeRaw b.ty ++ " = " ++ sdgExprCode e) "oval" Option.none
      sdgAddEdge st1 thisId
  | Instr.retI oe =>
      let label := match oe with
        | OExpr.some e => "return " ++ sdgExprCode e
        | OExpr.none => "return"
      let thisId := st.nodeId + 1
      let st1 := sdgAddNode { st with nodeId := thisId } (NId.num thisId)
        label "rectangle" (Option.some "#e085dd")
      let st2 := sdgAddEdge st1 thisId
      { st2 with isDeadCode := true }
  | Instr.writeI es =>
      let thisId := st.nodeId + 1
      let st1 := sdgAddNode { st with nodeId := thisId } (NId.num thisId)
        ("write(" ++ joinComma (sdgExprCodeList es) ++ ")") "rectangle" Option.none
      sdgAddEdge st1 thisId
  | Instr.attrib x idx e =>
      let label := match idx with
        | OExpr.none => x ++ " = " ++ sdgExprCode e
        | OExpr.some i => x ++ "[" ++ sdgExprCode i ++ "] = " ++ sdgExprCode e ++ ";"
      let thisId := st.nodeId + 1
      let st1 := sdgAddNode { st with nodeId := thisId } (NId.num thisId)
        label "rectangle" Option.none
      sdgAddEdge st1 thisId
  | Instr.callI f args =>
      let thisId := st.nodeId + 1
      let st1 := sdgAddNode { st with nodeId := thisId } (NId.num thisId)
        (f ++ "(" ++ joinComma (sdgExprCodeList args) ++ ")") "oval" Option.none
      sdgAddEdge st1 thisId
  | Instr.ifF c body elifs els =>
      let thisId := st.nodeId + 1
      let st1 := sdgAddNode { st with nodeId := thisId } (NId.num thisId)
        ("if(" ++ sdgExprCode c ++ ")") "diamond" Option.none
      let st2 := sdgAddEdge st1 thisId
      let st3 := sdgInstrs { st2 with parentId := Option.some thisId } body
      let st4 := { st3 with
        isDeadCode := st.isDeadCode
        parentId := st.parentId }
      let st5 := sdgElifs st4 elifs
      sdgElse st5 els
  | Instr.unlessF _ _ => st
  | Instr.caseF _ _ _ => st
  | Instr.whileF c body =>
      let thisId := st.nodeId + 1
      let st1 := sdgAddNode { st with nodeId := thisId } (NId.num thisId)
        ("while(" ++ sdgExprCode c ++ ")") "diamond" Option.none
      let st2 := sdgAddEdge st1 thisId
      let st3 := sdgAddEdge { st2 with parentId := Option.some thisId } thisId
      let st4 := sdgInstrs st3 body
      { st4 with
        parentId := st.parentId
        isDeadCode := st.isDeadCode }
  | Instr.doWhileF _ _ => st
  | Instr.forF x e body =>
      let thisId := st.nodeId + 1
      let st1 := sdgAddNode { st with nodeId := thisId } (NId.num thisId)
        ("for(" ++ x ++ " in " ++ sdgExprCode e ++ ")") "diamond" Option.none
      let st2 := sdgAddEdge st1 thisId
      let st3 := sdgAddEdge { st2 with parentId := Option.some thisId } thisId
      let st4 := sdgInstrs st3 body
      { st4 with
        parentId := st.parentId
        isDeadCode := st.isDeadCode }
/-- A block in program order. -/
def sdgInstrs (st : SdgSt) : Instrs → SdgSt
  | Instrs.nil => st
  | Instrs.cons i is => sdgInstrs (sdgInstr st i) is
/-- `elif_flow` (lines 866-882): saves and restores parent and flag. -/
def sdgElifs (st : SdgSt) : Elifs → SdgSt
  | Elifs.nil => st
  | Elifs.cons c body rest =>
      let thisId := st.nodeId + 1
      let st1 := sdgAddNode { st with nodeId := thisId } (NId.num thisId)
        ("elif(" ++ sdgExprCode c ++ ")") "diamond" Option.none
      let st2 := sdgAddEdge st1 thisId
      let st3 := sdgInstrs { st2 with parentId := Option.some thisId } body
      let st4 := { st3 with
        isDeadCode := st.isDeadCode
        parentId := st.parentId }
      sdgElifs st4 rest
/-- `else_flow` (lines 884-892): no node of its own; the children attach
to the saved parent, which is restored afterwards together with the flag. -/
def sdgElse (st : SdgSt) : ElseB → SdgSt
  | ElseB.noneE => st
  | ElseB.someE body =>
      let st1 := sdgInstrs st body
      { st1 with
        isDeadCode := st.isDeadCode
        parentId := st.parentId }
end

/-- `func_defn` (lines 627-665): fresh graph and cluster, signature node,
body, flag cleared, complexity over the main graph's nodes only, then the
plaintext annotation. -/
def sdgFuncDefn (st : SdgSt) (fd : FuncDefn) : SdgSt :=
  let st0 := { st with
    liveNodes := []
    deadNodes := []
    edges := [] }
  let pcode := "(" ++ joinComma (fd.params.map
    (fun b => b.name ++ ": " ++ typeCodeRaw b.ty)) ++ ")"
  let tcode := match fd.retTy with
    | Option.some te => " -> " ++ typeCodeRaw te
    | Option.none => ""
  let thisId := st0.nodeId + 1
  let st1 := sdgAddNode { st0 with
    nodeId := thisId
    parentId := Option.some thisId } (NId.num thisId)
    (fd.name ++ pcode ++ tcode) "oval" (Option.some "#c8f771")
  let st2 := sdgInstrs st1 fd.body
  let st3 := { st2 with isDeadCode := false }
  let mccabe : Int := (st3.edges.length : Int) - (st3.liveNodes.length : Int) + 2
  let st4 := sdgAddNode st3 NId.complex ("McCabe's complexity: " ++ toString mccabe)
    "plaintext" Option.none
  { st4 with graphs := upsertSGraph st4.graphs fd.name ⟨st4.liveNodes, st4.deadNodes, st4.edges⟩ }

/-- Top-level `var_defn`s are skipped by the `_is_fn_scope` guard. -/
def sdgConstruct (st : SdgSt) : Construct → SdgSt
  | Construct.fnC fd => sdgFuncDefn st fd
  | Construct.varC _ _ => st

def sdgConstructs (st : SdgSt) : List Construct → SdgSt
  | [] => st
  | c :: cs => sdgConstructs (sdgConstruct st c) cs

/-- Run the SDG builder over a unit from the fresh interpreter state. -/
def sdgUnit (cs : List Construct) : SdgSt :=
  sdgConstructs ⟨0, Option.none, false, [], [], [], []⟩ cs

theorem sdgAddNode_edges (st : SdgSt) (n : NId) (l s : String) (fc : Option String) :
    (sdgAddNode st n l s fc).edges = st.edges := by
  unfold sdgAddNode
  split <;> rfl

theorem sdgAddNode_graphs (st : SdgSt) (n : NId) (l s : String) (fc : Option String) :
    (sdgAddNode st n l s fc).graphs = st.graphs := by
  unfold sdgAddNode
  split <;> rfl

theorem sdgAddNode_flag (st : SdgSt) (n : NId) (l s : String) (fc : Option String) :
    (sdgAddNode st n l s fc).isDeadCode = st.isDeadCode := by
  unfold sdgAddNode
  split <;> rfl

theorem sdgAddEdge_graphs (st : SdgSt) (c : Nat) : (sdgAddEdge st c).graphs = st.graphs := by
  obtain ⟨n0, par, fl, ln, dn, es, gs⟩ := st
  unfold sdgAddEdge
  cases par <;> rfl

theorem sdgAddEdge_flag (st : SdgSt) (c : Nat) :
    (sdgAddEdge st c).isDeadCode = st.isDeadCode := by
  obtain ⟨n0, par, fl, ln, dn, es, gs⟩ := st
  unfold sdgAddEdge
  cases par <;> rfl

/-- SDG edges carry no decoration. -/
def Colorless (es : List CEdge) : Prop :=
  ∀ e ∈ es, e.color = Option.none ∧ e.style = Option.none ∧ e.elabel = Option.none

theorem colorless_nil : Colorless [] := fun e he => absurd he (List.not_mem_nil e)

theorem colorless_addEdge (st : SdgSt) (c : Nat) (h : Colorless st.edges) :
    Colorless (sdgAddEdge st c).edges := by
  obtain ⟨n0, par, fl, ln, dn, es, gs⟩ := st
  unfold sdgAddEdge
  cases par with
  | none => exact h
  | some p =>
      intro e he
      rcases List.mem_append.1 he with hm | hm
      · exact h e hm
      · rcases List.mem_singleton.1 hm with rfl
        exact ⟨rfl, rfl, rfl⟩

theorem colorless_addNode (st : SdgSt) (n : NId) (l s : String) (fc : Option String)
    (h : Colorless st.edges) : Colorless (sdgAddNode st n l s fc).edges := by
  rw [sdgAddNode_edges]
  exact h

mutual
/-- The SDG visitors never touch the per-function map and only append
undecorated edges. -/
theorem sdgInstr_edges : ∀ (i : Instr) (st : SdgSt),
    (sdgInstr st i).graphs = st.graphs
    ∧ (Colorless st.edges → Colorless (sdgInstr st i).edges)
  | Instr.varDefn b e, st => by
      refine ⟨?_, ?_⟩
      · show (sdgAddEdge (sdgAddNode { st with nodeId := st.nodeId + 1 }
          (NId.num (st.nodeId + 1)) (b.name ++ ": " ++ typeCodeRaw b.ty ++ " = "
            ++ sdgExprCode e) "oval" Option.none) (st.nodeId + 1)).graphs = st.graphs
        rw [sdgAddEdge_graphs, sdgAddNode_graphs]
      · intro h
        exact colorless_addEdge _ _ (colorless_addNode _ _ _ _ _ h)
  | Instr.retI oe, st => by
      refine ⟨?_, ?_⟩
      · show (sdgAddEdge (sdgAddNode { st with nodeId := st.nodeId + 1 }
          (NId.num (st.nodeId + 1)) (match oe with
            | OExpr.some e => "return " ++ sdgExprCode e
            | OExpr.none => "return") "rectangle" (Option.some "#e085dd"))
          (st.nodeId + 1)).graphs = st.graphs
        rw [sdgAddEdge_graphs, sdgAddNode_graphs]
      · intro h
        exact colorless_addEdge _ _ (colorless_addNode _ _ _ _ _ h)
  | Instr.writeI es, st => by
      refine ⟨?_, ?_⟩
      · show (sdgAddEdge (sdgAddNode { st with nodeId := st.nodeId + 1 }
          (NId.num (st.nodeId + 1)) ("write(" ++ joinComma (sdgExprCodeList es) ++ ")")
          "rectangle" Option.none) (st.nodeId + 1)).graphs = st.graphs
        rw [sdgAddEdge_graphs, sdgAddNode_graphs]
      · intro h
        exact colorless_addEdge _ _ (colorless_addNode _ _ _ _ _ h)
  | Instr.attrib x idx e, st => by
      refine ⟨?_, ?_⟩
      · show (sdgAddEdge (sdgAddNode { st with nodeId := st.nodeId + 1 }
          (NId.num (st.nodeId + 1)) (match idx with
            | OExpr.none => x ++ " = " ++ sdgExprCode e
            | OExpr.some i => x ++ "[" ++ sdgExprCode i ++ "] = " ++ sdgExprCode e ++ ";")
          "rectangle" Option.none) (st.nodeId + 1)).graphs = st.graphs
        rw [sdgAddEdge_graphs, sdgAddNode_graphs]
      · intro h
        exact colorless_addEdge _ _ (colorless_addNode _ _ _ _ _ h)
  | Instr.callI f args, st => by
      refine ⟨?_, ?_⟩
      · show (sdgAddEdge (sdgAddNode { st with nodeId := st.nodeId + 1 }
          (NId.num (st.nodeId + 1)) (f ++ "(" ++ joinComma (sdgExprCodeList args) ++ ")")
          "oval" Option.none) (st.nodeId + 1)).graphs = st.graphs
        rw [sdgAddEdge_graphs, sdgAddNode_graphs]
      · intro h
        exact colorless_addEdge _ _ (colorless_addNode _ _ _ _ _ h)
  | Instr.ifF c body elifs els, st => by
      let st1 := sdgAddNode { st with nodeId := st.nodeId + 1 } (NId.num (st.nodeId + 1))
        ("if(" ++ sdgExprCode c ++ ")") "diamond" Option.none
      let st2 : SdgSt := sdgAddEdge st1 (st.nodeId + 1)
      let inn : SdgSt := { st2 with parentId := Option.some (st.nodeId + 1) }
      let st3 := sdgInstrs inn body
      let st4 : SdgSt := { st3 with
        isDeadCode := st.isDeadCode
        parentId := st.parentId }
      refine ⟨?_, ?_⟩
      · show (sdgElse (sdgElifs st4 elifs) els).graphs = st.graphs
        rw [(sdgElse_edges els (sdgElifs st4 elifs)).1, (sdgElifs_edges elifs st4).1]
        show st3.graphs = st.graphs
        rw [(sdgInstrs_edges body inn).1]
        show st2.graphs = st.graphs
        rw [sdgAddEdge_graphs, sdgAddNode_graphs]
      · intro h
        have h2 : Colorless st2.edges := colorless_addEdge st1 _
          (colorless_addNode _ _ _ _ _ h)
        have h3 : Colorless st3.edges := (sdgInstrs_edges body inn).2 h2
        have h4 : Colorless st4.edges := h3
        exact (sdgElse_edges els (sdgElifs st4 elifs)).2
          ((sdgElifs_edges elifs st4).2 h4)
  | Instr.unlessF c body, st => ⟨rfl, fun h => h⟩
  | Instr.caseF s arms dflt, st => ⟨rfl, fun h => h⟩
  | Instr.whileF c body, st => by
      let st1 := sdgAddNode { st with nodeId := st.nodeId + 1 } (NId.num (st.nodeId + 1))
        ("while(" ++ sdgExprCode c ++ ")") "diamond" Option.none
      let st2 : SdgSt := sdgAddEdge st1 (st.nodeId + 1)
      let st3 : SdgSt := sdgAddEdge { st2 with parentId := Option.some (st.nodeId + 1) }
        (st.nodeId + 1)
      refine ⟨?_, ?_⟩
      · show (sdgInstrs st3 body).graphs = st.graphs
        rw [(sdgInstrs_edges body st3).1, sdgAddEdge_graphs]
        show st2.graphs = st.graphs
        rw [sdgAddEdge_graphs, sdgAddNode_graphs]
      · intro h
        have h2 : Colorless st2.edges := colorless_addEdge st1 _
          (colorless_addNode _ _ _ _ _ h)
        have h2b : Colorless ({ st2 with parentId := Option.some (st.nodeId + 1) }
          : SdgSt).edges := h2
        have h3 : Colorless st3.edges := colorless_addEdge _ _ h2b
        exact (sdgInstrs_edges body st3).2 h3
  | Instr.doWhileF body c, st => ⟨rfl, fun h => h⟩
  | Instr.forF x e body, st => by
      let st1 := sdgAddNode { st with nodeId := st.nodeId + 1 } (NId.num (st.nodeId + 1))
        ("for(" ++ x ++ " in " ++ sdgExprCode e ++ ")") "diamond" Option.none
      let st2 : SdgSt := sdgAddEdge st1 (st.nodeId + 1)
      let st3 : SdgSt := sdgAddEdge { st2 with parentId := Option.some (st.nodeId + 1) }
        (st.nodeId + 1)
      refine ⟨?_, ?_⟩
      · show (sdgInstrs st3 body).graphs = st.graphs
        rw [(sdgInstrs_edges body st3).1, sdgAddEdge_graphs]
        show st2.graphs = st.graphs
        rw [sdgAddEdge_graphs, sdgAddNode_graphs]
      · intro h
        have h2 : Colorless st2.edges := colorless_addEdge st1 _
          (colorless_addNode _ _ _ _ _ h)
        have h2b : Colorless ({ st2 with parentId := Option.some (st.nodeId + 1) }
          : SdgSt).edges := h2
        have h3 : Colorless st3.edges := colorless_addEdge _ _ h2b
        exact (sdgInstrs_edges body st3).2 h3
theorem sdgInstrs_edges : ∀ (l : Instrs) (st : SdgSt),
    (sdgInstrs st l).graphs = st.graphs
    ∧ (Colorless st.edges → Colorless (sdgInstrs st l).edges)
  | Instrs.nil, st => ⟨rfl, fun h => h⟩
  | Instrs.cons i is, st => by
      have h1 := sdgInstr_edges i st
      have h2 := sdgInstrs_edges is (sdgInstr st i)
      exact ⟨h2.1.trans h1.1, fun h => h2.2 (h1.2 h)⟩
theorem sdgElifs_edges : ∀ (l : Elifs) (st : SdgSt),
    (sdgElifs st l).graphs = st.graphs
    ∧ (Colorless st.edges → Colorless (sdgElifs st l).edges)
  | Elifs.nil, st => ⟨rfl, fun h => h⟩
  | Elifs.cons c body rest, st => by
      let st1 := sdgAddNode { st with nodeId := st.nodeId + 1 } (NId.num (st.nodeId + 1))
        ("elif(" ++ sdgExprCode c ++ ")") "diamond" Option.none
      let st2 : SdgSt := sdgAddEdge st1 (st.nodeId + 1)
      let inn : SdgSt := { st2 with parentId := Option.some (st.nodeId + 1) }
      let st3 := sdgInstrs inn body
      let st4 : SdgSt := { st3 with
        isDeadCode := st.isDeadCode
        parentId := st.parentId }
      refine ⟨?_, ?_⟩
      · show (sdgElifs st4 rest).graphs = st.graphs
        rw [(sdgElifs_edges rest st4).1]
        show st3.graphs = st.graphs
        rw [(sdgInstrs_edges body inn).1]
        show st2.graphs = st.graphs
        rw [sdgAddEdge_graphs, sdgAddNode_graphs]
      · intro h
        have h2 : Colorless st2.edges := colorless_addEdge st1 _
          (colorless_addNode _ _ _ _ _ h)
        have h3 : Colorless st3.edges := (sdgInstrs_edges body inn).2 h2
        have h4 : Colorless st4.edges := h3
        exact (sdgElifs_edges rest st4).2 h4
theorem sdgElse_edges : ∀ (e : ElseB) (st : SdgSt),
    (sdgElse st e).graphs = st.graphs
    ∧ (Colorless st.edges → Colorless (sdgElse st e).edges)
  | ElseB.noneE, st => ⟨rfl, fun h => h⟩
  | ElseB.someE body, st => by
      refine ⟨?_, ?_⟩
      · show (sdgInstrs st body).graphs = st.graphs
        rw [(sdgInstrs_edges body st).1]
      · intro h
        exact (sdgInstrs_edges body st).2 h
end

theorem upsertSGraph_mem : ∀ (gs : List (String × SGraph)) (k : String) (g : SGraph),
    ∀ p ∈ upsertSGraph gs k g, p.2 = g ∨ p ∈ gs
  | [], k, g, p, hp => by
      rcases List.mem_singleton.1 hp with rfl
      exact Or.inl rfl
  | (k', g') :: rest, k, g, p, hp => by
      unfold upsertSGraph at hp
      by_cases hk : k' = k
      · rw [if_pos hk] at hp
        rcases List.mem_cons.1 hp with rfl | hp
        · exact Or.inl rfl
        · exact Or.inr (List.mem_cons_of_mem _ hp)
      · rw [if_neg hk] at hp
        rcases List.mem_cons.1 hp with rfl | hp
        · exact Or.inr (List.mem_cons_self _ _)
        · rcases upsertSGraph_mem rest k g p hp with h | h
          · exact Or.inl h
          · exact Or.inr (List.mem_cons_of_mem _ h)

theorem sdgFuncDefn_colorless (st : SdgSt) (fd : FuncDefn)
    (hg : ∀ p ∈ st.graphs, Colorless p.2.edges) :
    ∀ p ∈ (sdgFuncDefn st fd).graphs, Colorless p.2.edges := by
  let st0 : SdgSt := { st with
    liveNodes := []
    deadNodes := []
    edges := [] }
  let st1 : SdgSt := sdgAddNode { st0 with
    nodeId := st0.nodeId + 1
    parentId := Option.some (st0.nodeId + 1) } (NId.num (st0.nodeId + 1))
    (fd.name ++ ("(" ++ joinComma (fd.params.map
      (fun b => b.name ++ ": " ++ typeCodeRaw b.ty)) ++ ")") ++ (match fd.retTy with
      | Option.some te => " -> " ++ typeCodeRaw te
      | Option.none => "")) "oval" (Option.some "#c8f771")
  let st2 := sdgInstrs st1 fd.body
  let st3 : SdgSt := { st2 with isDeadCode := false }
  have h1 : Colorless st1.edges := colorless_addNode _ _ _ _ _ colorless_nil
  have h2 : Colorless st2.edges := (sdgInstrs_edges fd.body st1).2 h1
  have h4 : Colorless (sdgAddNode st3 NId.complex ("McCabe's complexity: "
      ++ toString ((st3.edges.length : Int) - (st3.liveNodes.length : Int) + 2))
      "plaintext" Option.none).edges := by
    rw [sdgAddNode_edges]
    exact h2
  have hgr : st2.graphs = st.graphs := by
    rw [(sdgInstrs_edges fd.body st1).1, sdgAddNode_graphs]
  intro p hp
  have hp2 : p ∈ upsertSGraph (sdgAddNode st3 NId.complex ("McCabe's complexity: "
      ++ toString ((st3.edges.length : Int) - (st3.liveNodes.length : Int) + 2))
      "plaintext" Option.none).graphs fd.name
      ⟨(sdgAddNode st3 NId.complex ("McCabe's complexity: "
        ++ toString ((st3.edges.length : Int) - (st3.liveNodes.length : Int) + 2))
        "plaintext" Option.none).liveNodes,
       (sdgAddNode st3 NId.complex ("McCabe's complexity: "
        ++ toString ((st3.edges.length : Int) - (st3.liveNodes.length : Int) + 2))
        "plaintext" Option.none).deadNodes,
       (sdgAddNode st3 NId.complex ("McCabe's complexity: "
        ++ toString ((st3.edges.length : Int) - (st3.liveNodes.length : Int) + 2))
        "plaintext" Option.none).edges⟩ := hp
  rcases upsertSGraph_mem _ fd.name _ p hp2 with h | h
  · rw [h]
    show Colorless (sdgAddNode st3 NId.complex ("McCabe's complexity: "
      ++ toString ((st3.edges.length : Int) - (st3.liveNodes.length : Int) + 2))
      "plaintext" Option.none).edges
    exact h4
  · have hgg : (sdgAddNode st3 NId.complex ("McCabe's complexity: "
        ++ toString ((st3.edges.length : Int) - (st3.liveNodes.length : Int) + 2))
        "plaintext" Option.none).graphs = st.graphs := by
      rw [sdgAddNode_graphs]
      exact hgr
    rw [hgg] at h
    exact hg p h

theorem sdgConstructs_colorless : ∀ (cs : List Construct) (st : SdgSt),
    (∀ p ∈ st.graphs, Colorless p.2.edges) →
    ∀ p ∈ (sdgConstructs st cs).graphs, Colorless p.2.edges
  | [], st, hg => hg
  | Construct.varC x e :: cs, st, hg => sdgConstructs_colorless cs st hg
  | Construct.fnC fd :: cs, st, hg =>
      sdgConstructs_colorless cs (sdgFuncDefn st fd) (sdgFuncDefn_colorless st fd hg)

theorem sdgUnit_colorless (cs : List Construct) :
    ∀ p ∈ (sdgUnit cs).graphs, Colorless p.2.edges :=
  sdgConstructs_colorless cs ⟨0, Option.none, false, [], [], [], []⟩
    (fun p hp => absurd hp (List.not_mem_nil p))

/-- Whether an instruction is a `return`. -/
def isRetI : Instr → Bool
  | Instr.retI _ => true
  | _ => false

/-- Whether a block contains a top-level `return`. -/
def hasRet : Instrs → Bool
  | Instrs.nil => false
  | Instrs.cons i is => isRetI i || hasRet is

mutual
/-- The dead flag after a visitor: raised by `ret`, restored by branches
and loops, untouched by everything else. -/
theorem sdgInstr_flag : ∀ (i : Instr) (st : SdgSt),
    (sdgInstr st i).isDeadCode = (st.isDeadCode || isRetI i)
  | Instr.varDefn b e, st => by
      show (sdgAddEdge (sdgAddNode { st with nodeId := st.nodeId + 1 }
        (NId.num (st.nodeId + 1)) (b.name ++ ": " ++ typeCodeRaw b.ty ++ " = "
          ++ sdgExprCode e) "oval" Option.none) (st.nodeId + 1)).isDeadCode
        = (st.isDeadCode || false)
      rw [sdgAddEdge_flag, sdgAddNode_flag, Bool.or_false]
  | Instr.retI oe, st => by
      show true = (st.isDeadCode || true)
      rw [Bool.or_true]
  | Instr.writeI es, st => by
      show (sdgAddEdge (sdgAddNode { st with nodeId := st.nodeId + 1 }
        (NId.num (st.nodeId + 1)) ("write(" ++ joinComma (sdgExprCodeList es) ++ ")")
        "rectangle" Option.none) (st.nodeId + 1)).isDeadCode = (st.isDeadCode || false)
      rw [sdgAddEdge_flag, sdgAddNode_flag, Bool.or_false]
  | Instr.attrib x idx e, st => by
      show (sdgAddEdge (sdgAddNode { st with nodeId := st.nodeId + 1 }
        (NId.num (st.nodeId + 1)) (match idx with
          | OExpr.none => x ++ " = " ++ sdgExprCode e
          | OExpr.some i => x ++ "[" ++ sdgExprCode i ++ "] = " ++ sdgExprCode e ++ ";")
        "rectangle" Option.none) (st.nodeId + 1)).isDeadCode = (st.isDeadCode || false)
      rw [sdgAddEdge_flag, sdgAddNode_flag, Bool.or_false]
  | Instr.callI f args, st => by
      show (sdgAddEdge (sdgAddNode { st with nodeId := st.nodeId + 1 }
        (NId.num (st.nodeId + 1)) (f ++ "(" ++ joinComma (sdgExprCodeList args) ++ ")")
        "oval" Option.none) (st.nodeId + 1)).isDeadCode = (st.isDeadCode || false)
      rw [sdgAddEdge_flag, sdgAddNode_flag, Bool.or_false]
  | Instr.ifF c body elifs els, st => by
      let st1 := sdgAddNode { st with nodeId := st.nodeId + 1 } (NId.num (st.nodeId + 1))
        ("if(" ++ sdgExprCode c ++ ")") "diamond" Option.none
      let st2 : SdgSt := sdgAddEdge st1 (st.nodeId + 1)
      let inn : SdgSt := { st2 with parentId := Option.some (st.nodeId + 1) }
      let st3 := sdgInstrs inn body
      let st4 : SdgSt := { st3 with
        isDeadCode := st.isDeadCode
        parentId := st.parentId }
      show (sdgElse (sdgElifs st4 elifs) els).isDeadCode = (st.isDeadCode || false)
      rw [sdgElse_flag els (sdgElifs st4 elifs), sdgElifs_flag elifs st4, Bool.or_false]
  | Instr.unlessF c body, st => by
      show st.isDeadCode = (st.isDeadCode || false)
      rw [Bool.or_false]
  | Instr.caseF s arms dflt, st => by
      show st.isDeadCode = (st.isDeadCode || false)
      rw [Bool.or_false]
  | Instr.whileF c body, st => by
      show st.isDeadCode = (st.isDeadCode || false)
      rw [Bool.or_false]
  | Instr.doWhileF body c, st => by
      show st.isDeadCode = (st.isDeadCode || false)
      rw [Bool.or_false]
  | Instr.forF x e body, st => by
      show st.isDeadCode = (st.isDeadCode || false)
      rw [Bool.or_false]
theorem sdgElifs_flag : ∀ (l : Elifs) (st : SdgSt),
    (sdgElifs st l).isDeadCode = st.isDeadCode
  | Elifs.nil, st => rfl
  | Elifs.cons c body rest, st => by
      let st1 := sdgAddNode { st with nodeId := st.nodeId + 1 } (NId.num (st.nodeId + 1))
        ("elif(" ++ sdgExprCode c ++ ")") "diamond" Option.none
      let st2 : SdgSt := sdgAddEdge st1 (st.nodeId + 1)
      let inn : SdgSt := { st2 with parentId := Option.some (st.nodeId + 1) }
      let st3 := sdgInstrs inn body
      let st4 : SdgSt := { st3 with
        isDeadCode := st.isDeadCode
        parentId := st.parentId }
      show (sdgElifs st4 rest).isDeadCode = st.isDeadCode
      rw [sdgElifs_flag rest st4]
theorem sdgElse_flag : ∀ (e : ElseB) (st : SdgSt),
    (sdgElse st e).isDeadCode = st.isDeadCode
  | ElseB.noneE, st => rfl
  | ElseB.someE body, st => rfl
end

theorem sdgInstrs_flag : ∀ (l : Instrs) (st : SdgSt),
    (sdgInstrs st l).isDeadCode = (st.isDeadCode || hasRet l)
  | Instrs.nil, st => by
      show st.isDeadCode = (st.isDeadCode || false)
      rw [Bool.or_false]
  | Instrs.cons i is, st => by
      show (sdgInstrs (sdgInstr st i) is).isDeadCode
        = (st.isDeadCode || (isRetI i || hasRet is))
      rw [sdgInstrs_flag is (sdgInstr st i), sdgInstr_flag i st, Bool.or_assoc]

theorem sdgAddEdge_deadNodes (st : SdgSt) (c : Nat) :
    (sdgAddEdge st c).deadNodes = st.deadNodes := by
  obtain ⟨n0, par, fl, ln, dn, es, gs⟩ := st
  unfold sdgAddEdge
  cases par <;> rfl

theorem sdgAddEdge_liveNodes (st : SdgSt) (c : Nat) :
    (sdgAddEdge st c).liveNodes = st.liveNodes := by
  obtain ⟨n0, par, fl, ln, dn, es, gs⟩ := st
  unfold sdgAddEdge
  cases par <;> rfl

theorem sdgAddNode_dead (st : SdgSt) (n : NId) (l s : String) (fc : Option String)
    (h : st.isDeadCode = true) :
    sdgAddNode st n l s fc = { st with deadNodes := st.deadNodes ++ [⟨n, l, s, fc⟩] } := by
  unfold sdgAddNode
  rw [h]
  rw [if_pos rfl]

theorem sdgAddNode_live (st : SdgSt) (n : NId) (l s : String) (fc : Option String)
    (h : st.isDeadCode = false) :
    sdgAddNode st n l s fc = { st with liveNodes := st.liveNodes ++ [⟨n, l, s, fc⟩] } := by
  unfold sdgAddNode
  rw [h]
  rw [if_neg Bool.false_ne_true]

/-- C7 (corrected): the SDG builder is a no-op on `unless`, `case` and
`do-while` (where the CFG emits decision, merge and dummy nodes plus
edges), and its edges carry no color, style or label anywhere. -/
theorem c7_sdg_divergence :
    (∀ (st : SdgSt) (c : Expr) (body : Instrs), sdgInstr st (Instr.unlessF c body) = st)
    ∧ (∀ (st : SdgSt) (s : Expr) (arms : Ofs) (dflt : Instrs),
        sdgInstr st (Instr.caseF s arms dflt) = st)
    ∧ (∀ (st : SdgSt) (body : Instrs) (c : Expr), sdgInstr st (Instr.doWhileF body c) = st)
    ∧ ∀ (cs : List Construct) (name : String) (g : SGraph),
        (name, g) ∈ (sdgUnit cs).graphs →
        ∀ e ∈ g.edges, e.color = Option.none ∧ e.style = Option.none
          ∧ e.elabel = Option.none :=
  ⟨fun _ _ _ => rfl, fun _ _ _ _ => rfl, fun _ _ _ => rfl,
   fun cs name g hg => sdgUnit_colorless cs (name, g) hg⟩

def c7cs : List Construct := [Construct.fnC ⟨"u", [], Option.none,
  Instrs.cons (Instr.unlessF (Expr.lit (Lit.boolL "true")) Instrs.nil)
    (Instrs.cons (Instr.attrib "x" OExpr.none (Expr.lit (Lit.intL "1"))) Instrs.nil)⟩]

/-- On the same unit the CFG graph for `u` has 6 nodes (unless decision,
`end unless` merge, annotation included) while the SDG graph has only 3
in total: the claimed node-for-node agreement fails on `unless`. -/
theorem c7_counterexample :
    (cfgUnit c7cs).graphs.map (fun p => (p.1, p.2.nodes.length)) = [("u", 6)]
    ∧ (sdgUnit c7cs).graphs.map (fun p => (p.1, p.2.nodes.length + p.2.deadNodes.length))
      = [("u", 3)] := by decide

def c7sg : SGraph := ⟨[⟨NId.num 1, "u()", "oval", Option.some "#c8f771"⟩,
  ⟨NId.num 2, "x = 1", "rectangle", Option.none⟩, annotNode 1], [],
  [⟨NId.num 1, NId.num 2, Option.none, Option.none, Option.none, Option.none⟩]⟩

theorem c7_sdg_divergence_witness :
    ("u", c7sg) ∈ (sdgUnit c7cs).graphs
    ∧ ∀ e ∈ c7sg.edges, e.color = Option.none ∧ e.style = Option.none
      ∧ e.elabel = Option.none :=
  ⟨by decide, c7_sdg_divergence.2.2.2 c7cs "u" c7sg (by decide)⟩

/-- C8 (corrected): the dead flag is raised by `ret`, restored by
branches and loops and by nothing else; a statement visited with the flag
up puts its node in the dead-code cluster, with it down in the main
graph. Statements nested under a later sibling of the return inherit the
flag (see the counterexample), so cluster membership is not limited to
the return's own block. -/
theorem c8_dead_cluster :
    (∀ (i : Instr) (st : SdgSt), (sdgInstr st i).isDeadCode = (st.isDeadCode || isRetI i))
    ∧ (∀ (l : Instrs) (st : SdgSt),
        (sdgInstrs st l).isDeadCode = (st.isDeadCode || hasRet l))
    ∧ (∀ (st : SdgSt) (b : VarBind) (e : Expr), st.isDeadCode = true →
        (sdgInstr st (Instr.varDefn b e)).deadNodes
          = st.deadNodes ++ [⟨NId.num (st.nodeId + 1),
              b.name ++ ": " ++ typeCodeRaw b.ty ++ " = " ++ sdgExprCode e, "oval",
              Option.none⟩]
        ∧ (sdgInstr st (Instr.varDefn b e)).liveNodes = st.liveNodes)
    ∧ (∀ (st : SdgSt) (b : VarBind) (e : Expr), st.isDeadCode = false →
        (sdgInstr st (Instr.varDefn b e)).liveNodes
          = st.liveNodes ++ [⟨NId.num (st.nodeId + 1),
              b.name ++ ": " ++ typeCodeRaw b.ty ++ " = " ++ sdgExprCode e, "oval",
              Option.none⟩]
        ∧ (sdgInstr st (Instr.varDefn b e)).deadNodes = st.deadNodes) := by
  refine ⟨sdgInstr_flag, sdgInstrs_flag, ?_, ?_⟩
  · intro st b e h
    constructor
    · show (sdgAddEdge (sdgAddNode { st with nodeId := st.nodeId + 1 }
        (NId.num (st.nodeId + 1)) (b.name ++ ": " ++ typeCodeRaw b.ty ++ " = "
          ++ sdgExprCode e) "oval" Option.none) (st.nodeId + 1)).deadNodes = _
      rw [sdgAddEdge_deadNodes, sdgAddNode_dead { st with nodeId := st.nodeId + 1 } _ _ _ _ h]
    · show (sdgAddEdge (sdgAddNode { st with nodeId := st.nodeId + 1 }
        (NId.num (st.nodeId + 1)) (b.name ++ ": " ++ typeCodeRaw b.ty ++ " = "
          ++ sdgExprCode e) "oval" Option.none) (st.nodeId + 1)).liveNodes = _
      rw [sdgAddEdge_liveNodes, sdgAddNode_dead { st with nodeId := st.nodeId + 1 } _ _ _ _ h]
  · intro st b e h
    constructor
    · show (sdgAddEdge (sdgAddNode { st with nodeId := st.nodeId + 1 }
        (NId.num (st.nodeId + 1)) (b.name ++ ": " ++ typeCodeRaw b.ty ++ " = "
          ++ sdgExprCode e) "oval" Option.none) (st.nodeId + 1)).liveNodes = _
      rw [sdgAddEdge_liveNodes, sdgAddNode_live { st with nodeId := st.nodeId + 1 } _ _ _ _ h]
    · show (sdgAddEdge (sdgAddNode { st with nodeId := st.nodeId + 1 }
        (NId.num (st.nodeId + 1)) (b.name ++ ": " ++ typeCodeRaw b.ty ++ " = "
          ++ sdgExprCode e) "oval" Option.none) (st.nodeId + 1)).deadNodes = _
      rw [sdgAddEdge_deadNodes, sdgAddNode_live { st with nodeId := st.nodeId + 1 } _ _ _ _ h]

def c8cs : List Construct := [Construct.fnC ⟨"h", [], Option.none,
  Instrs.cons (Instr.retI OExpr.none)
    (Instrs.cons (Instr.whileF (Expr.lit (Lit.boolL "true"))
      (Instrs.cons (Instr.attrib "x" OExpr.none (Expr.lit (Lit.intL "1"))) Instrs.nil))
      Instrs.nil)⟩]

def c8sg : SGraph := ⟨
  [⟨NId.num 1, "h()", "oval", Option.some "#c8f771"⟩,
   ⟨NId.num 2, "return", "rectangle", Option.some "#e085dd"⟩,
   annotNode 4],
  [⟨NId.num 3, "while(true)", "diamond", Option.none⟩,
   ⟨NId.num 4, "x = 1", "rectangle", Option.none⟩],
  [⟨NId.num 1, NId.num 2, Option.none, Option.none, Option.none, Option.none⟩,
   ⟨NId.num 1, NId.num 3, Option.none, Option.none, Option.none, Option.none⟩,
   ⟨NId.num 3, NId.num 3, Option.none, Option.none, Option.none, Option.none⟩,
   ⟨NId.num 3, NId.num 4, Option.none, Option.none, Option.none, Option.none⟩]⟩

/-- The statement `x = 1` lives in the loop body, a different lexical
block from the `return`'s, yet its node is placed in the dead-code
cluster: the claim's "no statement in a different block" direction fails. -/
theorem c8_counterexample :
    ("h", c8sg) ∈ (sdgUnit c8cs).graphs
    ∧ (⟨NId.num 4, "x = 1", "rectangle", Option.none⟩ : CNode) ∈ c8sg.deadNodes := by
  decide

theorem c8_dead_cluster_witness :
    ((⟨7, Option.some 1, true, [], [], [], []⟩ : SdgSt).isDeadCode = true
      ∧ (sdgInstr (⟨7, Option.some 1, true, [], [], [], []⟩ : SdgSt)
          (Instr.varDefn ⟨"y", TypeExpr.prim BaseType.INT⟩ (Expr.lit (Lit.intL "2")))).deadNodes
        = [] ++ [⟨NId.num 8, "y: int = 2", "oval", Option.none⟩]
      ∧ (sdgInstr (⟨7, Option.some 1, true, [], [], [], []⟩ : SdgSt)
          (Instr.varDefn ⟨"y", TypeExpr.prim BaseType.INT⟩ (Expr.lit (Lit.intL "2")))).liveNodes
        = [])
    ∧ ((⟨7, Option.some 1, false, [], [], [], []⟩ : SdgSt).isDeadCode = false
      ∧ (sdgInstr (⟨7, Option.some 1, false, [], [], [], []⟩ : SdgSt)
          (Instr.varDefn ⟨"y", TypeExpr.prim BaseType.INT⟩ (Expr.lit (Lit.intL "2")))).liveNodes
        = [] ++ [⟨NId.num 8, "y: int = 2", "oval", Option.none⟩]
      ∧ (sdgInstr (⟨7, Option.some 1, false, [], [], [], []⟩ : SdgSt)
          (Instr.varDefn ⟨"y", TypeExpr.prim BaseType.INT⟩ (Expr.lit (Lit.intL "2")))).deadNodes
        = []) :=
  ⟨⟨rfl, c8_dead_cluster.2.2.1 ⟨7, Option.some 1, true, [], [], [], []⟩
      ⟨"y", TypeExpr.prim BaseType.INT⟩ (Expr.lit (Lit.intL "2")) rfl⟩,
   ⟨rfl, c8_dead_cluster.2.2.2 ⟨7, Option.some 1, false, [], [], [], []⟩
      ⟨"y", TypeExpr.prim BaseType.INT⟩ (Expr.lit (Lit.intL "2")) rfl⟩⟩

/-! ## C9: the CLI exit code (main.py) -/

/-- How processing one file can end (main.py `_gen_outputs`, lines 28-125):
a parse failure (status 3), semantic errors (status 2), or success
(status 0). -/
inductive FileOutcome where
  | parseError
  | semErrors
  | ok
deriving DecidableEq, Repr

/-- The per-file status `_gen_outputs` returns. -/
def genOutputsStatus : FileOutcome → Nat
  | FileOutcome.parseError => 3
  | FileOutcome.semErrors => 2
  | FileOutcome.ok => 0

/-- The loop body of `main` (lines 141-149):
`if (curr_status := _gen_outputs(...)) != 0: status = curr_status`. -/
def mainLoop (status : Nat) : List FileOutcome → Nat
  | [] => status
  | f :: fs =>
      let curr := genOutputsStatus f
      if curr ≠ 0 then mainLoop curr fs else mainLoop status fs

/-- `main` (lines 128-151): exit 1 without arguments, else the loop from 0. -/
def mainExit : List FileOutcome → Nat
  | [] => 1
  | fs => mainLoop 0 fs

theorem mainLoop_lastNonzero : ∀ (fs : List FileOutcome) (acc : Nat),
    mainLoop acc fs
      = ((fs.map genOutputsStatus).filter (fun s => decide (s ≠ 0))).getLastD acc
  | [], acc => rfl
  | f :: fs, acc => by
      show (if genOutputsStatus f ≠ 0 then mainLoop (genOutputsStatus f) fs
        else mainLoop acc fs) = _
      simp only [List.map_cons, List.filter_cons]
      by_cases hs : genOutputsStatus f = 0
      · rw [if_neg (not_not_intro hs), decide_eq_false (not_not_intro hs),
          if_neg Bool.false_ne_true]
        exact mainLoop_lastNonzero fs acc
      · rw [if_pos hs, decide_eq_true hs, if_pos rfl, List.getLastD_cons]
        exact mainLoop_lastNonzero fs (genOutputsStatus f)

/-- C9 (corrected): no arguments exit 1; per-file statuses are 0, 2, 3;
with arguments, the exit code is the LAST nonzero per-file status in file
order (0 when all are 0), not the worst across files. -/
theorem c9_exit_code :
    mainExit [] = 1
    ∧ (genOutputsStatus FileOutcome.ok = 0
        ∧ genOutputsStatus FileOutcome.semErrors = 2
        ∧ genOutputsStatus FileOutcome.parseError = 3)
    ∧ ∀ fs : List FileOutcome, fs ≠ [] →
        mainExit fs
          = ((fs.map genOutputsStatus).filter (fun s => decide (s ≠ 0))).getLastD 0 := by
  refine ⟨rfl, ⟨rfl, rfl, rfl⟩, ?_⟩
  intro fs hne
  cases fs with
  | nil => exact absurd rfl hne
  | cons f fs => exact mainLoop_lastNonzero (f :: fs) 0

/-- A parse failure (3) followed by a semantic failure (2) exits with 2,
not with the worst status 3. -/
theorem c9_counterexample :
    mainExit [FileOutcome.parseError, FileOutcome.semErrors] = 2
    ∧ ([FileOutcome.parseError, FileOutcome.semErrors].map genOutputsStatus).foldr
        max 0 = 3 := by
  decide

theorem c9_exit_code_witness :
    ([FileOutcome.parseError, FileOutcome.semErrors] : List FileOutcome) ≠ []
    ∧ mainExit [FileOutcome.parseError, FileOutcome.semErrors]
      = ((([FileOutcome.parseError, FileOutcome.semErrors].map genOutputsStatus).filter
          (fun s => decide (s ≠ 0))).getLastD 0) :=
  ⟨by decide, c9_exit_code.2.2 [FileOutcome.parseError, FileOutcome.semErrors] (by decide)⟩
